import Mathlib

/-!
# Si5351 clock-synthesizer driver: frequency planning and register encoding

Shallow embedding of `devices/si5351/si5351.go`.

* Go `int64` / `int32` values are `Int`; every arithmetic operation that can leave the
  machine range is reduced with `wrap64` / `wrap32` (two's complement).
* Go `byte` values are `Nat` below 256; `byte(x)` is reduction modulo 256.
* A run-time panic (integer division by zero, index out of range) is `none`.
-/

namespace Si5351

/-! ## Machine integers -/

/-- Two's-complement reduction of an integer to the `int64` range. -/
def wrap64 (x : Int) : Int := (x + 2 ^ 63) % 2 ^ 64 - 2 ^ 63

/-- Two's-complement reduction of an integer to the `int32` range. -/
def wrap32 (x : Int) : Int := (x + 2 ^ 31) % 2 ^ 32 - 2 ^ 31

/-- Go `a + b` on `int64`. -/
def add64 (a b : Int) : Int := wrap64 (a + b)

/-- Go `a - b` on `int64`. -/
def sub64 (a b : Int) : Int := wrap64 (a - b)

/-- Go `a * b` on `int64`. -/
def mul64 (a b : Int) : Int := wrap64 (a * b)

/-- Go `a / b` on `int64`: truncated quotient, run-time panic when `b = 0`. -/
def div64 (a b : Int) : Option Int :=
  if b = 0 then none else some (wrap64 (Int.tdiv a b))

/-- Go `a % b` on `int64`: remainder of the truncated quotient, panic when `b = 0`. -/
def mod64 (a b : Int) : Option Int :=
  if b = 0 then none else some (Int.tmod a b)

/-- Go `a << n` on `int64`. -/
def shl64 (a : Int) (n : Nat) : Int := wrap64 (a * 2 ^ n)

/-- Go `a >> n` on `int64` (arithmetic shift). -/
def shr64 (a : Int) (n : Nat) : Int := Int.shiftRight a n

/-- Go `byte(x)` for an integer `x`: the low eight bits. -/
def byte (x : Int) : Nat := (x % 256).toNat

/-! ## Constants (the `const` block of the source) -/

def outputEnableControl : Nat := 3
def clk0Control : Nat := 16
def clk1Control : Nat := 17
def clk2Control : Nat := 18
def clk3Control : Nat := 19
def clk4Control : Nat := 20
def clk5Control : Nat := 21
def clk6Control : Nat := 22
def clk7Control : Nat := 23
def REGISTER_42_MULTISYNTH0_PARAMETERS_1 : Nat := 42
def REGISTER_50_MULTISYNTH1_PARAMETERS_1 : Nat := 50
def REGISTER_58_MULTISYNTH2_PARAMETERS_1 : Nat := 58
def pllReset : Nat := 177
def crystalInternalLoadCapacitance : Nat := 183
def pllResetB : Nat := 1 <<< 7
def pllResetA : Nat := 1 <<< 5
def freqMult : Int := 1
def pllVcoMin : Int := 600000000
def pllVcoMax : Int := 900000000
def pllAParameters : Nat := 26
def pllBParameters : Nat := 34
def clk0Parameters : Nat := 42
def clk1Parameters : Nat := 50
def clk2Parameters : Nat := 58
def clk3Parameters : Nat := 66
def clk4Parameters : Nat := 74
def clk5Parameters : Nat := 82
def multiSynthMinFreq : Int := 500000
def multiSynthMaxFreq : Int := 225000000
def multiSynthShareMax : Int := 100000000
def multisynthDivby4Freq : Int := 150000000
def clkoutMinFreq : Int := 4000
def multisynthAMin : Int := 6
def multisynthAMax : Int := 1800
def rfracDenom : Int := 1000000
def pllAMin : Int := 24
def pllAMax : Int := 36
def PLLA : Int := 0
def PLLB : Int := 1
def outputClkDiv1 : Int := 0
def outputClkDiv2 : Int := 1
def outputClkDiv4 : Int := 2
def outputClkDiv8 : Int := 3
def outputClkDiv16 : Int := 4
def outputClkDiv32 : Int := 5
def outputClkDiv64 : Int := 6
def outputClkDiv128 : Int := 7
def outputClkDivby4 : Nat := 3 <<< 2
def outputClkDivShift : Nat := 4
def clkIntegerMode : Nat := 1 <<< 6

/-! ## The register transport (`conn.Conn`, consumed by the driver) -/

/-- One bus transaction as seen by the driver: bytes written, bytes read back, and
whether the transport reported success. -/
structure Txn where
  W : List Nat
  R : List Nat
  ok : Bool
deriving DecidableEq, Repr

/-- Transport state: the chip's register file, a script telling which transaction
(counted from 0) fails, and the log of all transactions attempted so far. -/
structure Conn where
  regs : Nat → Nat
  fail : Nat → Bool
  ops : List Txn

/-- Writes `data` to consecutive registers starting at `reg` (address auto-increment). -/
def writeRegs (regs : Nat → Nat) (reg : Nat) : List Nat → Nat → Nat
  | [], a => regs a
  | v :: vs, a => if a = reg then v else writeRegs regs (reg + 1) vs a

/-- Transaction `Tx(w, r)` with `len(r) = rlen`: the first byte of `w` is the register
address, the remaining bytes are stored, and `rlen` bytes are read back from that address.
Returns the new transport state and `some` of the bytes read, or `none` on a transport error. -/
def Conn.Tx (c : Conn) (w : List Nat) (rlen : Nat) : Conn × Option (List Nat) :=
  if c.fail c.ops.length then
    ({ c with ops := c.ops ++ [⟨w, [], false⟩] }, none)
  else
    match w with
    | [] => ({ c with ops := c.ops ++ [⟨w, [], true⟩] }, some [])
    | reg :: data =>
      let regs := writeRegs c.regs reg data
      let r := (List.range rlen).map (fun i => regs (reg + i) % 256)
      ({ c with regs := regs, ops := c.ops ++ [⟨w, r, true⟩] }, some r)

/-! ## Device state -/

/-- The fields of `Dev` that the planning and encoding code reads or writes. -/
structure Dev where
  d : Conn
  crystalFreq : Int
  crystalLoad : Nat
  refCorrection : Int
  pllAFreq : Int
  pllBFreq : Int
  clkFreq : List Int
  clkFirstSet : List Bool

/-! ## Frequency planning -/

/-- `PLLCalc`: feedback-divider triple `(p1, p2, p3)` of a PLL for the VCO frequency `freq`. -/
def PLLCalc (d : Dev) (pllNum : Int) (freq : Int) : Option (Int × Int × Int) := do
  let ref_freq := mul64 d.crystalFreq freqMult
  let corr ← div64 (shl64 d.refCorrection 31) 1000000000
  let ref_freq := add64 ref_freq (shr64 (mul64 corr ref_freq) 31)
  let p1 ← div64 freq ref_freq
  let freq := if p1 < pllAMin then mul64 ref_freq pllAMin else freq
  let freq := if p1 > pllAMax then mul64 ref_freq pllAMax else freq
  let p2 ← div64 (mul64 (sub64 freq (mul64 p1 ref_freq)) rfracDenom) ref_freq
  let p3 := if p2 > 0 then rfracDenom else 1
  pure (p1, p2, p3)

/-- The local `freq` of `CalcMultiSynth` after the two bounds checks. -/
def CalcMultiSynth_freq (freq : Int) : Int :=
  let freq := if freq > multiSynthMaxFreq * freqMult then multiSynthMaxFreq * freqMult else freq
  if freq < multiSynthMinFreq * freqMult then multiSynthMinFreq * freqMult else freq

/-- The local `divby4` of `CalcMultiSynth`. -/
def CalcMultiSynth_divby4 (freq : Int) : Int :=
  if CalcMultiSynth_freq freq ≥ multisynthDivby4Freq * freqMult then 1 else 0

/-- `CalcMultiSynth`: multisynth divider triple and PLL frequency `(p1, p2, p3, pllFreq)`
for the output frequency `freq`; `pllFreq = 0` asks for the PLL frequency to be chosen. -/
def CalcMultiSynth (freq pllFreq : Int) : Option (Int × Int × Int × Int) := do
  let divby4 := CalcMultiSynth_divby4 freq
  let freq := CalcMultiSynth_freq freq
  let (p1, p2, p3, pllFreq) ←
    if pllFreq = 0 then do
      let p1 ←
        if divby4 = 0 then do
          let lltmp := pllVcoMax * freqMult
          let lltmp ← div64 lltmp freq
          pure (if lltmp = 5 then 4 else if lltmp = 7 then 6 else lltmp)
        else pure 4
      pure (p1, (0 : Int), (1 : Int), mul64 p1 freq)
    else do
      let p1 ← div64 pllFreq freq
      let freq ← if p1 < multisynthAMin then div64 pllFreq multisynthAMin else pure freq
      let freq ← if p1 > multisynthAMax then div64 pllFreq multisynthAMax else pure freq
      let r ← mod64 pllFreq freq
      let p2 ← div64 (mul64 r rfracDenom) freq
      let p3 := if p2 > 0 then rfracDenom else 1
      pure (p1, p2, p3, pllFreq)
  if divby4 = 1 then pure (0, 0, 1, pllFreq) else pure (p1, p2, p3, pllFreq)

/-! ## Register access -/

/-- Runs one transaction on the device's connection `d.d`. -/
def Dev.Tx (d : Dev) (w : List Nat) (rlen : Nat) : Dev × Option (List Nat) :=
  let r := d.d.Tx w rlen
  ({ d with d := r.1 }, r.2)

/-- `WriteCommand`: writes `value` to register `reg`; the flag tells whether the
transport reported an error. -/
def WriteCommand (d : Dev) (reg value : Nat) : Dev × Bool :=
  let r := d.Tx [reg, value] 0
  (r.1, r.2.isNone)

/-- `Read`: reads register `reg`; on a transport error the returned slice is empty. -/
def Read (d : Dev) (reg : Nat) : Dev × List Nat × Bool :=
  match d.Tx [reg] 1 with
  | (d1, none) => (d1, [], true)
  | (d1, some buff) => (d1, buff, false)

/-- The options record `Opts`. -/
structure Opts where
  crystalFreq : Int
  crystalLoad : Nat
  crystalPPM : Int
  pllaFreq : Int
  pllbFreq : Int
  refCorrection : Int
  xoFreq : Int

/-- `DefaultOpts`. -/
def DefaultOpts : Opts :=
  { crystalFreq := 25000000, crystalLoad := 3 <<< 6, crystalPPM := 30, pllaFreq := 0,
    pllbFreq := 0, refCorrection := 0, xoFreq := 0 }

/-- The zero-valued `Dev` that `New` allocates around a connection. -/
def zeroDev (c : Conn) : Dev :=
  { d := c, crystalFreq := 0, crystalLoad := 0, refCorrection := 0, pllAFreq := 0,
    pllBFreq := 0, clkFreq := [], clkFirstSet := [] }

/-- `makeDev`: copies the options, resets the channel tables, disables all outputs, powers
down the eight output drivers and programs the crystal load capacitance. -/
def makeDev (d : Dev) (opts : Opts) : Dev :=
  let d := { d with crystalFreq := opts.crystalFreq, refCorrection := opts.refCorrection,
                    crystalLoad := opts.crystalLoad }
  let d := { d with clkFirstSet := [false, false, false, false, false, false] }
  let d := { d with clkFreq := [0, 0, 0, 0, 0, 0] }
  let d := (WriteCommand d outputEnableControl 0xFF).1
  let d := (WriteCommand d clk0Control 0x80).1
  let d := (WriteCommand d clk1Control 0x80).1
  let d := (WriteCommand d clk2Control 0x80).1
  let d := (WriteCommand d clk3Control 0x80).1
  let d := (WriteCommand d clk4Control 0x80).1
  let d := (WriteCommand d clk5Control 0x80).1
  let d := (WriteCommand d clk6Control 0x80).1
  let d := (WriteCommand d clk7Control 0x80).1
  (WriteCommand d crystalInternalLoadCapacitance d.crystalLoad).1

/-- `PLLReset`. -/
def PLLReset (d : Dev) (targetPLL : Int) : Dev :=
  if targetPLL = PLLA then (WriteCommand d pllReset pllResetA).1
  else if targetPLL = PLLB then (WriteCommand d pllReset pllResetB).1
  else d

/-! ## Register encoding -/

/-- The register values `p1, p2, p3` computed at the head of `SetupPLL` from
`(mult, num, denom)`; `128.0*num/denom` is an `int64` expression there. -/
def SetupPLL_regs (mult num denom : Int) : Option (Int × Int × Int) := do
  let q ← div64 (mul64 128 num) denom
  let p1 := sub64 (add64 (mul64 128 mult) q) 512
  let q2 ← div64 (mul64 128 num) denom
  let p2 := sub64 (mul64 128 num) (mul64 denom q2)
  let p3 := denom
  pure (p1, p2, p3)

/-- The nine-byte buffer `buff` of `SetupPLL` (each field is masked, then shifted). -/
def SetupPLL_buff (baseaddr : Nat) (p1 p2 p3 : Int) : List Nat :=
  [ baseaddr,
    byte (shr64 (Int.land p3 0x0000FF00) 8),
    byte (Int.land p3 0x000000FF),
    byte (shr64 (Int.land p1 0x00030000) 16),
    byte (shr64 (Int.land p1 0x0000FF00) 8),
    byte (Int.land p1 0x000000FF),
    byte (shr64 (Int.land p3 0x000F0000) 12) ||| byte (shr64 (Int.land p2 0x000F0000) 16),
    byte (shr64 (Int.land p2 0x0000FF00) 8),
    byte (Int.land p2 0x000000FF) ]

/-- The nine-byte buffer `buff` of `SetupMultiSynthNew` (each field is shifted, then masked). -/
def SetupMultiSynthNew_buff (baseaddr : Nat) (p1 p2 p3 : Int) : List Nat :=
  [ baseaddr,
    byte (Int.land (shr64 p3 8) 0xFF),
    byte (Int.land p3 0xFF),
    byte (Int.land (shr64 p1 16) 0x03),
    byte (Int.land (shr64 p1 8) 0xFF),
    byte (Int.land p1 0xFF),
    byte (Int.land (shr64 p3 12) 0xF0) ||| byte (Int.land (shr64 p2 16) 0x0F),
    byte (Int.land (shr64 p2 8) 0xFF),
    byte (Int.land p2 0xFF) ]

/-- The nine-byte buffer `buff` of `SetupMultiSynth`. -/
def SetupMultiSynth_buff (baseaddr : Nat) (p1 p2 p3 : Int) : List Nat :=
  [ baseaddr,
    byte (Int.land (shr64 p3 8) 0xFF),
    byte (Int.land p3 0xFF),
    byte (Int.land (shr64 p1 16) 0x03),
    byte (Int.land (shr64 p1 8) 0xFF),
    byte (Int.land p1 0xFF),
    byte (Int.land (shr64 p3 12) 0xF0) ||| byte (Int.land (shr64 p2 16) 0x0F),
    byte (Int.land (shr64 p2 8) 0xFF),
    byte (Int.land p2 0xFF) ]

/-- The nine-byte buffer `buff` of `SetupPLLFreq`; byte 6 is one `int64` expression
converted to `byte` as a whole. -/
def SetupPLLFreq_buff (baseAddr : Nat) (p1 p2 p3 : Int) : List Nat :=
  [ baseAddr,
    byte (Int.land (shr64 p3 8) 0xFF),
    byte (Int.land p3 0xFF),
    byte (Int.land (shr64 p1 16) 0x03),
    byte (Int.land (shr64 p1 8) 0xFF),
    byte (Int.land p1 0xFF),
    byte (Int.lor (Int.land (shr64 p3 12) 0xF0) (Int.land (shr64 p2 16) 0x0F)),
    byte (Int.land (shr64 p2 8) 0xFF),
    byte (Int.land p2 0xFF) ]

/-- The register values that `SetupPLLFreq` derives from the triple `(p1, p2, p3)`
returned by `PLLCalc` (`p3` is kept). -/
def SetupPLLFreq_regs (p1 p2 p3 : Int) : Option (Int × Int × Int) := do
  let q ← div64 (mul64 128 p2) p3
  let p1 := sub64 (add64 (mul64 128 p1) q) 512
  let q2 ← div64 (mul64 128 p2) p3
  let p2 := sub64 (mul64 128 p2) (mul64 p3 q2)
  pure (p1, p2, p3)

/-- `SetupPLLFreq`: plans the PLL for `pllFreq`, writes its parameter block and stores
`pllFreq` as the PLL's frequency. -/
def SetupPLLFreq (d : Dev) (targetPLL : Nat) (pllFreq : Int) : Option Dev := do
  let (p1, p2, p3, baseAddr) ←
    if targetPLL = 0 then do
      let (p1, p2, p3) ← PLLCalc d PLLA pllFreq
      pure (p1, p2, p3, pllAParameters)
    else if targetPLL = 1 then do
      let (p1, p2, p3) ← PLLCalc d PLLA pllFreq
      pure (p1, p2, p3, pllBParameters)
    else pure ((0 : Int), (0 : Int), (0 : Int), 0)
  let (p1, p2, p3) ← SetupPLLFreq_regs p1 p2 p3
  let d := (d.Tx (SetupPLLFreq_buff baseAddr p1 p2 p3) 0).1
  if targetPLL = 0 then pure { d with pllAFreq := pllFreq }
  else if targetPLL = 1 then pure { d with pllBFreq := pllFreq }
  else pure d

/-- Value of the float64 expression `int64(128.0*float64(num)/float64(denom))` of
`SetupMultiSynth` and `SetupMultiSynthNew`, as a function of `num` and `denom`. Float
arithmetic is outside the embedding, so the encoders take this function as a parameter. -/
abbrev F64Quot := Int → Int → Int

/-- `SetupIntMode`: read-modify-write of the integer-mode bit of a clock control register. -/
def SetupIntMode (d : Dev) (clk : Int) (status : Bool) : Option Dev := do
  let (d, buff, _) := Read d (byte (wrap32 (16 + clk)))
  let regValue ← buff[0]?
  let regValue := if status then regValue ||| clkIntegerMode
                  else regValue &&& (255 ^^^ clkIntegerMode)
  pure (WriteCommand d (byte (wrap32 (16 + clk))) regValue).1

/-- The local `address` of `MsDiv`. -/
def MsDiv_address (clk : Int) : Int :=
  let address := 0
  let address := if clk = 0 then (clk0Parameters : Int) + 2 else address
  let address := if clk = 1 then (clk1Parameters : Int) + 2 else address
  let address := if clk = 2 then (clk2Parameters : Int) + 2 else address
  let address := if clk = 3 then (clk3Parameters : Int) + 2 else address
  let address := if clk = 4 then (clk3Parameters : Int) + 2 else address
  let address := if clk = 5 then (clk4Parameters : Int) + 2 else address
  let address := if clk = 6 then (clk5Parameters : Int) + 2 else address
  address

/-- The value `MsDiv` writes back, from the value `regValue` it read. -/
def MsDiv_value (clk rDiv divBy4 : Int) (regValue : Nat) : Nat :=
  if clk ≤ 5 then
    let regValue := regValue &&& (255 ^^^ 0x7c)
    let regValue := if divBy4 = 0 then regValue &&& (255 ^^^ outputClkDivby4)
                    else regValue ||| outputClkDivby4
    regValue ||| ((byte rDiv <<< outputClkDivShift) % 256)
  else if clk = 6 then
    let regValue := regValue &&& (255 ^^^ 0x07)
    regValue ||| byte rDiv
  else if clk = 7 then
    let regValue := regValue &&& (255 ^^^ 0x70)
    regValue ||| ((byte rDiv <<< outputClkDivShift) % 256)
  else regValue

/-- `MsDiv`: read-modify-write of the R-divider / divide-by-4 field of a channel. -/
def MsDiv (d : Dev) (clk rDiv divBy4 : Int) : Option Dev := do
  let address := MsDiv_address clk
  let (d, buff, _) := Read d (byte address)
  let regValue ← buff[0]?
  pure (WriteCommand d (byte address) (MsDiv_value clk rDiv divBy4 regValue)).1

/-- The local `baseaddr` of `SetupMultiSynth` and `SetupMultiSynthNew`. -/
def SetupMultiSynth_baseaddr (clk : Int) : Nat :=
  if clk = 0 then REGISTER_42_MULTISYNTH0_PARAMETERS_1
  else if clk = 1 then REGISTER_50_MULTISYNTH1_PARAMETERS_1
  else if clk = 2 then REGISTER_58_MULTISYNTH2_PARAMETERS_1
  else 0

/-- The register values `p1, p2, p3` computed at the head of `SetupMultiSynth` and
`SetupMultiSynthNew` from `(div, num, denom)`. -/
def SetupMultiSynth_regs (fq : F64Quot) (div num denom : Int) : Int × Int × Int :=
  let p1 := sub64 (add64 (mul64 128 div) (fq num denom)) 512
  let p2 := sub64 (mul64 128 num) (mul64 denom (fq num denom))
  let p3 := denom
  (p1, p2, p3)

/-- `SetupMultiSynthNew`: writes a channel's parameter block, then its integer-mode bit and
its R-divider / divide-by-4 field. -/
def SetupMultiSynthNew (fq : F64Quot) (d : Dev) (clk : Int) (pll div num denom : Int)
    (intMode : Bool) (rDiv divBy4 : Int) : Option Dev := do
  let (p1, p2, p3) := SetupMultiSynth_regs fq div num denom
  let d := (d.Tx (SetupMultiSynthNew_buff (SetupMultiSynth_baseaddr clk) p1 p2 p3) 0).1
  let d ← SetupIntMode d clk intMode
  MsDiv d clk rDiv divBy4

/-- The control byte `clkControlReg` of `SetupMultiSynth`. -/
def SetupMultiSynth_control (pll num : Int) : Nat :=
  let clkControlReg := 0x0F
  let clkControlReg := if pll = PLLB then clkControlReg ||| (1 <<< 5) else clkControlReg
  if num = 0 then clkControlReg ||| (1 <<< 6) else clkControlReg

/-- `SetupMultiSynth`: writes a channel's parameter block and its clock control register. -/
def SetupMultiSynth (fq : F64Quot) (d : Dev) (clk : Int) (pll div num denom : Int) : Dev :=
  let (p1, p2, p3) := SetupMultiSynth_regs fq div num denom
  let d := (d.Tx (SetupMultiSynth_buff (SetupMultiSynth_baseaddr clk) p1 p2 p3) 0).1
  let clkControlReg := SetupMultiSynth_control pll num
  if clk = 0 then (WriteCommand d clk0Control clkControlReg).1
  else if clk = 1 then (WriteCommand d clk1Control clkControlReg).1
  else if clk = 2 then (WriteCommand d clk2Control clkControlReg).1
  else d

/-- `OutputEnable`: read-modify-write of a channel's bit in the output-enable register. -/
def OutputEnable (d : Dev) (clk : Nat) (status : Bool) : Option Dev := do
  let (d, buff, _) := Read d outputEnableControl
  let regValue ← buff[0]?
  let regValue := if status then regValue &&& (255 ^^^ ((1 <<< clk) % 256))
                  else regValue ||| ((1 <<< clk) % 256)
  pure (WriteCommand d outputEnableControl regValue).1

/-- `selectRDiv`: the R-divider code for `freq`. The source also scales its local copy of
`freq`, which is not returned. -/
def selectRDiv (freq : Int) : Int :=
  if freq ≥ clkoutMinFreq * freqMult ∧ freq < clkoutMinFreq * freqMult * 2 then outputClkDiv128
  else if freq ≥ clkoutMinFreq * freqMult * 2 ∧ freq < clkoutMinFreq * freqMult * 4 then
    outputClkDiv64
  else if freq ≥ clkoutMinFreq * freqMult * 4 ∧ freq < clkoutMinFreq * freqMult * 8 then
    outputClkDiv32
  else if freq ≥ clkoutMinFreq * freqMult * 8 ∧ freq < clkoutMinFreq * freqMult * 16 then
    outputClkDiv16
  else if freq ≥ clkoutMinFreq * freqMult * 16 ∧ freq < clkoutMinFreq * freqMult * 32 then
    outputClkDiv8
  else if freq ≥ clkoutMinFreq * freqMult * 32 ∧ freq < clkoutMinFreq * freqMult * 64 then
    outputClkDiv4
  else if freq ≥ clkoutMinFreq * freqMult * 64 ∧ freq < clkoutMinFreq * freqMult * 128 then
    outputClkDiv2
  else outputClkDiv1

/-! ## Setting an output frequency -/

/-- Indexed slice assignment `s[i] = v`; panics when `i` is out of range. -/
def setIdx {α : Type} (s : List α) (i : Nat) (v : α) : Option (List α) :=
  if i < s.length then some (s.set i v) else none

/-- The bounds checks on `freq` at the head of `SetupFreq`. -/
def SetupFreq_freq (freq : Int) : Int :=
  let freq := if freq > 0 ∧ freq < clkoutMinFreq * freqMult then clkoutMinFreq * freqMult
              else freq
  if freq > multiSynthMaxFreq * freqMult then multiSynthMaxFreq * freqMult else freq

/-- "Enable the output on first set_freq only": the `clkFirstSet` test of `SetupFreq`. -/
def SetupFreq_firstSet (d : Dev) (clk : Nat) : Option Dev := do
  let first ← d.clkFirstSet[clk]?
  if first = false then do
    let d ← OutputEnable d clk true
    let s ← setIdx d.clkFirstSet clk true
    pure { d with clkFirstSet := s }
  else pure d

/-- The flags `(divBy4, intMode)` chosen for `tempFreq` in the recalculation loop of
`SetupFreq`. -/
def SetupFreq_flags (tempFreq : Int) : Int × Bool :=
  if tempFreq ≥ multisynthDivby4Freq * freqMult then (1, true) else (0, false)

/-- One iteration, for channel `i`, of the recalculation loop of `SetupFreq`; the loop
carries the device and the local `pllFreq`. -/
def SetupFreq_recalc (fq : F64Quot) (st : Dev × Int) (i : Nat) : Option (Dev × Int) := do
  let (d, pllFreq) := st
  let f ← d.clkFreq[i]?
  if f ≠ 0 then do
    let tempFreq := f
    let rDiv := selectRDiv tempFreq
    let (p1, p2, p3, pllFreq) ← CalcMultiSynth tempFreq pllFreq
    let (divBy4, intMode) := SetupFreq_flags tempFreq
    let d ← SetupMultiSynthNew fq d i 0 p1 p2 p3 intMode (wrap32 rDiv) (wrap32 divBy4)
    pure (d, pllFreq)
  else pure (d, pllFreq)

/-- `SetupFreq`: sets the frequency of output `clk`. -/
def SetupFreq (fq : F64Quot) (d : Dev) (clk : Nat) (freq : Int) : Option Dev :=
  if clk ≤ 5 then do
    let freq := SetupFreq_freq freq
    if freq > multiSynthShareMax * freqMult then do
      -- the scan over `d.clkFreq[i]` has an empty body; only the indexing can fault
      let _ ← (List.range 6).mapM (fun i => d.clkFreq[i]?)
      let d ← SetupFreq_firstSet d clk
      let s ← setIdx d.clkFreq clk freq
      let d := { d with clkFreq := s }
      let (_, _, _, pllFreq) ← CalcMultiSynth freq 0
      let d ← SetupPLLFreq d 0 (wrap32 pllFreq)
      let (d, _) ← (List.range 6).foldlM (SetupFreq_recalc fq) (d, pllFreq)
      pure (PLLReset d 0)
    else do
      let s ← setIdx d.clkFreq clk freq
      let d := { d with clkFreq := s }
      let d ← SetupFreq_firstSet d clk
      let _rDiv := selectRDiv freq
      let (p1, p2, p3, pllFreq) ← CalcMultiSynth freq 0
      let d ← SetupPLLFreq d 0 (wrap32 pllFreq)
      pure (SetupMultiSynth fq d clk 0 p1 p2 p3)
  else pure d

/-! ## Reachable device states -/

/-- States reachable from `d0` by calls `SetupFreq(clk, freq)` that return (do not panic),
with `clk` in `0..5` and `freq` an `int32`. -/
inductive Reachable (fq : F64Quot) (d0 : Dev) : Dev → Prop
  | init : Reachable fq d0 d0
  | step {d d' : Dev} (clk : Nat) (freq : Int) :
      Reachable fq d0 d → clk ≤ 5 → -2 ^ 31 ≤ freq → freq < 2 ^ 31 →
      SetupFreq fq d clk freq = some d' → Reachable fq d0 d'

/-- The two device states agree on every field except the connection. -/
def SameMem (d d' : Dev) : Prop :=
  d'.crystalFreq = d.crystalFreq ∧ d'.crystalLoad = d.crystalLoad ∧
  d'.refCorrection = d.refCorrection ∧ d'.pllAFreq = d.pllAFreq ∧
  d'.pllBFreq = d.pllBFreq ∧ d'.clkFreq = d.clkFreq ∧ d'.clkFirstSet = d.clkFirstSet

/-- A transport that never fails, with every register reading 0. -/
def idleConn : Conn := { regs := fun _ => 0, fail := fun _ => false, ops := [] }

/-- The device as `New` leaves it on `idleConn` with `DefaultOpts`. -/
def bootDev : Dev := makeDev (zeroDev idleConn) DefaultOpts

/-- A sample float quotient: `int64(128.0*float64(num)/float64(denom))` evaluated in exact
arithmetic. -/
def exactQuot : F64Quot := fun num denom => Int.tdiv (128 * num) denom

/-- The state after `SetupFreq(0, 10000000)` on `bootDev` (`bootDev` itself if the call
were to fault). -/
def tunedDev : Dev := (SetupFreq exactQuot bootDev 0 10000000).getD bootDev

/-! ## Reference layout of a parameter block -/

/-- Specification side: the documented nine-byte layout of a divider triple: address byte, `p3` bits 15:8 and
7:0, `p1` bits 17:16, 15:8 and 7:0, the nibbles `p3` bits 19:16 and `p2` bits 19:16, then
`p2` bits 15:8 and 7:0. -/
def documentedLayout (baseAddress : Nat) (p1 p2 p3 : Int) : List Nat :=
  [ baseAddress,
    (p3 / 2 ^ 8 % 2 ^ 8).toNat,
    (p3 % 2 ^ 8).toNat,
    (p1 / 2 ^ 16 % 4).toNat,
    (p1 / 2 ^ 8 % 2 ^ 8).toNat,
    (p1 % 2 ^ 8).toNat,
    (16 * (p3 / 2 ^ 16 % 16) + p2 / 2 ^ 16 % 16).toNat,
    (p2 / 2 ^ 8 % 2 ^ 8).toNat,
    (p2 % 2 ^ 8).toNat ]

/-- Specification side: decoding of a nine-byte parameter block back into `(p1, p2, p3)`,
the inverse of the documented layout. -/
def decodeTriple (b : List Nat) : Nat × Nat × Nat :=
  let p3 := (b.getD 6 0 >>> 4) * 2 ^ 16 + b.getD 1 0 * 2 ^ 8 + b.getD 2 0
  let p1 := (b.getD 3 0 &&& 3) * 2 ^ 16 + b.getD 4 0 * 2 ^ 8 + b.getD 5 0
  let p2 := (b.getD 6 0 &&& 15) * 2 ^ 16 + b.getD 7 0 * 2 ^ 8 + b.getD 8 0
  (p1, p2, p3)

/-! ## The transaction log -/

/-- The byte strings handed to `Tx` so far, oldest first (a one-byte string is the address
phase of a register read). -/
def wlog (d : Dev) : List (List Nat) := d.d.ops.map Txn.W

/-- The register writes among a list of transactions: those that carry data after the
address byte. -/
def writesOf (l : List (List Nat)) : List (List Nat) := l.filter (fun w => decide (2 ≤ w.length))

/-- The transport of this device never reports an error. -/
def NoFail (d : Dev) : Prop := ∀ n, d.d.fail n = false

/-- The local `freq` of `selectRDiv` when it returns (`freq *= 128`, ...); Go passes the
parameter by value, so the caller's frequency is not changed. -/
def selectRDiv_freq (freq : Int) : Int :=
  if freq ≥ clkoutMinFreq * freqMult ∧ freq < clkoutMinFreq * freqMult * 2 then
    wrap32 (freq * 128)
  else if freq ≥ clkoutMinFreq * freqMult * 2 ∧ freq < clkoutMinFreq * freqMult * 4 then
    wrap32 (freq * 64)
  else if freq ≥ clkoutMinFreq * freqMult * 4 ∧ freq < clkoutMinFreq * freqMult * 8 then
    wrap32 (freq * 32)
  else if freq ≥ clkoutMinFreq * freqMult * 8 ∧ freq < clkoutMinFreq * freqMult * 16 then
    wrap32 (freq * 16)
  else if freq ≥ clkoutMinFreq * freqMult * 16 ∧ freq < clkoutMinFreq * freqMult * 32 then
    wrap32 (freq * 8)
  else if freq ≥ clkoutMinFreq * freqMult * 32 ∧ freq < clkoutMinFreq * freqMult * 64 then
    wrap32 (freq * 4)
  else if freq ≥ clkoutMinFreq * freqMult * 64 ∧ freq < clkoutMinFreq * freqMult * 128 then
    wrap32 (freq * 2)
  else freq

/-- The state after `SetupFreq(clk, freq)` on `d` with the sample float quotient (`d`
itself if the call were to fault). -/
def runFreq (d : Dev) (clk : Nat) (freq : Int) : Dev := (SetupFreq exactQuot d clk freq).getD d

/-- The transactions issued between the states `d` and `d'`. -/
def newLog (d d' : Dev) : List (List Nat) := (wlog d').drop (wlog d).length

/-- Read-modify-write of one register: the common shape of `OutputEnable`, `SetupIntMode`
and `MsDiv` (read `reg`, take `buff[0]`, write `f buff[0]` back to `reg`). -/
def rmw (d : Dev) (reg : Nat) (f : Nat → Nat) : Option Dev := do
  let (d, buff, _) := Read d reg
  let regValue ← buff[0]?
  pure (WriteCommand d reg (f regValue)).1

/-- The parameter block that the recalculation loop of `SetupFreq` sends for channel `i`,
whose stored frequency is `t`, planned against the PLL frequency `pllFreq` (empty if
`CalcMultiSynth` faults). -/
def SetupFreq_recalc_block (fq : F64Quot) (i : Nat) (t pllFreq : Int) : List Nat :=
  match CalcMultiSynth t pllFreq with
  | some (p1, p2, p3, _) =>
    SetupMultiSynthNew_buff (SetupMultiSynth_baseaddr i) (SetupMultiSynth_regs fq p1 p2 p3).1
      (SetupMultiSynth_regs fq p1 p2 p3).2.1 (SetupMultiSynth_regs fq p1 p2 p3).2.2
  | none => []

/-! ## Comparing two runs on a register file -/

/-- The bits of register `x` that a later read-modify-write of the shared-PLL path depends
on: all but the integer-mode bit of the control registers 16..21, and bit 7 and bits 1:0 of
the R-divider registers 68 and 76; nothing elsewhere. -/
def keyMask (x : Nat) : Nat :=
  if 16 ≤ x ∧ x ≤ 21 then 0xBF else if x = 68 ∨ x = 76 then 0x83 else 0

/-- The empty mask, for the paths that read no register. -/
def noMask (_ : Nat) : Nat := 0

/-- Two register files agree on the bits selected by the mask `m`. -/
def RegSim (m : Nat → Nat) (ra rb : Nat → Nat) : Prop :=
  ∀ x, (ra x % 256) &&& m x = (rb x % 256) &&& m x

/-- Two devices with the same planning inputs, both on a transport that never fails, whose
register files agree on the bits selected by `m`. -/
def Sim (m : Nat → Nat) (a b : Dev) : Prop :=
  a.crystalFreq = b.crystalFreq ∧ a.refCorrection = b.refCorrection ∧
  a.clkFreq = b.clkFreq ∧ a.clkFirstSet = b.clkFirstSet ∧ NoFail a ∧ NoFail b ∧
  RegSim m a.d.regs b.d.regs

/-- An operation took `a` to `a'` and `b` to `b'`: it appended the same transactions, none
of them addressed to the output-enable register, to both logs, the results are related, and
`a'` is still related to `a`. -/
def Step (m : Nat → Nat) (a a' b b' : Dev) : Prop :=
  Sim m a' b' ∧ Sim m a a' ∧
  ∃ l, wlog a' = wlog a ++ l ∧ wlog b' = wlog b ++ l ∧ ∀ w ∈ l, w.head? ≠ some 3

/-! ## Device construction and the reference frequency -/

def deviceStatus : Nat := 0
def interruptStatusSticky : Nat := 1
def multisynthP1Max : Int := 2 ^ 18 - 1

/-- The local `ref_freq` of `PLLCalc` after the calibration value has been factored in. -/
def PLLCalc_ref_freq (d : Dev) : Option Int := do
  let ref_freq := mul64 d.crystalFreq freqMult
  let corr ← div64 (shl64 d.refCorrection 31) 1000000000
  pure (add64 ref_freq (shr64 (mul64 corr ref_freq) 31))

/-- The zero-valued `Opts`. -/
def zeroOpts : Opts :=
  { crystalFreq := 0, crystalLoad := 0, crystalPPM := 0, pllaFreq := 0, pllbFreq := 0,
    refCorrection := 0, xoFreq := 0 }

/-- The errors `New` returns. -/
inductive NewError where
  | addressNotSupported
  | notReady
  | sysStatus
  | intStatus
deriving DecidableEq, Repr

/-- `UpdateSysStatus`: reads the device status register; the flag tells whether an error
is returned. The read is checked before the buffer is indexed. The parsed `Status` fields
are not part of `Dev` here. -/
def UpdateSysStatus (d : Dev) : Option (Dev × Bool) := do
  let (d, buff, err) := Read d deviceStatus
  if err then pure (d, true)
  else do
    let _regValue ← buff[0]?
    pure (d, false)

/-- `UpdateIntStatus`: the same for the sticky interrupt status register. -/
def UpdateIntStatus (d : Dev) : Option (Dev × Bool) := do
  let (d, buff, err) := Read d interruptStatusSticky
  if err then pure (d, true)
  else do
    let _regValue ← buff[0]?
    pure (d, false)

/-- `New`: checks the address, reads the status register and tests its `SYS_INIT` bit
without looking at the read error, updates the two status records and builds the device.
`none` is a run-time panic. -/
def New (c : Conn) (addr : Nat) (opts : Opts) : Option (Except NewError Dev) :=
  if addr = 0x60 ∨ addr = 0x62 then do
    let d := zeroDev c
    let (d, regValue, _) := Read d deviceStatus
    let v ← regValue[0]?
    if v >>> 7 = 1 then pure (Except.error NewError.notReady)
    else do
      let (d, err) ← UpdateSysStatus d
      if err then pure (Except.error NewError.sysStatus)
      else do
        let (d, err) ← UpdateIntStatus d
        if err then pure (Except.error NewError.intStatus)
        else pure (Except.ok (makeDev d opts))
  else pure (Except.error NewError.addressNotSupported)

/-- A transport on which every transaction fails. -/
def deadConn : Conn := { regs := fun _ => 0, fail := fun _ => true, ops := [] }

/-- A transport on which exactly transaction number `n` (counted from 0) fails. -/
def failAt (n : Nat) : Conn := { regs := fun _ => 0, fail := fun k => decide (k = n), ops := [] }

/-- The device built with `DefaultOpts` on a transport that fails transaction `n`. -/
def flakyDev (n : Nat) : Dev := makeDev (zeroDev (failAt n)) DefaultOpts

/-! ## Basic facts about the machine-integer operations -/

theorem wrap64_of_range {x : Int} (h1 : -9223372036854775808 ≤ x)
    (h2 : x < 9223372036854775808) : wrap64 x = x := by
  unfold wrap64
  omega

theorem wrap32_of_range {x : Int} (h1 : -2147483648 ≤ x)
    (h2 : x < 2147483648) : wrap32 x = x := by
  unfold wrap32
  omega

theorem div64_of_nonneg {a b : Int} (ha : 0 ≤ a) (ha2 : a < 9223372036854775808)
    (hb : 0 < b) : div64 a b = some (a / b) := by
  have hq0 : 0 ≤ a / b := Int.ediv_nonneg ha hb.le
  have hq1 : a / b ≤ a := Int.ediv_le_self b ha
  have hb0 : b ≠ 0 := by omega
  simp only [div64, hb0, if_false, Int.tdiv_eq_ediv ha hb.le]
  rw [wrap64_of_range (by omega) (by omega)]

theorem mod64_of_nonneg {a b : Int} (ha : 0 ≤ a) (hb : 0 < b) :
    mod64 a b = some (a % b) := by
  have hb0 : b ≠ 0 := by omega
  simp only [mod64, hb0, if_false, Int.tmod_eq_emod ha hb.le]

/-- With correction 0 the reference frequency used by `PLLCalc` is the crystal frequency. -/
theorem PLLCalc_corr_zero (d : Dev) (pllNum freq : Int) (hc : d.refCorrection = 0)
    (h1 : -9223372036854775808 ≤ d.crystalFreq) (h2 : d.crystalFreq < 9223372036854775808) :
    PLLCalc d pllNum freq =
      (div64 freq d.crystalFreq).bind (fun p1 =>
        let freq1 := if p1 < pllAMin then mul64 d.crystalFreq pllAMin else freq
        let freq2 := if p1 > pllAMax then mul64 d.crystalFreq pllAMax else freq1
        (div64 (mul64 (sub64 freq2 (mul64 p1 d.crystalFreq)) rfracDenom) d.crystalFreq).bind
          (fun p2 => some (p1, p2, if p2 > 0 then rfracDenom else 1))) := by
  have e1 : div64 (shl64 0 31) 1000000000 = some 0 := by decide
  have e2 : mul64 d.crystalFreq freqMult = d.crystalFreq := by
    simp only [mul64, freqMult, mul_one]
    exact wrap64_of_range h1 h2
  have e3 : add64 d.crystalFreq (shr64 (mul64 0 d.crystalFreq) 31) = d.crystalFreq := by
    have : shr64 (mul64 0 d.crystalFreq) 31 = 0 := by
      simp only [mul64, zero_mul]
      decide
    rw [this]
    simp only [add64, add_zero]
    exact wrap64_of_range h1 h2
  unfold PLLCalc
  rw [hc, e1]
  simp only [Option.bind_eq_bind, Option.some_bind, Option.pure_def, e2, e3]

/-- C1. With reference correction 0 and crystal frequency `r` (`0 < r ≤ 10^9`), for every
target VCO frequency `f` with `24 r ≤ f < 37 r`, `PLLCalc` returns `p1 = ⌊f / r⌋`,
`p2 = ⌊(f - p1 r) * 10^6 / r⌋` and `p3 = 10^6` if `p2 > 0`, else `1`. In particular
`f = a r` with `24 ≤ a ≤ 36` yields `(a, 0, 1)`, and `r = 25 MHz`, `f = 616 MHz` yields
`(24, 640000, 1000000)`. -/
theorem PLLCalc_in_range (d : Dev) (pllNum : Int) (hc : d.refCorrection = 0)
    (hr0 : 0 < d.crystalFreq) (hr1 : d.crystalFreq ≤ 1000000000) :
    (∀ f : Int, 24 * d.crystalFreq ≤ f → f < 37 * d.crystalFreq →
      PLLCalc d pllNum f =
        some (f / d.crystalFreq,
              (f - f / d.crystalFreq * d.crystalFreq) * 1000000 / d.crystalFreq,
              if (f - f / d.crystalFreq * d.crystalFreq) * 1000000 / d.crystalFreq > 0
                then 1000000 else 1)) ∧
    (∀ a : Int, 24 ≤ a → a ≤ 36 → PLLCalc d pllNum (a * d.crystalFreq) = some (a, 0, 1)) ∧
    (d.crystalFreq = 25000000 →
      PLLCalc d pllNum 616000000 = some (24, 640000, 1000000)) := by
  have main : ∀ f : Int, 24 * d.crystalFreq ≤ f → f < 37 * d.crystalFreq →
      PLLCalc d pllNum f =
        some (f / d.crystalFreq,
              (f - f / d.crystalFreq * d.crystalFreq) * 1000000 / d.crystalFreq,
              if (f - f / d.crystalFreq * d.crystalFreq) * 1000000 / d.crystalFreq > 0
                then 1000000 else 1) := by
    intro f hf0 hf1
    generalize hr : d.crystalFreq = r at *
    have hq0 : 24 ≤ f / r := by
      rw [Int.le_ediv_iff_mul_le hr0]; linarith
    have hq1 : f / r < 37 := by
      rw [Int.ediv_lt_iff_lt_mul hr0]; linarith
    have hm0 : 0 ≤ f % r := Int.emod_nonneg f (by omega)
    have hm1 : f % r < r := Int.emod_lt_of_pos f hr0
    have hdm : r * (f / r) + f % r = f := Int.ediv_add_emod f r
    have hrem : f - f / r * r = f % r := by linarith
    have hprod : f / r * r ≤ 36 * r := by nlinarith
    have hprod0 : 0 ≤ f / r * r := by nlinarith
    rw [PLLCalc_corr_zero d pllNum f hc (by omega) (by omega), hr]
    rw [div64_of_nonneg (by linarith) (by linarith) hr0]
    simp only [Option.some_bind, pllAMin, pllAMax]
    rw [if_neg (by omega), if_neg (by omega)]
    have e1 : mul64 (f / r) r = f / r * r := by
      unfold mul64; exact wrap64_of_range (by linarith) (by linarith)
    have e2 : sub64 f (f / r * r) = f % r := by
      unfold sub64; rw [hrem]; exact wrap64_of_range (by linarith) (by linarith)
    have e3 : mul64 (f % r) rfracDenom = f % r * 1000000 := by
      unfold mul64 rfracDenom; exact wrap64_of_range (by linarith) (by linarith)
    rw [e1, e2, e3, div64_of_nonneg (by linarith) (by linarith) hr0, hrem]
    simp only [Option.some_bind, rfracDenom]
  refine ⟨main, ?_, ?_⟩
  · intro a ha0 ha1
    have hr0' : d.crystalFreq ≠ 0 := by omega
    have h := main (a * d.crystalFreq) (by nlinarith) (by nlinarith)
    rw [h, Int.mul_ediv_cancel a hr0']
    simp
  · intro hr
    have h := main 616000000 (by omega) (by omega)
    rw [h, hr]
    decide

/-! ## `CalcMultiSynth` -/

theorem CalcMultiSynth_freq_of_range {t : Int} (h0 : 500000 ≤ t) (h1 : t ≤ 225000000) :
    CalcMultiSynth_freq t = t := by
  simp only [CalcMultiSynth_freq, multiSynthMaxFreq, multiSynthMinFreq, freqMult, mul_one]
  rw [if_neg (by omega), if_neg (by omega)]

theorem CalcMultiSynth_freq_bounds (t : Int) :
    500000 ≤ CalcMultiSynth_freq t ∧ CalcMultiSynth_freq t ≤ 225000000 := by
  simp only [CalcMultiSynth_freq, multiSynthMaxFreq, multiSynthMinFreq, freqMult, mul_one]
  split_ifs <;> omega

/-- C2. For `500,000 ≤ t < 150,000,000`, `CalcMultiSynth t 0` returns `(a, 0, 1, a t)` with
`a = ⌊900,000,000 / t⌋`, except `a = 6` when that quotient is 7; the reconstruction
`pllFreq / (p1 + p2 / p3)` equals `t` exactly, and `t = 13,557,000` gives `a = 66`,
`pllFreq = 894,762,000`. -/
theorem CalcMultiSynth_pll_not_fixed (t : Int) (h0 : 500000 ≤ t) (h1 : t < 150000000) :
    (∃ a : Int, (a = if 900000000 / t = 7 then 6 else 900000000 / t) ∧
      CalcMultiSynth t 0 = some (a, 0, 1, a * t) ∧
      ((a * t : Int) : ℚ) / ((a : ℚ) + ((0 : Int) : ℚ) / ((1 : Int) : ℚ)) = (t : ℚ)) ∧
    CalcMultiSynth 13557000 0 = some (66, 0, 1, 894762000) := by
  have ht : (0 : Int) < t := by omega
  have hq0 : 6 ≤ 900000000 / t := by
    rw [Int.le_ediv_iff_mul_le ht]; omega
  have hq1 : 900000000 / t ≤ 1800 := by
    have : 900000000 / t < 1801 := by
      rw [Int.ediv_lt_iff_lt_mul ht]; omega
    omega
  have hcf : CalcMultiSynth_freq t = t := CalcMultiSynth_freq_of_range h0 (by omega)
  have hd4 : CalcMultiSynth_divby4 t = 0 := by
    simp only [CalcMultiSynth_divby4, hcf, multisynthDivby4Freq, freqMult, mul_one]
    rw [if_neg (by omega)]
  refine ⟨⟨_, rfl, ?_, ?_⟩, by decide⟩
  · have hdiv : div64 900000000 t = some (900000000 / t) :=
      div64_of_nonneg (by omega) (by omega) ht
    have hne5 : ¬ (900000000 / t = 5) := by omega
    simp only [CalcMultiSynth, hcf, hd4, pllVcoMax, freqMult, mul_one, hdiv, if_true,
      Option.bind_eq_bind, Option.some_bind, Option.pure_def, if_neg hne5]
    have hmul : ∀ a : Int, 6 ≤ a → a ≤ 1800 → mul64 a t = a * t := by
      intro a ha0 ha1
      unfold mul64
      exact wrap64_of_range (by nlinarith) (by nlinarith)
    by_cases h7 : 900000000 / t = 7
    · simp [h7, hmul 6 (by omega) (by omega)]
    · simp [h7, hmul _ hq0 hq1]
  · have ha : (0 : ℚ) < ((if 900000000 / t = 7 then 6 else 900000000 / t : Int) : ℚ) := by
      have : (0 : Int) < (if 900000000 / t = 7 then 6 else 900000000 / t) := by
        split_ifs <;> omega
      exact_mod_cast this
    generalize (if 900000000 / t = 7 then (6 : Int) else 900000000 / t) = a at ha
    have hne : (a : ℚ) ≠ 0 := ne_of_gt ha
    push_cast
    field_simp

/-! ## Bit fields of non-negative values -/

set_option maxRecDepth 100000 in
theorem byte_masks : ∀ k < 256, k &&& 0xFF = k ∧ k &&& 0x03 = k % 4 ∧ k &&& 0x0F = k % 16 ∧
    k &&& 0xF0 = 16 * (k / 16 % 16) := by decide

theorem nibble_or : ∀ x < 16, ∀ y < 16, (16 * x) ||| y = 16 * x + y := by decide

theorem and_mask_byte (m M : Nat) (hM : M < 256) : m &&& M = (m % 256) &&& M := by
  apply Nat.eq_of_testBit_eq
  intro i
  rw [Nat.testBit_and, Nat.testBit_and, show (256 : Nat) = 2 ^ 8 from rfl,
    Nat.testBit_mod_two_pow]
  by_cases hi : i < 8
  · simp [hi]
  · have hpow : 256 ≤ 2 ^ i :=
      calc 256 = 2 ^ 8 := rfl
        _ ≤ 2 ^ i := Nat.pow_le_pow_right (by decide) (by omega)
    have : M.testBit i = false := Nat.testBit_lt_two_pow (lt_of_lt_of_le hM hpow)
    simp [this]

theorem shiftRight_and (a b i : Nat) : (a &&& b) >>> i = (a >>> i) &&& (b >>> i) := by
  apply Nat.eq_of_testBit_eq
  intro j
  simp only [Nat.testBit_shiftRight, Nat.testBit_and]

theorem shr_and_FF (n k : Nat) : (n >>> k) &&& 0xFF = n / 2 ^ k % 256 := by
  rw [and_mask_byte _ _ (by decide), (byte_masks _ (Nat.mod_lt _ (by decide))).1,
    Nat.shiftRight_eq_div_pow]

theorem shr_and_03 (n k : Nat) : (n >>> k) &&& 0x03 = n / 2 ^ k % 4 := by
  rw [and_mask_byte _ _ (by decide), (byte_masks _ (Nat.mod_lt _ (by decide))).2.1,
    Nat.shiftRight_eq_div_pow]
  omega

theorem shr_and_0F (n k : Nat) : (n >>> k) &&& 0x0F = n / 2 ^ k % 16 := by
  rw [and_mask_byte _ _ (by decide), (byte_masks _ (Nat.mod_lt _ (by decide))).2.2.1,
    Nat.shiftRight_eq_div_pow]
  omega

theorem shr_and_F0 (n : Nat) : (n >>> 12) &&& 0xF0 = 16 * (n / 2 ^ 16 % 16) := by
  rw [and_mask_byte _ _ (by decide), (byte_masks _ (Nat.mod_lt _ (by decide))).2.2.2,
    Nat.shiftRight_eq_div_pow]
  omega

theorem and_FF (n : Nat) : n &&& 0xFF = n % 256 := by
  have := shr_and_FF n 0
  simpa using this

theorem and_FF00_shr (n : Nat) : (n &&& 0xFF00) >>> 8 = n / 2 ^ 8 % 256 := by
  rw [shiftRight_and, show (0xFF00 : Nat) >>> 8 = 0xFF from rfl, shr_and_FF]

theorem and_30000_shr (n : Nat) : (n &&& 0x30000) >>> 16 = n / 2 ^ 16 % 4 := by
  rw [shiftRight_and, show (0x30000 : Nat) >>> 16 = 0x03 from rfl, shr_and_03]

theorem and_F0000_shr12 (n : Nat) : (n &&& 0xF0000) >>> 12 = 16 * (n / 2 ^ 16 % 16) := by
  rw [shiftRight_and, show (0xF0000 : Nat) >>> 12 = 0xF0 from rfl, shr_and_F0]

theorem and_F0000_shr16 (n : Nat) : (n &&& 0xF0000) >>> 16 = n / 2 ^ 16 % 16 := by
  rw [shiftRight_and, show (0xF0000 : Nat) >>> 16 = 0x0F from rfl, shr_and_0F]

/-- The shift-then-mask buffer of a triple of naturals is the documented layout. -/
theorem shiftMask_layout (base n1 n2 n3 : Nat) :
    SetupPLLFreq_buff base n1 n2 n3 = documentedLayout base n1 n2 n3 ∧
    SetupMultiSynth_buff base n1 n2 n3 = documentedLayout base n1 n2 n3 := by
  have key : SetupMultiSynth_buff base n1 n2 n3 = documentedLayout base n1 n2 n3 := by
    show [base, ((((n3 >>> 8) &&& 0xFF : Nat) : Int) % 256).toNat,
        (((n3 &&& 0xFF : Nat) : Int) % 256).toNat,
        ((((n1 >>> 16) &&& 0x03 : Nat) : Int) % 256).toNat,
        ((((n1 >>> 8) &&& 0xFF : Nat) : Int) % 256).toNat,
        (((n1 &&& 0xFF : Nat) : Int) % 256).toNat,
        ((((n3 >>> 12) &&& 0xF0 : Nat) : Int) % 256).toNat |||
          ((((n2 >>> 16) &&& 0x0F : Nat) : Int) % 256).toNat,
        ((((n2 >>> 8) &&& 0xFF : Nat) : Int) % 256).toNat,
        (((n2 &&& 0xFF : Nat) : Int) % 256).toNat] = _
    simp only [shr_and_FF, shr_and_03, shr_and_0F, shr_and_F0, and_FF, documentedLayout]
    have hor : (((16 * (n3 / 2 ^ 16 % 16) : Nat) : Int) % 256).toNat |||
        (((n2 / 2 ^ 16 % 16 : Nat) : Int) % 256).toNat =
        16 * (n3 / 2 ^ 16 % 16) + n2 / 2 ^ 16 % 16 := by
      have e1 : (((16 * (n3 / 2 ^ 16 % 16) : Nat) : Int) % 256).toNat =
          16 * (n3 / 2 ^ 16 % 16) := by omega
      have e2 : (((n2 / 2 ^ 16 % 16 : Nat) : Int) % 256).toNat = n2 / 2 ^ 16 % 16 := by omega
      rw [e1, e2]
      exact nibble_or _ (Nat.mod_lt _ (by decide)) _ (Nat.mod_lt _ (by decide))
    rw [hor]
    simp only [List.cons.injEq, true_and, and_true, Nat.reducePow, Int.reducePow]
    refine ⟨?_, ?_, ?_, ?_, ?_, ?_, ?_, ?_⟩ <;> omega
  refine ⟨?_, key⟩
  rw [← key]
  show [base, _, _, _, _, _,
      ((((((n3 >>> 12) &&& 0xF0) ||| ((n2 >>> 16) &&& 0x0F) : Nat)) : Int) % 256).toNat, _, _] =
    [base, _, _, _, _, _,
      ((((n3 >>> 12) &&& 0xF0 : Nat) : Int) % 256).toNat |||
          ((((n2 >>> 16) &&& 0x0F : Nat) : Int) % 256).toNat, _, _]
  simp only [shr_and_0F, shr_and_F0]
  have hx : n3 / 2 ^ 16 % 16 < 16 := Nat.mod_lt _ (by decide)
  have hy : n2 / 2 ^ 16 % 16 < 16 := Nat.mod_lt _ (by decide)
  have e1 : (((16 * (n3 / 2 ^ 16 % 16) : Nat) : Int) % 256).toNat =
      16 * (n3 / 2 ^ 16 % 16) := by omega
  have e2 : (((n2 / 2 ^ 16 % 16 : Nat) : Int) % 256).toNat = n2 / 2 ^ 16 % 16 := by omega
  rw [e1, e2, nibble_or _ hx _ hy]
  have e3 : (((16 * (n3 / 2 ^ 16 % 16) + n2 / 2 ^ 16 % 16 : Nat) : Int) % 256).toNat =
      16 * (n3 / 2 ^ 16 % 16) + n2 / 2 ^ 16 % 16 := by omega
  rw [e3]

/-- The mask-then-shift buffer of a triple of naturals is the documented layout. -/
theorem maskShift_layout (base n1 n2 n3 : Nat) :
    SetupPLL_buff base n1 n2 n3 = documentedLayout base n1 n2 n3 := by
  show [base, ((((n3 &&& 0xFF00) >>> 8 : Nat) : Int) % 256).toNat,
      (((n3 &&& 0xFF : Nat) : Int) % 256).toNat,
      ((((n1 &&& 0x30000) >>> 16 : Nat) : Int) % 256).toNat,
      ((((n1 &&& 0xFF00) >>> 8 : Nat) : Int) % 256).toNat,
      (((n1 &&& 0xFF : Nat) : Int) % 256).toNat,
      ((((n3 &&& 0xF0000) >>> 12 : Nat) : Int) % 256).toNat |||
        ((((n2 &&& 0xF0000) >>> 16 : Nat) : Int) % 256).toNat,
      ((((n2 &&& 0xFF00) >>> 8 : Nat) : Int) % 256).toNat,
      (((n2 &&& 0xFF : Nat) : Int) % 256).toNat] = _
  simp only [and_FF00_shr, and_30000_shr, and_F0000_shr12, and_F0000_shr16, and_FF,
    documentedLayout]
  have hor : (((16 * (n3 / 2 ^ 16 % 16) : Nat) : Int) % 256).toNat |||
      (((n2 / 2 ^ 16 % 16 : Nat) : Int) % 256).toNat =
      16 * (n3 / 2 ^ 16 % 16) + n2 / 2 ^ 16 % 16 := by
    have e1 : (((16 * (n3 / 2 ^ 16 % 16) : Nat) : Int) % 256).toNat =
        16 * (n3 / 2 ^ 16 % 16) := by omega
    have e2 : (((n2 / 2 ^ 16 % 16 : Nat) : Int) % 256).toNat = n2 / 2 ^ 16 % 16 := by omega
    rw [e1, e2]
    exact nibble_or _ (Nat.mod_lt _ (by decide)) _ (Nat.mod_lt _ (by decide))
  rw [hor]
  simp only [List.cons.injEq, true_and, and_true, Nat.reducePow, Int.reducePow]
  refine ⟨?_, ?_, ?_, ?_, ?_, ?_, ?_, ?_⟩ <;> omega

/-- C3. For all non-negative register values `p1, p2, p3` and every base address, the
nine-byte buffers built by `SetupPLL` (mask-then-shift), `SetupMultiSynth`,
`SetupMultiSynthNew` and `SetupPLLFreq` (shift-then-mask) all equal the documented layout:
address; `p3` bits 15:8, 7:0; `p1` bits 17:16, 15:8, 7:0; `16 * p3[19:16] + p2[19:16]`;
`p2` bits 15:8, 7:0. -/
theorem buffers_match_layout (base : Nat) (p1 p2 p3 : Int)
    (h1 : 0 ≤ p1) (h2 : 0 ≤ p2) (h3 : 0 ≤ p3) :
    SetupPLL_buff base p1 p2 p3 = documentedLayout base p1 p2 p3 ∧
    SetupMultiSynth_buff base p1 p2 p3 = documentedLayout base p1 p2 p3 ∧
    SetupMultiSynthNew_buff base p1 p2 p3 = documentedLayout base p1 p2 p3 ∧
    SetupPLLFreq_buff base p1 p2 p3 = documentedLayout base p1 p2 p3 := by
  obtain ⟨n1, rfl⟩ := Int.eq_ofNat_of_zero_le h1
  obtain ⟨n2, rfl⟩ := Int.eq_ofNat_of_zero_le h2
  obtain ⟨n3, rfl⟩ := Int.eq_ofNat_of_zero_le h3
  exact ⟨maskShift_layout base n1 n2 n3, (shiftMask_layout base n1 n2 n3).2,
    (shiftMask_layout base n1 n2 n3).2, (shiftMask_layout base n1 n2 n3).1⟩

theorem nibble_split : ∀ x < 16, ∀ y < 16,
    (16 * x + y) >>> 4 = x ∧ (16 * x + y) &&& 15 = y := by decide

theorem decodeTriple_layout (base n1 n2 n3 : Nat) (h1 : n1 < 2 ^ 18) (h2 : n2 < 2 ^ 20)
    (h3 : n3 < 2 ^ 20) :
    decodeTriple (documentedLayout base n1 n2 n3) = (n1, n2, n3) := by
  have hx : n3 / 65536 % 16 < 16 := Nat.mod_lt _ (by decide)
  have hy : n2 / 65536 % 16 < 16 := Nat.mod_lt _ (by decide)
  have e6 : (16 * ((n3 : Int) / 2 ^ 16 % 16) + (n2 : Int) / 2 ^ 16 % 16).toNat =
      16 * (n3 / 65536 % 16) + n2 / 65536 % 16 := by omega
  have e3 : ((n1 : Int) / 2 ^ 16 % 4).toNat = n1 / 65536 % 4 := by omega
  have e33 : (n1 / 65536 % 4) &&& 3 = n1 / 65536 % 4 := by
    have h := shr_and_03 (n1 / 65536 % 4) 0
    simp only [Nat.shiftRight_zero, pow_zero, Nat.div_one] at h
    rw [h]
    omega
  simp only [decodeTriple, documentedLayout, List.getD_cons_succ, List.getD_cons_zero, e6, e3,
    e33, (nibble_split _ hx _ hy).1, (nibble_split _ hx _ hy).2]
  simp only [Nat.reducePow, Int.reducePow] at *
  refine Prod.ext ?_ (Prod.ext ?_ ?_) <;> simp only <;> omega

/-- C4. Round trip: for `0 ≤ p1 < 2^18`, `0 ≤ p2 < 2^20` and `1 ≤ p3 ≤ 2^20 - 1`, decoding
the nine bytes that `SetupPLLFreq` and `SetupMultiSynth` build from `(p1, p2, p3)`
(`p3 = (b6 >> 4) 2^16 + b1 2^8 + b2`, `p1 = (b3 & 3) 2^16 + b4 2^8 + b5`,
`p2 = (b6 & 15) 2^16 + b7 2^8 + b8`) reconstructs `(p1, p2, p3)` exactly. -/
theorem encode_decode_roundtrip (base : Nat) (p1 p2 p3 : Int)
    (h1 : 0 ≤ p1) (h1' : p1 < 2 ^ 18) (h2 : 0 ≤ p2) (h2' : p2 < 2 ^ 20)
    (h3 : 1 ≤ p3) (h3' : p3 ≤ 2 ^ 20 - 1) :
    (((decodeTriple (SetupPLLFreq_buff base p1 p2 p3)).1 : Int) = p1 ∧
     ((decodeTriple (SetupPLLFreq_buff base p1 p2 p3)).2.1 : Int) = p2 ∧
     ((decodeTriple (SetupPLLFreq_buff base p1 p2 p3)).2.2 : Int) = p3) ∧
    (((decodeTriple (SetupMultiSynth_buff base p1 p2 p3)).1 : Int) = p1 ∧
     ((decodeTriple (SetupMultiSynth_buff base p1 p2 p3)).2.1 : Int) = p2 ∧
     ((decodeTriple (SetupMultiSynth_buff base p1 p2 p3)).2.2 : Int) = p3) := by
  obtain ⟨n1, rfl⟩ := Int.eq_ofNat_of_zero_le h1
  obtain ⟨n2, rfl⟩ := Int.eq_ofNat_of_zero_le h2
  obtain ⟨n3, rfl⟩ := Int.eq_ofNat_of_zero_le (by omega : (0 : Int) ≤ p3)
  have k1 : n1 < 2 ^ 18 := by exact_mod_cast h1'
  have k2 : n2 < 2 ^ 20 := by exact_mod_cast h2'
  have k3 : n3 < 2 ^ 20 := by
    have : (n3 : Int) < 2 ^ 20 := by omega
    exact_mod_cast this
  rw [(shiftMask_layout base n1 n2 n3).1, (shiftMask_layout base n1 n2 n3).2,
    decodeTriple_layout base n1 n2 n3 k1 k2 k3]
  simp

/-! ## Register values of `SetupPLL` and `SetupPLLFreq` -/

theorem wrap64_wrap64_add (x y : Int) : wrap64 (wrap64 x + y) = wrap64 (x + y) := by
  unfold wrap64
  omega

theorem wrap64_wrap64_sub (x y : Int) : wrap64 (wrap64 x - y) = wrap64 (x - y) := by
  unfold wrap64
  omega

/-- The two register computations are the same function of `(a, b, c)`. -/
theorem SetupPLLFreq_regs_eq (a b c : Int) : SetupPLLFreq_regs a b c = SetupPLL_regs a b c :=
  rfl

theorem SetupPLL_regs_formula (a b c : Int) (hb0 : 0 ≤ b) (hb1 : b < 2 ^ 56) (hc0 : 1 ≤ c)
    (hr0 : -2 ^ 63 ≤ 128 * a + 128 * b / c - 512)
    (hr1 : 128 * a + 128 * b / c - 512 < 2 ^ 63) :
    SetupPLL_regs a b c =
      some (128 * a + 128 * b / c - 512, 128 * b - c * (128 * b / c), c) := by
  have hc : (0 : Int) < c := by omega
  have hq0 : 0 ≤ 128 * b / c := Int.ediv_nonneg (by omega) hc.le
  have hq1 : c * (128 * b / c) ≤ 128 * b := Int.mul_ediv_self_le (by omega)
  have hq2 : 0 ≤ c * (128 * b / c) := Int.mul_nonneg hc.le hq0
  have e1 : mul64 128 b = 128 * b := by
    unfold mul64; exact wrap64_of_range (by omega) (by omega)
  have e2 : div64 (128 * b) c = some (128 * b / c) :=
    div64_of_nonneg (by omega) (by omega) hc
  have e3 : sub64 (add64 (mul64 128 a) (128 * b / c)) 512 = 128 * a + 128 * b / c - 512 := by
    unfold sub64 add64 mul64
    rw [wrap64_wrap64_add, wrap64_wrap64_sub]
    exact wrap64_of_range (by omega) (by omega)
  have e4 : mul64 c (128 * b / c) = c * (128 * b / c) := by
    unfold mul64; exact wrap64_of_range (by omega) (by omega)
  have e5 : sub64 (128 * b) (c * (128 * b / c)) = 128 * b - c * (128 * b / c) := by
    unfold sub64; exact wrap64_of_range (by omega) (by omega)
  simp only [SetupPLL_regs, e1, e2, Option.bind_eq_bind, Option.some_bind, Option.pure_def,
    e3, e4, e5]

/-- C5 (as amended). For every integer part `a`, numerator `0 ≤ b < 2^56` and denominator
`1 ≤ c < 2^20` for which `128 a + ⌊128 b / c⌋ - 512` is an `int64` value, the register values
that `SetupPLL` and `SetupPLLFreq` compute from `(a, b, c)` are
`P1 = 128 a + ⌊128 b / c⌋ - 512`, `P2 = 128 b - c ⌊128 b / c⌋`, `P3 = c`; they satisfy
`0 ≤ P2 < P3` and `(P1 + 512) P3 + P2 = 128 (a c + b)`. -/
theorem regs_encode_ratio (a b c : Int) (hb0 : 0 ≤ b) (hb1 : b < 2 ^ 56) (hc0 : 1 ≤ c)
    (hc1 : c < 2 ^ 20) (hr0 : -2 ^ 63 ≤ 128 * a + 128 * b / c - 512)
    (hr1 : 128 * a + 128 * b / c - 512 < 2 ^ 63) :
    SetupPLL_regs a b c =
      some (128 * a + 128 * b / c - 512, 128 * b - c * (128 * b / c), c) ∧
    SetupPLLFreq_regs a b c =
      some (128 * a + 128 * b / c - 512, 128 * b - c * (128 * b / c), c) ∧
    0 ≤ 128 * b - c * (128 * b / c) ∧ 128 * b - c * (128 * b / c) < c ∧
    (128 * a + 128 * b / c - 512 + 512) * c + (128 * b - c * (128 * b / c)) =
      128 * (a * c + b) := by
  have hc : (0 : Int) < c := by omega
  have h := SetupPLL_regs_formula a b c hb0 hb1 hc0 hr0 hr1
  have hm : 128 * b - c * (128 * b / c) = 128 * b % c := by
    have := Int.ediv_add_emod (128 * b) c
    omega
  refine ⟨h, (SetupPLLFreq_regs_eq a b c).trans h, ?_, ?_, ?_⟩
  · rw [hm]; exact Int.emod_nonneg _ (by omega)
  · rw [hm]; exact Int.emod_lt_of_pos _ hc
  · ring

/-- C5, counterexample to the unbounded statement: at `a = 0`, `b = 2^56`, `c = 2` the
product `128 * b` leaves the `int64` range and `SetupPLL` computes `P1 = -2^62 - 512` where
the documented formula gives `2^62 - 512`. -/
theorem regs_formula_overflow :
    SetupPLL_regs 0 (2 ^ 56) 2 = some (-4611686018427388416, 0, 2) ∧
    SetupPLL_regs 0 (2 ^ 56) 2 ≠
      some (128 * 0 + 128 * 2 ^ 56 / 2 - 512, 128 * 2 ^ 56 - 2 * (128 * 2 ^ 56 / 2), 2) := by
  decide

/-! ## Divide-by-4 -/

theorem CalcMultiSynth_divby4_of_ge {t : Int} (ht : 150000000 ≤ t) :
    CalcMultiSynth_divby4 t = 1 ∧ CalcMultiSynth_freq t = min t 225000000 := by
  simp only [CalcMultiSynth_divby4, CalcMultiSynth_freq, multiSynthMaxFreq, multiSynthMinFreq,
    multisynthDivby4Freq, freqMult, mul_one]
  constructor
  · split_ifs <;> omega
  · split_ifs <;> omega

/-- The fractional step of the PLL-fixed branch cannot fault once the divisor is non-zero. -/
theorem frac_step_some (P f : Int) (hf : f ≠ 0) :
    ∃ r p2, mod64 P f = some r ∧ div64 (mul64 r rfracDenom) f = some p2 := by
  refine ⟨Int.tmod P f, wrap64 (Int.tdiv (mul64 (Int.tmod P f) rfracDenom) f), ?_, ?_⟩
  · simp only [mod64, hf, if_false]
  · simp only [div64, hf, if_false]

/-- C6. Divide-by-4 invariant: for every target `t ≥ 150,000,000` and every (`int64`) PLL
frequency `P` that is 0 or at least 6, `CalcMultiSynth t P` returns the triple `(0, 0, 1)`;
the divide-by-4 flag derived for `t` in `CalcMultiSynth` and in the recalculation loop of
`SetupFreq` is set; the PLL frequency returned is `4 * min t 225,000,000` when `P = 0` and
`P` otherwise. -/
theorem divBy4_invariant (t P : Int) (ht : 150000000 ≤ t) (hP : P = 0 ∨ 6 ≤ P)
    (hP64 : P < 2 ^ 63) :
    CalcMultiSynth t P = some (0, 0, 1, if P = 0 then 4 * min t 225000000 else P) ∧
    CalcMultiSynth_divby4 t = 1 ∧ (SetupFreq_flags t).1 = 1 := by
  obtain ⟨hd4, hcf⟩ := CalcMultiSynth_divby4_of_ge ht
  have hfl : (SetupFreq_flags t).1 = 1 := by
    simp only [SetupFreq_flags, multisynthDivby4Freq, freqMult, mul_one]
    rw [if_pos (by omega)]
  refine ⟨?_, hd4, hfl⟩
  have hc0 : 150000000 ≤ min t 225000000 := by omega
  have hc1 : min t 225000000 ≤ 225000000 := by omega
  generalize min t 225000000 = cf at hcf hc0 hc1
  rcases hP with hP0 | hP6
  · subst hP0
    have hm : mul64 4 cf = 4 * cf := by
      unfold mul64; exact wrap64_of_range (by omega) (by omega)
    simp [CalcMultiSynth, hd4, hcf, hm]
  · have hPne : P ≠ 0 := by omega
    have hcfpos : (0 : Int) < cf := by omega
    have hp1 : div64 P cf = some (P / cf) := div64_of_nonneg (by omega) (by omega) hcfpos
    have h6 : div64 P 6 = some (P / 6) := div64_of_nonneg (by omega) (by omega) (by omega)
    have h1800 : div64 P 1800 = some (P / 1800) :=
      div64_of_nonneg (by omega) (by omega) (by omega)
    simp only [CalcMultiSynth, hd4, hcf, hPne, if_false, if_true, Option.bind_eq_bind,
      Option.pure_def, hp1, Option.some_bind, multisynthAMin, multisynthAMax, h6, h1800]
    by_cases hlo : P / cf < 6
    · have hhi : ¬ P / cf > 1800 := by omega
      have hne : P / 6 ≠ 0 := by omega
      obtain ⟨r, p2, e1, e2⟩ := frac_step_some P (P / 6) hne
      simp [hlo, hhi, e1, e2]
    · by_cases hhi : P / cf > 1800
      · have hne : P / 1800 ≠ 0 := by
          have : 1801 * cf ≤ P := by
            have := (Int.le_ediv_iff_mul_le hcfpos).mp (show 1801 ≤ P / cf by omega)
            omega
          omega
        obtain ⟨r, p2, e1, e2⟩ := frac_step_some P (P / 1800) hne
        simp [hlo, hhi, e1, e2]
      · have hne : cf ≠ 0 := by omega
        obtain ⟨r, p2, e1, e2⟩ := frac_step_some P cf hne
        simp [hlo, hhi, e1, e2]

/-! ## Frame: register traffic leaves the in-memory fields alone -/

theorem SameMem.same (d : Dev) : SameMem d d := ⟨rfl, rfl, rfl, rfl, rfl, rfl, rfl⟩

theorem SameMem.andThen {a b c : Dev} (h1 : SameMem a b) (h2 : SameMem b c) : SameMem a c := by
  obtain ⟨a1, a2, a3, a4, a5, a6, a7⟩ := h1
  obtain ⟨b1, b2, b3, b4, b5, b6, b7⟩ := h2
  exact ⟨b1.trans a1, b2.trans a2, b3.trans a3, b4.trans a4, b5.trans a5, b6.trans a6,
    b7.trans a7⟩

theorem Tx_sameMem (d : Dev) (w : List Nat) (rlen : Nat) : SameMem d (d.Tx w rlen).1 :=
  ⟨rfl, rfl, rfl, rfl, rfl, rfl, rfl⟩

theorem WriteCommand_sameMem (d : Dev) (reg value : Nat) :
    SameMem d (WriteCommand d reg value).1 :=
  ⟨rfl, rfl, rfl, rfl, rfl, rfl, rfl⟩

theorem Read_fst (d : Dev) (reg : Nat) : (Read d reg).1 = (d.Tx [reg] 1).1 := by
  unfold Read
  split <;> rename_i h <;> rw [h]

theorem Read_sameMem (d : Dev) (reg : Nat) : SameMem d (Read d reg).1 := by
  rw [Read_fst]
  exact Tx_sameMem d _ _

theorem OutputEnable_sameMem {d d' : Dev} {clk : Nat} {status : Bool}
    (h : OutputEnable d clk status = some d') : SameMem d d' := by
  unfold OutputEnable at h
  cases hb : (Read d outputEnableControl).2.1[0]? with
  | none => simp [hb] at h
  | some v =>
    simp only [hb, Option.bind_eq_bind, Option.some_bind, Option.pure_def,
      Option.some.injEq] at h
    rw [← h]
    exact (Read_sameMem d _).andThen (WriteCommand_sameMem _ _ _)

theorem SetupIntMode_sameMem {d d' : Dev} {clk : Int} {status : Bool}
    (h : SetupIntMode d clk status = some d') : SameMem d d' := by
  unfold SetupIntMode at h
  cases hb : (Read d (byte (wrap32 (16 + clk)))).2.1[0]? with
  | none => simp [hb] at h
  | some v =>
    simp only [hb, Option.bind_eq_bind, Option.some_bind, Option.pure_def,
      Option.some.injEq] at h
    rw [← h]
    exact (Read_sameMem d _).andThen (WriteCommand_sameMem _ _ _)

theorem MsDiv_sameMem {d d' : Dev} {clk rDiv divBy4 : Int}
    (h : MsDiv d clk rDiv divBy4 = some d') : SameMem d d' := by
  unfold MsDiv at h
  cases hb : (Read d (byte (MsDiv_address clk))).2.1[0]? with
  | none => simp [hb] at h
  | some v =>
    simp only [hb, Option.bind_eq_bind, Option.some_bind, Option.pure_def,
      Option.some.injEq] at h
    rw [← h]
    exact (Read_sameMem d _).andThen (WriteCommand_sameMem _ _ _)

theorem SetupMultiSynthNew_sameMem {fq : F64Quot} {d d' : Dev} {clk pll div num denom : Int}
    {intMode : Bool} {rDiv divBy4 : Int}
    (h : SetupMultiSynthNew fq d clk pll div num denom intMode rDiv divBy4 = some d') :
    SameMem d d' := by
  unfold SetupMultiSynthNew at h
  simp only [Option.bind_eq_bind, Option.bind_eq_some] at h
  obtain ⟨d1, h1, h2⟩ := h
  exact ((Tx_sameMem d _ _).andThen (SetupIntMode_sameMem h1)).andThen (MsDiv_sameMem h2)

theorem SetupMultiSynth_sameMem (fq : F64Quot) (d : Dev) (clk pll div num denom : Int) :
    SameMem d (SetupMultiSynth fq d clk pll div num denom) := by
  unfold SetupMultiSynth
  simp only
  split_ifs
  · exact (Tx_sameMem d _ _).andThen (WriteCommand_sameMem _ _ _)
  · exact (Tx_sameMem d _ _).andThen (WriteCommand_sameMem _ _ _)
  · exact (Tx_sameMem d _ _).andThen (WriteCommand_sameMem _ _ _)
  · exact Tx_sameMem d _ _

theorem PLLReset_sameMem (d : Dev) (targetPLL : Int) : SameMem d (PLLReset d targetPLL) := by
  unfold PLLReset
  split_ifs
  · exact WriteCommand_sameMem _ _ _
  · exact WriteCommand_sameMem _ _ _
  · exact SameMem.same d

theorem SetupFreq_firstSet_pllAFreq {d d' : Dev} {clk : Nat}
    (h : SetupFreq_firstSet d clk = some d') : d'.pllAFreq = d.pllAFreq := by
  unfold SetupFreq_firstSet at h
  simp only [Option.bind_eq_bind, Option.bind_eq_some, Option.pure_def] at h
  obtain ⟨first, _, h⟩ := h
  split_ifs at h
  · simp only [Option.bind_eq_some, Option.some.injEq] at h
    obtain ⟨d1, h1, s, _, h2⟩ := h
    rw [← h2]
    exact (OutputEnable_sameMem h1).2.2.2.1
  · simp only [Option.some.injEq] at h
    rw [← h]

theorem SetupPLLFreq_pllAFreq {d d' : Dev} {f : Int} (h : SetupPLLFreq d 0 f = some d') :
    d'.pllAFreq = f := by
  unfold SetupPLLFreq at h
  simp only [if_true, Option.bind_eq_bind, Option.bind_eq_some, Option.pure_def,
    Option.some.injEq] at h
  obtain ⟨x, _, y, _, a, _, h⟩ := h
  rw [← h]

theorem SetupFreq_recalc_pllAFreq {fq : F64Quot} {st st' : Dev × Int} {i : Nat}
    (h : SetupFreq_recalc fq st i = some st') : st'.1.pllAFreq = st.1.pllAFreq := by
  unfold SetupFreq_recalc at h
  simp only [Option.bind_eq_bind, Option.bind_eq_some, Option.pure_def] at h
  obtain ⟨f, _, h⟩ := h
  split_ifs at h
  · simp only [Option.bind_eq_some, Option.some.injEq] at h
    obtain ⟨x, _, d1, h1, h2⟩ := h
    rw [← h2]
    exact (SetupMultiSynthNew_sameMem h1).2.2.2.1
  · simp only [Option.some.injEq] at h
    rw [← h]

theorem foldlM_recalc_pllAFreq {fq : F64Quot} (l : List Nat) :
    ∀ {st st' : Dev × Int}, l.foldlM (SetupFreq_recalc fq) st = some st' →
      st'.1.pllAFreq = st.1.pllAFreq := by
  induction l with
  | nil =>
    intro st st' h
    simp only [List.foldlM, Option.pure_def, Option.some.injEq] at h
    rw [← h]
  | cons i l ih =>
    intro st st' h
    simp only [List.foldlM, Option.bind_eq_bind, Option.bind_eq_some] at h
    obtain ⟨s1, h1, h2⟩ := h
    rw [ih h2, SetupFreq_recalc_pllAFreq h1]

/-- The PLL frequency chosen by `CalcMultiSynth` in PLL-not-fixed mode is inside the
VCO range. -/
theorem CalcMultiSynth_zero_range (t : Int) :
    ∃ p1 p2 p3 pf, CalcMultiSynth t 0 = some (p1, p2, p3, pf) ∧
      600000000 ≤ pf ∧ pf ≤ 900000000 := by
  obtain ⟨hc0, hc1⟩ := CalcMultiSynth_freq_bounds t
  by_cases hd : 150000000 ≤ CalcMultiSynth_freq t
  · have hd4 : CalcMultiSynth_divby4 t = 1 := by
      simp only [CalcMultiSynth_divby4, multisynthDivby4Freq, freqMult, mul_one]
      rw [if_pos (by omega)]
    have hm : mul64 4 (CalcMultiSynth_freq t) = 4 * CalcMultiSynth_freq t := by
      unfold mul64; exact wrap64_of_range (by omega) (by omega)
    refine ⟨0, 0, 1, 4 * CalcMultiSynth_freq t, ?_, by omega, by omega⟩
    simp [CalcMultiSynth, hd4, hm]
  · have hd4 : CalcMultiSynth_divby4 t = 0 := by
      simp only [CalcMultiSynth_divby4, multisynthDivby4Freq, freqMult, mul_one]
      rw [if_neg (by omega)]
    obtain ⟨cf, hcfeq⟩ : ∃ cf, CalcMultiSynth_freq t = cf := ⟨_, rfl⟩
    rw [hcfeq] at hc0 hc1 hd
    have hcf : (0 : Int) < cf := by omega
    have hdiv : div64 900000000 cf = some (900000000 / cf) :=
      div64_of_nonneg (by omega) (by omega) hcf
    have hq0 : 6 ≤ 900000000 / cf := by
      rw [Int.le_ediv_iff_mul_le hcf]; omega
    have hq1 : 900000000 / cf < 1801 := by
      rw [Int.ediv_lt_iff_lt_mul hcf]; omega
    have hdm := Int.ediv_add_emod 900000000 cf
    have hr0 := Int.emod_nonneg 900000000 (show cf ≠ 0 by omega)
    have hr1 := Int.emod_lt_of_pos 900000000 hcf
    have hne5 : ¬ (900000000 / cf = 5) := by omega
    by_cases h7 : 900000000 / cf = 7
    · have hm : mul64 6 cf = 6 * cf := by
        unfold mul64; exact wrap64_of_range (by omega) (by omega)
      rw [h7] at hdm
      refine ⟨6, 0, 1, 6 * cf, ?_, by omega, by omega⟩
      simp [CalcMultiSynth, hd4, hcfeq, hdiv, h7, hm, pllVcoMax, freqMult]
    · have hprod : (900000000 / cf) * cf = cf * (900000000 / cf) := Int.mul_comm _ _
      have hm : mul64 (900000000 / cf) cf = (900000000 / cf) * cf := by
        unfold mul64; exact wrap64_of_range (by omega) (by omega)
      refine ⟨900000000 / cf, 0, 1, (900000000 / cf) * cf, ?_, by omega, by omega⟩
      simp [CalcMultiSynth, hd4, hcfeq, hdiv, h7, hne5, hm, pllVcoMax, freqMult]

/-- One returning call of `SetupFreq` leaves `pllAFreq` unchanged or inside the VCO range. -/
theorem SetupFreq_pllAFreq {fq : F64Quot} {d d' : Dev} {clk : Nat} {freq : Int}
    (h : SetupFreq fq d clk freq = some d') :
    d'.pllAFreq = d.pllAFreq ∨ (600000000 ≤ d'.pllAFreq ∧ d'.pllAFreq ≤ 900000000) := by
  unfold SetupFreq at h
  split_ifs at h with hclk
  swap
  · left
    simp only [Option.pure_def, Option.some.injEq] at h
    rw [← h]
  simp only [] at h
  split_ifs at h with hshare
  · right
    simp only [Option.bind_eq_bind, Option.bind_eq_some, Option.pure_def,
      Option.some.injEq] at h
    obtain ⟨_, _, d1, _, s, _, ⟨p1, p2, p3, pf⟩, hcalc, d2, hpll, ⟨d3, pf3⟩, hloop, hd'⟩ := h
    obtain ⟨q1, q2, q3, qf, hq, hlo, hhi⟩ := CalcMultiSynth_zero_range (SetupFreq_freq freq)
    rw [hq] at hcalc
    simp only [Option.some.injEq, Prod.mk.injEq] at hcalc
    obtain ⟨-, -, -, rfl⟩ := hcalc
    have e1 : d2.pllAFreq = qf := by
      rw [SetupPLLFreq_pllAFreq hpll]
      show wrap32 qf = qf
      exact wrap32_of_range (by omega) (by omega)
    have e2 : d3.pllAFreq = d2.pllAFreq := foldlM_recalc_pllAFreq _ hloop
    have e3 : d'.pllAFreq = d3.pllAFreq := by
      rw [← hd']; exact (PLLReset_sameMem d3 0).2.2.2.1
    rw [e3, e2, e1]
    exact ⟨hlo, hhi⟩
  · right
    simp only [Option.bind_eq_bind, Option.bind_eq_some, Option.pure_def,
      Option.some.injEq] at h
    obtain ⟨s, _, d1, _, ⟨p1, p2, p3, pf⟩, hcalc, d2, hpll, hd'⟩ := h
    obtain ⟨q1, q2, q3, qf, hq, hlo, hhi⟩ := CalcMultiSynth_zero_range (SetupFreq_freq freq)
    rw [hq] at hcalc
    simp only [Option.some.injEq, Prod.mk.injEq] at hcalc
    obtain ⟨-, -, -, rfl⟩ := hcalc
    have e1 : d2.pllAFreq = qf := by
      rw [SetupPLLFreq_pllAFreq hpll]
      show wrap32 qf = qf
      exact wrap32_of_range (by omega) (by omega)
    have e3 : d'.pllAFreq = d2.pllAFreq := by
      rw [← hd']; exact (SetupMultiSynth_sameMem fq d2 _ _ _ _ _).2.2.2.1
    rw [e3, e1]
    exact ⟨hlo, hhi⟩

/-- C7. VCO-range invariant: in every state reachable from an initial state with
`pllAFreq = 0` by `SetupFreq` calls on channels `0..5` with `int32` frequencies, the stored
PLL-A frequency is 0 or lies in `[600,000,000, 900,000,000]`; and for every target `t` the
PLL frequency returned by `CalcMultiSynth t 0` lies in that range. -/
theorem vco_range_invariant (fq : F64Quot) (d0 d : Dev) (h0 : d0.pllAFreq = 0)
    (hr : Reachable fq d0 d) :
    (d.pllAFreq = 0 ∨ (600000000 ≤ d.pllAFreq ∧ d.pllAFreq ≤ 900000000)) ∧
    (∀ t : Int, ∃ p1 p2 p3 pf, CalcMultiSynth t 0 = some (p1, p2, p3, pf) ∧
      600000000 ≤ pf ∧ pf ≤ 900000000) := by
  refine ⟨?_, CalcMultiSynth_zero_range⟩
  induction hr with
  | init => exact Or.inl h0
  | step clk freq _ _ _ _ hstep ih =>
    rcases SetupFreq_pllAFreq hstep with he | hin
    · rw [he]; exact ih
    · exact Or.inr hin

/-! ## PLL-fixed mode -/

/-- C8. PLL-fixed mode accuracy: for `500,000 ≤ t < 150,000,000` and `6 t ≤ P < 1801 t`,
`CalcMultiSynth t P` returns `(a, b, c, P)` with `a = ⌊P / t⌋`, `c = 10^6` if `b > 0`, else
`1`, and `b` the truncated fraction of denominator `10^6`:
`0 ≤ (P - a t) * 10^6 - b t < t`. -/
theorem CalcMultiSynth_pll_fixed (t P : Int) (ht0 : 500000 ≤ t) (ht1 : t < 150000000)
    (hP0 : 6 * t ≤ P) (hP1 : P < 1801 * t) :
    CalcMultiSynth t P =
      some (P / t, (P - P / t * t) * 1000000 / t,
            (if (P - P / t * t) * 1000000 / t > 0 then 1000000 else 1), P) ∧
    0 ≤ (P - P / t * t) * 1000000 - (P - P / t * t) * 1000000 / t * t ∧
    (P - P / t * t) * 1000000 - (P - P / t * t) * 1000000 / t * t < t := by
  have ht : (0 : Int) < t := by omega
  have hcf : CalcMultiSynth_freq t = t := CalcMultiSynth_freq_of_range ht0 (by omega)
  have hd4 : CalcMultiSynth_divby4 t = 0 := by
    simp only [CalcMultiSynth_divby4, hcf, multisynthDivby4Freq, freqMult, mul_one]
    rw [if_neg (by omega)]
  have hPne : P ≠ 0 := by omega
  have hq0 : 6 ≤ P / t := by
    rw [Int.le_ediv_iff_mul_le ht]; omega
  have hq1 : P / t < 1801 := by
    rw [Int.ediv_lt_iff_lt_mul ht]; omega
  have hdm := Int.ediv_add_emod P t
  have hr0 := Int.emod_nonneg P (show t ≠ 0 by omega)
  have hr1 := Int.emod_lt_of_pos P ht
  have hrem : P - P / t * t = P % t := by
    rw [Int.mul_comm (P / t) t]; omega
  have hp1 : div64 P t = some (P / t) := div64_of_nonneg (by omega) (by omega) ht
  have hmod : mod64 P t = some (P % t) := mod64_of_nonneg (by omega) ht
  have hmul : mul64 (P % t) 1000000 = P % t * 1000000 := by
    unfold mul64; exact wrap64_of_range (by omega) (by omega)
  have hp2 : div64 (P % t * 1000000) t = some (P % t * 1000000 / t) :=
    div64_of_nonneg (by omega) (by omega) ht
  refine ⟨?_, ?_, ?_⟩
  · rw [hrem]
    simp only [CalcMultiSynth, hcf, hd4, hPne, if_false, Option.bind_eq_bind, Option.pure_def,
      hp1, Option.some_bind, multisynthAMin, multisynthAMax, if_neg (show ¬ P / t < 6 by omega),
      if_neg (show ¬ P / t > 1800 by omega), hmod, rfracDenom, hmul, hp2]
    simp
  · rw [hrem, Int.mul_comm _ t]
    have := Int.mul_ediv_self_le (x := P % t * 1000000) (show t ≠ 0 by omega)
    omega
  · rw [hrem, Int.mul_comm _ t]
    have := Int.lt_mul_ediv_self_add (x := P % t * 1000000) ht
    omega

/-! ## The divider clamps -/

/-- C9, evaluation at failing inputs: with crystal 25 MHz and target 0, `PLLCalc` returns
`p1 = 0`; with crystal 27 MHz and target 600 MHz it returns `p1 = 22`; with crystal 25 MHz
and target 1 GHz it returns `p1 = 40`. In each case only `freq` was replaced by the clamped
value, `p1` was left as computed. -/
theorem PLLCalc_p1_not_clamped :
    PLLCalc bootDev 0 0 = some (0, 24000000, 1000000) ∧
    PLLCalc { bootDev with crystalFreq := 27000000 } 0 600000000 =
      some (22, 2000000, 1000000) ∧
    PLLCalc bootDev 0 1000000000 = some (40, -4000000, 1) := by
  decide

/-- C10, evaluation at failing inputs: `CalcMultiSynth 140000000 600000000` returns
`p1 = 4`, and `CalcMultiSynth 500000 2000000000` returns `p1 = 4000`; only `freq` was
replaced by the clamped value, `p1` was left as computed. -/
theorem CalcMultiSynth_p1_not_clamped :
    CalcMultiSynth 140000000 600000000 = some (4, 0, 1, 600000000) ∧
    CalcMultiSynth 500000 2000000000 = some (4000, 180, 1000000, 2000000000) := by
  decide

/-! ## Instances of the conditional theorems -/

/-- Instance of C1: the default 25 MHz crystal and the target 616 MHz. -/
theorem PLLCalc_in_range_witness :
    bootDev.refCorrection = 0 ∧ 0 < bootDev.crystalFreq ∧ bootDev.crystalFreq ≤ 1000000000 ∧
    PLLCalc bootDev 0 616000000 = some (24, 640000, 1000000) :=
  ⟨rfl, by decide, by decide,
    (PLLCalc_in_range bootDev 0 rfl (by decide) (by decide)).2.2 rfl⟩

/-- Instance of C2 at the target 13,557,000 Hz. -/
theorem CalcMultiSynth_pll_not_fixed_witness :
    CalcMultiSynth 13557000 0 = some (66, 0, 1, 894762000) :=
  (CalcMultiSynth_pll_not_fixed 13557000 (by decide) (by decide)).2

/-- Instance of C3: the PLL-A block of the integer multiplier 32. -/
theorem buffers_match_layout_witness :
    SetupPLLFreq_buff 26 3584 0 1 = documentedLayout 26 3584 0 1 :=
  (buffers_match_layout 26 3584 0 1 (by decide) (by decide) (by decide)).2.2.2

/-- Instance of C4 at the largest admissible register values. -/
theorem encode_decode_roundtrip_witness :
    ((decodeTriple (SetupMultiSynth_buff 42 262143 1048575 1048575)).1 : Int) = 262143 ∧
    ((decodeTriple (SetupMultiSynth_buff 42 262143 1048575 1048575)).2.1 : Int) = 1048575 ∧
    ((decodeTriple (SetupMultiSynth_buff 42 262143 1048575 1048575)).2.2 : Int) = 1048575 :=
  (encode_decode_roundtrip 42 262143 1048575 1048575 (by decide) (by decide) (by decide)
    (by decide) (by decide) (by decide)).2

/-- Instance of C5 at the ratio `24 + 640000 / 1000000`. -/
theorem regs_encode_ratio_witness :
    SetupPLLFreq_regs 24 640000 1000000 = some (2641, 920000, 1000000) :=
  (regs_encode_ratio 24 640000 1000000 (by decide) (by decide) (by decide) (by decide)
    (by decide) (by decide)).2.1

/-- Instance of C6: a 160 MHz output on a 600 MHz PLL. -/
theorem divBy4_invariant_witness :
    CalcMultiSynth 160000000 600000000 = some (0, 0, 1, 600000000) :=
  (divBy4_invariant 160000000 600000000 (by decide) (Or.inr (by decide)) (by decide)).1

/-- The call `SetupFreq(0, 10000000)` on `bootDev` returns, and `tunedDev` is its result. -/
theorem tunedDev_spec : SetupFreq exactQuot bootDev 0 10000000 = some tunedDev := by
  have h : (SetupFreq exactQuot bootDev 0 10000000).isSome = true := by decide
  obtain ⟨d', hd'⟩ := Option.isSome_iff_exists.mp h
  simp only [tunedDev, hd', Option.getD_some]

/-- Instance of C7: the state after setting channel 0 to 10 MHz, where PLL-A is at
900 MHz. -/
theorem vco_range_invariant_witness :
    Reachable exactQuot bootDev tunedDev ∧ tunedDev.pllAFreq = 900000000 ∧
    (tunedDev.pllAFreq = 0 ∨
      (600000000 ≤ tunedDev.pllAFreq ∧ tunedDev.pllAFreq ≤ 900000000)) :=
  ⟨Reachable.step 0 10000000 Reachable.init (by decide) (by decide) (by decide) tunedDev_spec,
   by decide,
   (vco_range_invariant exactQuot bootDev tunedDev rfl
     (Reachable.step 0 10000000 Reachable.init (by decide) (by decide) (by decide)
       tunedDev_spec)).1⟩

/-- Instance of C8: the target 13,557,000 Hz on a 900 MHz PLL. -/
theorem CalcMultiSynth_pll_fixed_witness :
    CalcMultiSynth 13557000 900000000 = some (66, 386368, 1000000, 900000000) :=
  (CalcMultiSynth_pll_fixed 13557000 900000000 (by decide) (by decide) (by decide)
    (by decide)).1

/-! ## Exact multiples in PLL-fixed mode -/

/-- C11 (as amended). For every target `500,000 ≤ t < 150,000,000` and every integer `a` in
`[6, 1800]`, `CalcMultiSynth t (a t)` returns the triple `(a, 0, 1)` with PLL frequency
`a t`, so that `pllFreq / (a + 0 / 1) = t` exactly. -/
theorem CalcMultiSynth_exact_multiple (t a : Int) (ht0 : 500000 ≤ t) (ht1 : t < 150000000)
    (ha0 : 6 ≤ a) (ha1 : a ≤ 1800) :
    CalcMultiSynth t (a * t) = some (a, 0, 1, a * t) ∧
    ((a * t : Int) : ℚ) / ((a : ℚ) + ((0 : Int) : ℚ) / ((1 : Int) : ℚ)) = (t : ℚ) := by
  have ht : (0 : Int) < t := by omega
  have hcf : CalcMultiSynth_freq t = t := CalcMultiSynth_freq_of_range ht0 (by omega)
  have hd4 : CalcMultiSynth_divby4 t = 0 := by
    simp only [CalcMultiSynth_divby4, hcf, multisynthDivby4Freq, freqMult, mul_one]
    rw [if_neg (by omega)]
  have hP0 : 0 < a * t := Int.mul_pos (by omega) ht
  have hP1 : a * t < 9223372036854775808 := by nlinarith
  have hPne : a * t ≠ 0 := by omega
  have hq : a * t / t = a := Int.mul_ediv_cancel a (by omega)
  have hr : a * t % t = 0 := Int.mul_emod_left a t
  have hp1 : div64 (a * t) t = some a := by
    rw [div64_of_nonneg hP0.le hP1 ht, hq]
  have hmod : mod64 (a * t) t = some 0 := by
    rw [mod64_of_nonneg hP0.le ht, hr]
  have hmul : mul64 0 1000000 = 0 := by decide
  have hp2 : div64 0 t = some 0 := by
    rw [div64_of_nonneg (le_refl 0) (by decide) ht, Int.zero_ediv]
  constructor
  · simp only [CalcMultiSynth, hcf, hd4, hPne, if_false, Option.bind_eq_bind, Option.pure_def,
      hp1, Option.some_bind, multisynthAMin, multisynthAMax, if_neg (show ¬ a < 6 by omega),
      if_neg (show ¬ a > 1800 by omega), hmod, rfracDenom, hmul, hp2]
    simp
  · have ha : (a : ℚ) ≠ 0 := by
      have : (0 : ℚ) < (a : ℚ) := by exact_mod_cast (show (0 : Int) < a by omega)
      exact ne_of_gt this
    push_cast
    field_simp

/-- C11, counterexamples to the statement for every `t > 0`: a target below 500 kHz is
first raised to 500 kHz (`t = 1`, `a = 6`; `t = 100,000`, `a = 10`), and a target of at
least 150 MHz takes the divide-by-4 override (`t = 160,000,000`, `a = 6`). -/
theorem CalcMultiSynth_exact_multiple_clamped :
    CalcMultiSynth 1 (6 * 1) = some (0, 0, 1, 6) ∧
    CalcMultiSynth 1 (6 * 1) ≠ some (6, 0, 1, 6 * 1) ∧
    CalcMultiSynth 100000 (10 * 100000) = some (2, 24, 1000000, 1000000) ∧
    CalcMultiSynth 160000000 (6 * 160000000) = some (0, 0, 1, 960000000) := by
  decide

/-! ## R-divider selection -/

/-- C12. For every `k` in `0..6` and every `f` with `4000 * 2^k ≤ f < 4000 * 2^(k+1)`,
`selectRDiv f` returns the register code `7 - k`, whose divider `2^(7-k)` is `128 / 2^k`;
for every `f ≥ 512,000` it returns code 0 (divider 1). -/
theorem selectRDiv_thresholds :
    (∀ (k : Nat) (f : Int), k ≤ 6 → 4000 * 2 ^ k ≤ f → f < 4000 * 2 ^ (k + 1) →
      selectRDiv f = 7 - (k : Int) ∧ 2 ^ (7 - k) = 128 / 2 ^ k) ∧
    (∀ f : Int, 512000 ≤ f → selectRDiv f = 0) := by
  constructor
  · intro k f hk h0 h1
    interval_cases k <;>
      simp only [selectRDiv, clkoutMinFreq, freqMult, outputClkDiv128, outputClkDiv64,
        outputClkDiv32, outputClkDiv16, outputClkDiv8, outputClkDiv4, outputClkDiv2,
        outputClkDiv1] <;>
      norm_num at h0 h1 ⊢ <;>
      (split_ifs <;> omega)
  · intro f hf
    simp only [selectRDiv, clkoutMinFreq, freqMult, outputClkDiv128, outputClkDiv64,
        outputClkDiv32, outputClkDiv16, outputClkDiv8, outputClkDiv4, outputClkDiv2,
        outputClkDiv1]
    norm_num
    split_ifs <;> omega

/-! ## The transaction log of the register operations -/

theorem Conn_Tx_W (c : Conn) (w : List Nat) (rlen : Nat) :
    (c.Tx w rlen).1.ops.map Txn.W = c.ops.map Txn.W ++ [w] := by
  unfold Conn.Tx
  split_ifs
  · simp
  · cases w <;> simp

theorem Conn_Tx_fail (c : Conn) (w : List Nat) (rlen : Nat) :
    (c.Tx w rlen).1.fail = c.fail := by
  unfold Conn.Tx
  split_ifs
  · rfl
  · cases w <;> rfl

theorem Conn_Tx_regs (c : Conn) (reg : Nat) (data : List Nat) (rlen : Nat) :
    (c.Tx (reg :: data) rlen).1.regs = c.regs ∨
    (c.Tx (reg :: data) rlen).1.regs = writeRegs c.regs reg data := by
  unfold Conn.Tx
  split_ifs
  · exact Or.inl rfl
  · exact Or.inr rfl

theorem Conn_Tx_regs_noFail (c : Conn) (reg : Nat) (data : List Nat) (rlen : Nat)
    (h : c.fail c.ops.length = false) :
    (c.Tx (reg :: data) rlen).1.regs = writeRegs c.regs reg data ∧
    (c.Tx (reg :: data) rlen).2 =
      some ((List.range rlen).map (fun i => writeRegs c.regs reg data (reg + i) % 256)) := by
  unfold Conn.Tx
  rw [h]
  exact ⟨rfl, rfl⟩

theorem Conn_Tx_read (c : Conn) (reg : Nat) :
    (c.Tx [reg] 1).1.regs = c.regs ∧
    ((c.Tx [reg] 1).2 = none ∨ (c.Tx [reg] 1).2 = some [c.regs reg % 256]) := by
  unfold Conn.Tx
  split_ifs
  · exact ⟨rfl, Or.inl rfl⟩
  · exact ⟨rfl, Or.inr rfl⟩

theorem wlog_Tx (d : Dev) (w : List Nat) (rlen : Nat) : wlog (d.Tx w rlen).1 = wlog d ++ [w] :=
  Conn_Tx_W d.d w rlen

theorem wlog_WriteCommand (d : Dev) (reg value : Nat) :
    wlog (WriteCommand d reg value).1 = wlog d ++ [[reg, value]] :=
  Conn_Tx_W d.d [reg, value] 0

theorem wlog_Read (d : Dev) (reg : Nat) : wlog (Read d reg).1 = wlog d ++ [[reg]] := by
  rw [Read_fst]
  exact wlog_Tx d [reg] 1

theorem Read_regs (d : Dev) (reg : Nat) : (Read d reg).1.d.regs = d.d.regs := by
  rw [Read_fst]
  exact (Conn_Tx_read d.d reg).1

theorem Read_fail (d : Dev) (reg : Nat) : (Read d reg).1.d.fail = d.d.fail := by
  rw [Read_fst]
  exact Conn_Tx_fail d.d [reg] 1

theorem Read_buff (d : Dev) (reg : Nat) :
    (Read d reg).2.1 = [] ∨ (Read d reg).2.1 = [d.d.regs reg % 256] := by
  have h := (Conn_Tx_read d.d reg).2
  unfold Read
  split
  · exact Or.inl rfl
  · rename_i d1 b heq
    have h2 : (d.d.Tx [reg] 1).2 = some b := congrArg Prod.snd heq
    rcases h with h | h
    · rw [h] at h2; cases h2
    · rw [h] at h2
      cases h2
      exact Or.inr rfl

theorem OutputEnable_eq_rmw (d : Dev) (clk : Nat) (status : Bool) :
    OutputEnable d clk status =
      rmw d outputEnableControl (fun regValue =>
        if status then regValue &&& (255 ^^^ ((1 <<< clk) % 256))
        else regValue ||| ((1 <<< clk) % 256)) := rfl

theorem SetupIntMode_eq_rmw (d : Dev) (clk : Int) (status : Bool) :
    SetupIntMode d clk status =
      rmw d (byte (wrap32 (16 + clk))) (fun regValue =>
        if status then regValue ||| clkIntegerMode
        else regValue &&& (255 ^^^ clkIntegerMode)) := rfl

theorem MsDiv_eq_rmw (d : Dev) (clk rDiv divBy4 : Int) :
    MsDiv d clk rDiv divBy4 =
      rmw d (byte (MsDiv_address clk)) (MsDiv_value clk rDiv divBy4) := rfl

/-- A returning read-modify-write reads the register, then writes the modified value. -/
theorem rmw_some {d d' : Dev} {reg : Nat} {f : Nat → Nat} (h : rmw d reg f = some d') :
    wlog d' = wlog d ++ [[reg], [reg, f (d.d.regs reg % 256)]] ∧ SameMem d d' ∧
    d'.d.fail = d.d.fail := by
  unfold rmw at h
  rcases Read_buff d reg with hb | hb
  · simp [hb] at h
  · simp only [hb, List.getElem?_cons_zero, Option.bind_eq_bind, Option.some_bind,
      Option.pure_def, Option.some.injEq] at h
    rw [← h]
    refine ⟨?_, (Read_sameMem d _).andThen (WriteCommand_sameMem _ _ _), ?_⟩
    · rw [wlog_WriteCommand, wlog_Read]
      simp
    · show ((Read d reg).1.d.Tx _ _).1.fail = _
      rw [Conn_Tx_fail, Read_fail]

/-! ## The R-divider register -/

set_option maxRecDepth 1000000 in
theorem MsDiv_bits_clear : ∀ v < 256, ∀ r < 8,
    ((v &&& (255 ^^^ 0x7c)) &&& (255 ^^^ 12)) ||| ((r <<< 4) % 256) =
      (v &&& 0x83) ||| (r <<< 4) ||| 0 ∧
    ((v &&& 0x83) ||| (r <<< 4) ||| 0) &&& 0x83 = v &&& 0x83 ∧
    (((v &&& 0x83) ||| (r <<< 4) ||| 0) >>> 4) &&& 7 = r ∧
    (((v &&& 0x83) ||| (r <<< 4) ||| 0) >>> 2) &&& 3 = 0 := by decide

set_option maxRecDepth 1000000 in
theorem MsDiv_bits_set : ∀ v < 256, ∀ r < 8,
    ((v &&& (255 ^^^ 0x7c)) ||| 12) ||| ((r <<< 4) % 256) =
      (v &&& 0x83) ||| (r <<< 4) ||| 0x0C ∧
    ((v &&& 0x83) ||| (r <<< 4) ||| 0x0C) &&& 0x83 = v &&& 0x83 ∧
    (((v &&& 0x83) ||| (r <<< 4) ||| 0x0C) >>> 4) &&& 7 = r ∧
    (((v &&& 0x83) ||| (r <<< 4) ||| 0x0C) >>> 2) &&& 3 = 3 := by decide

/-- The value `MsDiv` writes for a channel in `0..5`, in closed form. -/
theorem MsDiv_value_eq (clk divBy4 : Int) (r v : Nat) (hclk : clk ≤ 5) (hr : r < 8)
    (hv : v < 256) :
    MsDiv_value clk r divBy4 v =
      (v &&& 0x83) ||| (r <<< 4) ||| (if divBy4 ≠ 0 then 0x0C else 0) := by
  have hb : byte (r : Int) = r := by
    unfold byte
    omega
  simp only [MsDiv_value, if_pos hclk, hb, outputClkDivby4, outputClkDivShift]
  by_cases h4 : divBy4 = 0
  · simp only [h4, if_true, ne_eq, not_true_eq_false, if_false]
    exact (MsDiv_bits_clear v hv r hr).1
  · simp only [h4, if_false, ne_eq, not_false_eq_true, if_true]
    exact (MsDiv_bits_set v hv r hr).1

/-- C19. Read-modify-write of the R-divider register: for every channel in `0..5`, every
R-divider code `rDiv` in `0..7`, every `divBy4` and every prior register value `v`, a
returning `MsDiv` reads the register and writes back
`(v AND 0x83) OR (rDiv << 4) OR (0x0C if divBy4 ≠ 0, else 0)`: bit 7 and bits 1:0 are
preserved, bits 6:4 equal `rDiv`, and bits 3:2 are both set exactly when divide-by-4 is
requested. -/
theorem MsDiv_read_modify_write (d d' : Dev) (clk rDiv divBy4 : Int)
    (hclk : clk ≤ 5) (hr0 : 0 ≤ rDiv) (hr1 : rDiv ≤ 7)
    (h : MsDiv d clk rDiv divBy4 = some d') :
    wlog d' = wlog d ++
      [[byte (MsDiv_address clk)],
       [byte (MsDiv_address clk),
        (d.d.regs (byte (MsDiv_address clk)) % 256 &&& 0x83) ||| (rDiv.toNat <<< 4) |||
          (if divBy4 ≠ 0 then 0x0C else 0)]] ∧
    ((d.d.regs (byte (MsDiv_address clk)) % 256 &&& 0x83) ||| (rDiv.toNat <<< 4) |||
        (if divBy4 ≠ 0 then 0x0C else 0)) &&& 0x83 =
      d.d.regs (byte (MsDiv_address clk)) % 256 &&& 0x83 ∧
    ((((d.d.regs (byte (MsDiv_address clk)) % 256 &&& 0x83) ||| (rDiv.toNat <<< 4) |||
        (if divBy4 ≠ 0 then 0x0C else 0)) >>> 4) &&& 7 = rDiv.toNat) ∧
    ((((d.d.regs (byte (MsDiv_address clk)) % 256 &&& 0x83) ||| (rDiv.toNat <<< 4) |||
        (if divBy4 ≠ 0 then 0x0C else 0)) >>> 2) &&& 3 = if divBy4 ≠ 0 then 3 else 0) := by
  obtain ⟨r, rfl⟩ := Int.eq_ofNat_of_zero_le hr0
  have hr : r < 8 := by omega
  have hv : d.d.regs (byte (MsDiv_address clk)) % 256 < 256 := Nat.mod_lt _ (by decide)
  rw [MsDiv_eq_rmw] at h
  have hlog := (rmw_some h).1
  rw [MsDiv_value_eq clk divBy4 r _ hclk hr hv] at hlog
  simp only [Int.toNat_ofNat]
  refine ⟨hlog, ?_⟩
  by_cases h4 : divBy4 = 0
  · simp only [h4, ne_eq, not_true_eq_false, if_false]
    exact (MsDiv_bits_clear _ hv r hr).2
  · simp only [h4, ne_eq, not_false_eq_true, if_true]
    exact (MsDiv_bits_set _ hv r hr).2

/-! ## Channel addressing -/

/-- C18, evaluation: channels 0..2 are addressed as documented, but for channels 3..5 the
encoders leave `baseaddr` at 0, `MsDiv` targets 68 for channel 4 (channel 3's register) and
76 for channel 5 (channel 4's register), and `SetupMultiSynth` writes no control register. -/
theorem channel_addressing_evaluated :
    (∀ clk : Nat, clk ≤ 2 →
      SetupMultiSynth_baseaddr clk = 42 + 8 * clk ∧ MsDiv_address clk = 44 + 8 * clk) ∧
    SetupMultiSynth_baseaddr 3 = 0 ∧ SetupMultiSynth_baseaddr 4 = 0 ∧
    SetupMultiSynth_baseaddr 5 = 0 ∧
    MsDiv_address 3 = 68 ∧ MsDiv_address 4 = 68 ∧ MsDiv_address 5 = 76 ∧
    newLog bootDev ((SetupMultiSynthNew exactQuot bootDev 4 0 6 0 1 false 0 0).getD bootDev) =
      [[0, 0, 1, 0, 1, 0, 0, 0, 0], [20], [20, 128], [68], [68, 0]] ∧
    newLog bootDev (SetupMultiSynth exactQuot bootDev 4 0 6 0 1) =
      [[0, 0, 1, 0, 1, 0, 0, 0, 0]] := by
  refine ⟨?_, by decide, by decide, by decide, by decide, by decide, by decide, by decide,
    by decide⟩
  intro clk hclk
  interval_cases clk <;> decide

/-! ## The steps of `SetupFreq` -/

theorem setIdx_some {α : Type} {s s' : List α} {i : Nat} {v : α} (h : setIdx s i v = some s') :
    i < s.length ∧ s' = s.set i v := by
  unfold setIdx at h
  split_ifs at h with hi
  simp only [Option.some.injEq] at h
  exact ⟨hi, h.symm⟩

/-- The first-set step either finds the flag set and does nothing, or finds it clear,
runs `OutputEnable` and sets it. -/
theorem SetupFreq_firstSet_some {d d1 : Dev} {clk : Nat}
    (h : SetupFreq_firstSet d clk = some d1) :
    (d.clkFirstSet[clk]? = some true ∧ d1 = d) ∨
    (d.clkFirstSet[clk]? = some false ∧ ∃ d0, OutputEnable d clk true = some d0 ∧
      d1 = { d0 with clkFirstSet := d0.clkFirstSet.set clk true }) := by
  unfold SetupFreq_firstSet at h
  simp only [Option.bind_eq_bind, Option.bind_eq_some, Option.pure_def] at h
  obtain ⟨first, hfirst, h⟩ := h
  split_ifs at h with hf
  · right
    simp only [Option.bind_eq_some, Option.some.injEq] at h
    obtain ⟨d0, h0, s, hs, h2⟩ := h
    rw [hf] at hfirst
    refine ⟨hfirst, d0, h0, ?_⟩
    rw [← h2, (setIdx_some hs).2]
  · left
    simp only [Option.some.injEq] at h
    have : first = true := by
      cases first
      · exact absurd rfl hf
      · rfl
    rw [this] at hfirst
    exact ⟨hfirst, h.symm⟩

/-- A returning `SetupPLLFreq` on PLL A writes one parameter block at register 26 and
stores the frequency. -/
theorem SetupPLLFreq_some {d d' : Dev} {f : Int} (h : SetupPLLFreq d 0 f = some d') :
    ∃ p1 p2 p3 q1 q2 q3, PLLCalc d PLLA f = some (p1, p2, p3) ∧
      SetupPLLFreq_regs p1 p2 p3 = some (q1, q2, q3) ∧
      d' = { (d.Tx (SetupPLLFreq_buff pllAParameters q1 q2 q3) 0).1 with pllAFreq := f } := by
  unfold SetupPLLFreq at h
  simp only [if_true, Option.bind_eq_bind, Option.bind_eq_some, Option.pure_def,
    Option.some.injEq] at h
  obtain ⟨⟨p1, p2, p3⟩, hp, y, hy, ⟨q1, q2, q3⟩, hq, h⟩ := h
  subst hy
  exact ⟨p1, p2, p3, q1, q2, q3, hp, hq, h.symm⟩

/-- In PLL-fixed mode `CalcMultiSynth` returns the PLL frequency it was given. -/
theorem CalcMultiSynth_fixed_pll {t pf : Int} {r : Int × Int × Int × Int} (hpf : pf ≠ 0)
    (h : CalcMultiSynth t pf = some r) : r.2.2.2 = pf := by
  unfold CalcMultiSynth at h
  simp only [hpf, if_false, Option.bind_eq_bind, Option.bind_eq_some, Option.pure_def,
    Option.some.injEq] at h
  obtain ⟨a, -, h⟩ := h
  split_ifs at h <;>
    simp only [Option.bind_eq_some, Option.some_bind, Option.some.injEq] at h
  all_goals
    obtain ⟨_, -, _, -, _, -, _, -, rfl⟩ := h
    rfl

/-- The single-channel path of `SetupFreq`, step by step. -/
theorem SetupFreq_single {fq : F64Quot} {d d' : Dev} {clk : Nat} {f : Int} (hclk : clk ≤ 5)
    (hf : SetupFreq_freq f ≤ 100000000) (h : SetupFreq fq d clk f = some d') :
    ∃ d1 p1 p2 p3 pf d2, clk < d.clkFreq.length ∧
      SetupFreq_firstSet { d with clkFreq := d.clkFreq.set clk (SetupFreq_freq f) } clk =
        some d1 ∧
      CalcMultiSynth (SetupFreq_freq f) 0 = some (p1, p2, p3, pf) ∧
      SetupPLLFreq d1 0 (wrap32 pf) = some d2 ∧
      d' = SetupMultiSynth fq d2 clk 0 p1 p2 p3 := by
  unfold SetupFreq at h
  rw [if_pos hclk] at h
  simp only [] at h
  rw [if_neg (by simp only [multiSynthShareMax, freqMult, mul_one]; omega)] at h
  simp only [Option.bind_eq_bind, Option.bind_eq_some, Option.pure_def,
    Option.some.injEq] at h
  obtain ⟨s, hs, d1, h1, ⟨p1, p2, p3, pf⟩, hcalc, d2, hpll, hd'⟩ := h
  obtain ⟨hlen, rfl⟩ := setIdx_some hs
  exact ⟨d1, p1, p2, p3, pf, d2, hlen, h1, hcalc, hpll, hd'.symm⟩

/-- The shared-PLL path of `SetupFreq`, step by step. -/
theorem SetupFreq_shared {fq : F64Quot} {d d' : Dev} {clk : Nat} {f : Int} (hclk : clk ≤ 5)
    (hf : 100000000 < SetupFreq_freq f) (h : SetupFreq fq d clk f = some d') :
    ∃ d1 p1 p2 p3 pf d2 d3 pf3, SetupFreq_firstSet d clk = some d1 ∧
      clk < d1.clkFreq.length ∧
      CalcMultiSynth (SetupFreq_freq f) 0 = some (p1, p2, p3, pf) ∧
      SetupPLLFreq { d1 with clkFreq := d1.clkFreq.set clk (SetupFreq_freq f) } 0 (wrap32 pf) =
        some d2 ∧
      (List.range 6).foldlM (SetupFreq_recalc fq) (d2, pf) = some (d3, pf3) ∧
      d' = PLLReset d3 0 := by
  unfold SetupFreq at h
  rw [if_pos hclk] at h
  simp only [] at h
  rw [if_pos (by simp only [multiSynthShareMax, freqMult, mul_one]; omega)] at h
  simp only [Option.bind_eq_bind, Option.bind_eq_some, Option.pure_def,
    Option.some.injEq] at h
  obtain ⟨_, _, d1, h1, s, hs, ⟨p1, p2, p3, pf⟩, hcalc, d2, hpll, ⟨d3, pf3⟩, hloop, hd'⟩ := h
  obtain ⟨hlen, rfl⟩ := setIdx_some hs
  exact ⟨d1, p1, p2, p3, pf, d2, d3, pf3, h1, hlen, hcalc, hpll, hloop, hd'.symm⟩

theorem SetupFreq_freq_le (f : Int) (hf : f ≤ 100000000) : SetupFreq_freq f ≤ 100000000 := by
  simp only [SetupFreq_freq, clkoutMinFreq, multiSynthMaxFreq, freqMult, mul_one]
  split_ifs <;> omega

theorem SetupFreq_freq_gt (f : Int) (hf : 100000000 < f) :
    SetupFreq_freq f = min f 225000000 ∧ 100000000 < SetupFreq_freq f := by
  simp only [SetupFreq_freq, clkoutMinFreq, multiSynthMaxFreq, freqMult, mul_one]
  split_ifs <;> omega

/-! ## Transaction logs of the encoders -/

theorem SetupPLLFreq_log {d d' : Dev} {f : Int} (h : SetupPLLFreq d 0 f = some d') :
    ∃ q1 q2 q3, wlog d' = wlog d ++ [SetupPLLFreq_buff pllAParameters q1 q2 q3] ∧
      d'.clkFreq = d.clkFreq ∧ d'.clkFirstSet = d.clkFirstSet ∧
      d'.crystalFreq = d.crystalFreq ∧ d'.refCorrection = d.refCorrection ∧
      d'.pllAFreq = f ∧ d'.d.fail = d.d.fail := by
  obtain ⟨p1, p2, p3, q1, q2, q3, -, -, rfl⟩ := SetupPLLFreq_some h
  exact ⟨q1, q2, q3, wlog_Tx d _ 0, rfl, rfl, rfl, rfl, rfl, Conn_Tx_fail d.d _ 0⟩

theorem PLLReset_log (d : Dev) :
    wlog (PLLReset d 0) = wlog d ++ [[177, 32]] ∧ (PLLReset d 0).d.fail = d.d.fail := by
  have e : PLLReset d 0 = (WriteCommand d pllReset pllResetA).1 := by
    unfold PLLReset
    rw [if_pos (by rfl)]
  rw [e]
  exact ⟨wlog_WriteCommand d _ _, Conn_Tx_fail d.d _ 0⟩

theorem SetupMultiSynth_log (fq : F64Quot) (d : Dev) (clk : Nat) (pll div num denom : Int) :
    wlog (SetupMultiSynth fq d clk pll div num denom) =
      wlog d ++
        (SetupMultiSynth_buff (SetupMultiSynth_baseaddr clk)
            (SetupMultiSynth_regs fq div num denom).1 (SetupMultiSynth_regs fq div num denom).2.1
            (SetupMultiSynth_regs fq div num denom).2.2 ::
          (if clk ≤ 2 then [[16 + clk, SetupMultiSynth_control pll num]] else [])) := by
  obtain rfl | rfl | rfl | h3 : clk = 0 ∨ clk = 1 ∨ clk = 2 ∨ 3 ≤ clk := by omega
  · simp [SetupMultiSynth, wlog_WriteCommand, wlog_Tx, clk0Control]
  · simp [SetupMultiSynth, wlog_WriteCommand, wlog_Tx, clk1Control]
  · simp [SetupMultiSynth, wlog_WriteCommand, wlog_Tx, clk2Control]
  · have e0 : ¬ (clk : Int) = 0 := by omega
    have e1 : ¬ (clk : Int) = 1 := by omega
    have e2 : ¬ (clk : Int) = 2 := by omega
    have e3 : ¬ clk ≤ 2 := by omega
    simp only [SetupMultiSynth, e0, e1, e2, e3, if_false, wlog_Tx]

set_option maxRecDepth 100000 in
theorem intMode_bit : ∀ x < 256,
    (x ||| clkIntegerMode) &&& 64 = 64 ∧ (x &&& (255 ^^^ clkIntegerMode)) &&& 64 = 0 := by
  decide

/-- A returning `SetupMultiSynthNew` issues the parameter block, then the read-modify-write
of the control register (integer-mode bit), then that of the R-divider register. -/
theorem SetupMultiSynthNew_log {fq : F64Quot} {d d' : Dev} {clk pll div num denom : Int}
    {intMode : Bool} {rDiv divBy4 : Int}
    (h : SetupMultiSynthNew fq d clk pll div num denom intMode rDiv divBy4 = some d') :
    ∃ v1 v2, wlog d' = wlog d ++
        [SetupMultiSynthNew_buff (SetupMultiSynth_baseaddr clk)
            (SetupMultiSynth_regs fq div num denom).1 (SetupMultiSynth_regs fq div num denom).2.1
            (SetupMultiSynth_regs fq div num denom).2.2,
         [byte (wrap32 (16 + clk))], [byte (wrap32 (16 + clk)), v1],
         [byte (MsDiv_address clk)], [byte (MsDiv_address clk), v2]] ∧
      v1 &&& 64 = (if intMode then 64 else 0) ∧ d'.d.fail = d.d.fail := by
  unfold SetupMultiSynthNew at h
  simp only [Option.bind_eq_bind, Option.bind_eq_some] at h
  obtain ⟨d1, h1, h2⟩ := h
  rw [SetupIntMode_eq_rmw] at h1
  rw [MsDiv_eq_rmw] at h2
  obtain ⟨l1, -, f1⟩ := rmw_some h1
  obtain ⟨l2, -, f2⟩ := rmw_some h2
  have hx : (d.Tx (SetupMultiSynthNew_buff (SetupMultiSynth_baseaddr clk)
      (SetupMultiSynth_regs fq div num denom).1 (SetupMultiSynth_regs fq div num denom).2.1
      (SetupMultiSynth_regs fq div num denom).2.2) 0).1.d.regs (byte (wrap32 (16 + clk))) % 256
      < 256 := Nat.mod_lt _ (by decide)
  generalize (d.Tx (SetupMultiSynthNew_buff (SetupMultiSynth_baseaddr clk)
      (SetupMultiSynth_regs fq div num denom).1 (SetupMultiSynth_regs fq div num denom).2.1
      (SetupMultiSynth_regs fq div num denom).2.2) 0).1.d.regs (byte (wrap32 (16 + clk))) % 256
      = x at l1 hx
  refine ⟨if intMode then x ||| clkIntegerMode else x &&& (255 ^^^ clkIntegerMode),
    MsDiv_value clk rDiv divBy4 (d1.d.regs (byte (MsDiv_address clk)) % 256), ?_, ?_, ?_⟩
  · rw [l2, l1, wlog_Tx]
    simp only [List.append_assoc, List.singleton_append, List.cons_append, List.nil_append]
  · cases intMode
    · simpa using (intMode_bit x hx).2
    · simpa using (intMode_bit x hx).1
  · rw [f2, f1]
    exact Conn_Tx_fail d.d _ 0

/-- One iteration of the recalculation loop: an idle channel (stored frequency 0) is
skipped; an active one is planned in PLL-fixed mode and encoded, with the integer-mode bit
set exactly when its stored frequency is at least 150 MHz. -/
theorem SetupFreq_recalc_some {fq : F64Quot} {d d' : Dev} {pf pf' : Int} {i : Nat}
    (hpf : pf ≠ 0) (h : SetupFreq_recalc fq (d, pf) i = some (d', pf')) :
    pf' = pf ∧ SameMem d d' ∧ d'.d.fail = d.d.fail ∧ ∃ t, d.clkFreq[i]? = some t ∧
      ((t = 0 ∧ wlog d' = wlog d) ∨
       (t ≠ 0 ∧ ∃ v1 v2, wlog d' = wlog d ++
          [SetupFreq_recalc_block fq i t pf,
           [byte (wrap32 (16 + (i : Int)))], [byte (wrap32 (16 + (i : Int))), v1],
           [byte (MsDiv_address i)], [byte (MsDiv_address i), v2]] ∧
          v1 &&& 64 = (if t ≥ 150000000 then 64 else 0) ∧
          (SetupFreq_recalc_block fq i t pf).length = 9 ∧
          (SetupFreq_recalc_block fq i t pf).head? = some (SetupMultiSynth_baseaddr i))) := by
  unfold SetupFreq_recalc at h
  simp only [Option.bind_eq_bind, Option.bind_eq_some, Option.pure_def] at h
  obtain ⟨t, ht, h⟩ := h
  split_ifs at h with h0
  · simp only [Option.bind_eq_some, Option.some.injEq, Prod.mk.injEq] at h
    obtain ⟨⟨p1, p2, p3, pf2⟩, hcalc, d1, hnew, rfl, rfl⟩ := h
    have hpf2 : pf2 = pf := CalcMultiSynth_fixed_pll hpf hcalc
    obtain ⟨v1, v2, hlog, hbit, hfail⟩ := SetupMultiSynthNew_log hnew
    refine ⟨hpf2, SetupMultiSynthNew_sameMem hnew, hfail, t, ht,
      Or.inr ⟨h0, v1, v2, ?_, ?_, ?_, ?_⟩⟩
    · rw [hlog]
      simp only [SetupFreq_recalc_block, hcalc]
    rotate_left
    · simp only [SetupFreq_recalc_block, hcalc]
      rfl
    · simp only [SetupFreq_recalc_block, hcalc]
      rfl
    · rw [hbit]
      simp only [SetupFreq_flags, multisynthDivby4Freq, freqMult, mul_one]
      by_cases ht4 : t ≥ 150000000
      · simp [ht4]
      · simp [ht4]
  · simp only [Option.some.injEq, Prod.mk.injEq] at h
    obtain ⟨rfl, rfl⟩ := h
    have : t = 0 := by
      by_contra hne
      exact h0 hne
    exact ⟨rfl, SameMem.same _, rfl, t, ht, Or.inl ⟨this, rfl⟩⟩


theorem channel_addresses (i : Nat) (hi : i < 6) :
    byte (wrap32 (16 + (i : Int))) = 16 + i ∧ byte (MsDiv_address i) ≠ 177 ∧
    SetupMultiSynth_baseaddr i ≠ 177 := by
  interval_cases i <;> decide

/-- The recalculation loop over the channels `is`: it sends one parameter block per active
channel, in order, never touches register 177, and leaves the in-memory fields alone. -/
theorem foldlM_recalc_log {fq : F64Quot} (is : List Nat) :
    ∀ {d d' : Dev} {pf pf' : Int}, pf ≠ 0 → (∀ i ∈ is, i < 6) →
      is.foldlM (SetupFreq_recalc fq) (d, pf) = some (d', pf') →
      pf' = pf ∧ SameMem d d' ∧ d'.d.fail = d.d.fail ∧ ∃ l, wlog d' = wlog d ++ l ∧
        l.filter (fun w => decide (w.length = 9)) =
          (is.filter (fun i => decide (d.clkFreq.getD i 0 ≠ 0))).map
            (fun i => SetupFreq_recalc_block fq i (d.clkFreq.getD i 0) pf) ∧
        l.filter (fun w => decide (w.head? = some 177)) = [] := by
  induction is with
  | nil =>
    intro d d' pf pf' _ _ h
    simp only [List.foldlM, Option.pure_def, Option.some.injEq, Prod.mk.injEq] at h
    obtain ⟨rfl, rfl⟩ := h
    exact ⟨rfl, SameMem.same _, rfl, [], by simp, by simp, by simp⟩
  | cons i is ih =>
    intro d d' pf pf' hpf hlt h
    simp only [List.foldlM, Option.bind_eq_bind, Option.bind_eq_some] at h
    obtain ⟨⟨d1, pf1⟩, h1, h2⟩ := h
    obtain ⟨e1, m1, f1, t, ht, hcase⟩ := SetupFreq_recalc_some hpf h1
    subst e1
    obtain ⟨e2, m2, f2, l2, hl2, hnine2, h177⟩ :=
      ih hpf (fun j hj => hlt j (List.mem_cons_of_mem _ hj)) h2
    have hcf : d1.clkFreq = d.clkFreq := m1.2.2.2.2.2.1
    have hget : d.clkFreq.getD i 0 = t := by
      rw [List.getD_eq_getElem?_getD, ht]
      rfl
    obtain ⟨ha1, ha2, ha3⟩ := channel_addresses i (hlt i (List.mem_cons_self _ _))
    rw [hcf] at hnine2
    refine ⟨e2, m1.andThen m2, f2.trans f1, ?_⟩
    rcases hcase with ⟨ht0, hlog⟩ | ⟨ht0, v1, v2, hlog, -, hlen, hhead⟩
    · have hdec : decide (d.clkFreq.getD i 0 ≠ 0) = false := by
        rw [hget, ht0]
        decide
      refine ⟨l2, by rw [hl2, hlog], ?_, h177⟩
      rw [hnine2, List.filter_cons, hdec]
      simp only [Bool.false_eq_true, if_false]
    · have hdec : decide (d.clkFreq.getD i 0 ≠ 0) = true := by
        rw [hget]
        exact decide_eq_true ht0
      generalize hl1 : [SetupFreq_recalc_block fq i t pf1, [byte (wrap32 (16 + (i : Int)))],
        [byte (wrap32 (16 + (i : Int))), v1], [byte (MsDiv_address i)],
        [byte (MsDiv_address i), v2]] = l1 at hlog
      refine ⟨l1 ++ l2, by rw [hl2, hlog, List.append_assoc], ?_, ?_⟩
      · rw [List.filter_append, hnine2]
        conv_rhs => rw [List.filter_cons, hdec]
        rw [← hl1]
        simp only [if_true, List.map_cons, hget]
        generalize SetupFreq_recalc_block fq i t pf1 = blk at hlen
        simp [List.filter_cons, hlen]
      · rw [List.filter_append, h177, ← hl1, ha1]
        generalize SetupFreq_recalc_block fq i t pf1 = blk at hhead
        have hb : ¬ (16 + i = 177) := by
          have := hlt i (List.mem_cons_self _ _)
          omega
        simp [List.filter_cons, hhead, ha2, ha3, hb]
theorem SetupFreq_firstSet_log {d d1 : Dev} {clk : Nat}
    (h : SetupFreq_firstSet d clk = some d1) :
    (d.clkFirstSet[clk]? = some true ∧ d1 = d) ∨
    (d.clkFirstSet[clk]? = some false ∧
      wlog d1 = wlog d ++
        [[3], [3, (d.d.regs 3 % 256) &&& (255 ^^^ ((1 <<< clk) % 256))]] ∧
      d1.clkFirstSet = d.clkFirstSet.set clk true ∧ d1.clkFreq = d.clkFreq ∧
      d1.crystalFreq = d.crystalFreq ∧ d1.refCorrection = d.refCorrection ∧
      d1.d.fail = d.d.fail) := by
  rcases SetupFreq_firstSet_some h with h1 | ⟨hf, d0, h0, rfl⟩
  · exact Or.inl h1
  · right
    rw [OutputEnable_eq_rmw] at h0
    obtain ⟨hlog, hm, hfail⟩ := rmw_some h0
    obtain ⟨m1, -, m3, -, -, m6, m7⟩ := hm
    refine ⟨hf, ?_, ?_, m6, m1, m3, hfail⟩
    · exact hlog
    · show d0.clkFirstSet.set clk true = _
      rw [m7]

/-- The transactions of a returning call on the shared-PLL path: the optional output-enable
read-modify-write, the PLL-A block, the loop's transactions, and the PLL reset. -/
theorem SetupFreq_shared_log {fq : F64Quot} {d d' : Dev} {clk : Nat} {f : Int}
    (hclk : clk ≤ 5) (hf : 100000000 < SetupFreq_freq f)
    (h : SetupFreq fq d clk f = some d') :
    ∃ p1 p2 p3 pf q1 q2 q3 loe l,
      CalcMultiSynth (SetupFreq_freq f) 0 = some (p1, p2, p3, pf) ∧
      600000000 ≤ pf ∧ pf ≤ 900000000 ∧
      clk < d.clkFreq.length ∧
      d'.clkFreq = d.clkFreq.set clk (SetupFreq_freq f) ∧ d'.pllAFreq = pf ∧
      d'.crystalFreq = d.crystalFreq ∧ d'.refCorrection = d.refCorrection ∧
      d'.d.fail = d.d.fail ∧
      ((d.clkFirstSet[clk]? = some true ∧ loe = [] ∧ d'.clkFirstSet = d.clkFirstSet) ∨
       (d.clkFirstSet[clk]? = some false ∧
        loe = [[3], [3, (d.d.regs 3 % 256) &&& (255 ^^^ ((1 <<< clk) % 256))]] ∧
        d'.clkFirstSet = d.clkFirstSet.set clk true)) ∧
      wlog d' = wlog d ++ loe ++ [SetupPLLFreq_buff pllAParameters q1 q2 q3] ++ l ++
        [[177, 32]] ∧
      l.filter (fun w => decide (w.length = 9)) =
        ((List.range 6).filter (fun i => decide (d'.clkFreq.getD i 0 ≠ 0))).map
          (fun i => SetupFreq_recalc_block fq i (d'.clkFreq.getD i 0) pf) ∧
      l.filter (fun w => decide (w.head? = some 177)) = [] := by
  obtain ⟨d1, p1, p2, p3, pf, d2, d3, pf3, h1, hlen, hcalc, hpll, hloop, rfl⟩ :=
    SetupFreq_shared hclk hf h
  obtain ⟨r1, r2, r3, rf, hr, hlo, hhi⟩ := CalcMultiSynth_zero_range (SetupFreq_freq f)
  rw [hr] at hcalc
  simp only [Option.some.injEq, Prod.mk.injEq] at hcalc
  obtain ⟨e1, e2, e3, e4⟩ := hcalc
  subst e1 e2 e3 e4
  obtain ⟨q1, q2, q3, hlog2, hcf2, hfs2, hx2, hrc2, hpa2, hfail2⟩ := SetupPLLFreq_log hpll
  obtain ⟨-, m3, hfail3, l, hl3, hnine, h177⟩ :=
    foldlM_recalc_log (List.range 6) (show rf ≠ 0 by omega)
      (fun i hi => List.mem_range.mp hi) hloop
  obtain ⟨m31, -, m33, m34, -, m36, m37⟩ := m3
  obtain ⟨hlogR, hfailR⟩ := PLLReset_log d3
  obtain ⟨n1, -, n3, n4, -, n6, n7⟩ := PLLReset_sameMem d3 0
  have hcf' : (PLLReset d3 0).clkFreq = d1.clkFreq.set clk (SetupFreq_freq f) := by
    rw [n6, m36, hcf2]
  rw [← m36, ← n6] at hnine
  rcases SetupFreq_firstSet_log h1 with ⟨hft, rfl⟩ | ⟨hff, hlog1, hfs1, hcf1, hx1, hrc1, hfail1⟩
  · refine ⟨_, _, _, _, q1, q2, q3, [], l, hr, hlo, hhi, hlen, hcf', ?_, ?_, ?_, ?_,
      Or.inl ⟨hft, rfl, ?_⟩, ?_, hnine, h177⟩
    · rw [n4, m34, hpa2]; exact wrap32_of_range (by omega) (by omega)
    · rw [n1, m31, hx2]
    · rw [n3, m33, hrc2]
    · rw [hfailR, hfail3, hfail2]
    · rw [n7, m37, hfs2]
    · rw [hlogR, hl3, hlog2]
      show wlog d1 ++ _ ++ l ++ _ = _
      simp only [List.append_nil]
  · rw [hcf1] at hlen hcf'
    refine ⟨_, _, _, _, q1, q2, q3, _, l, hr, hlo, hhi, hlen, hcf', ?_, ?_, ?_, ?_,
      Or.inr ⟨hff, rfl, ?_⟩, ?_, hnine, h177⟩
    · rw [n4, m34, hpa2]; exact wrap32_of_range (by omega) (by omega)
    · rw [n1, m31, hx2]; exact hx1
    · rw [n3, m33, hrc2]; exact hrc1
    · rw [hfailR, hfail3, hfail2]; exact hfail1
    · rw [n7, m37, hfs2]; exact hfs1
    · rw [hlogR, hl3, hlog2]
      show wlog d1 ++ _ ++ l ++ _ = _
      rw [hlog1]

/-- The transactions of a returning call on the single-channel path: the optional
output-enable read-modify-write, the PLL-A block, the channel's block, and (channels 0..2)
the control register. -/
theorem SetupFreq_single_log {fq : F64Quot} {d d' : Dev} {clk : Nat} {f : Int}
    (hclk : clk ≤ 5) (hf : SetupFreq_freq f ≤ 100000000)
    (h : SetupFreq fq d clk f = some d') :
    ∃ p1 p2 p3 pf q1 q2 q3 loe,
      CalcMultiSynth (SetupFreq_freq f) 0 = some (p1, p2, p3, pf) ∧
      600000000 ≤ pf ∧ pf ≤ 900000000 ∧
      clk < d.clkFreq.length ∧
      d'.clkFreq = d.clkFreq.set clk (SetupFreq_freq f) ∧ d'.pllAFreq = pf ∧
      d'.crystalFreq = d.crystalFreq ∧ d'.refCorrection = d.refCorrection ∧
      d'.d.fail = d.d.fail ∧
      ((d.clkFirstSet[clk]? = some true ∧ loe = [] ∧ d'.clkFirstSet = d.clkFirstSet) ∨
       (d.clkFirstSet[clk]? = some false ∧
        loe = [[3], [3, (d.d.regs 3 % 256) &&& (255 ^^^ ((1 <<< clk) % 256))]] ∧
        d'.clkFirstSet = d.clkFirstSet.set clk true)) ∧
      wlog d' = wlog d ++ loe ++ [SetupPLLFreq_buff pllAParameters q1 q2 q3] ++
        (SetupMultiSynth_buff (SetupMultiSynth_baseaddr clk)
            (SetupMultiSynth_regs fq p1 p2 p3).1 (SetupMultiSynth_regs fq p1 p2 p3).2.1
            (SetupMultiSynth_regs fq p1 p2 p3).2.2 ::
          (if clk ≤ 2 then [[16 + clk, SetupMultiSynth_control 0 p2]] else [])) := by
  obtain ⟨d1, p1, p2, p3, pf, d2, hlen, h1, hcalc, hpll, rfl⟩ := SetupFreq_single hclk hf h
  obtain ⟨r1, r2, r3, rf, hr, hlo, hhi⟩ := CalcMultiSynth_zero_range (SetupFreq_freq f)
  rw [hr] at hcalc
  simp only [Option.some.injEq, Prod.mk.injEq] at hcalc
  obtain ⟨e1, e2, e3, e4⟩ := hcalc
  subst e1 e2 e3 e4
  obtain ⟨q1, q2, q3, hlog2, hcf2, hfs2, hx2, hrc2, hpa2, hfail2⟩ := SetupPLLFreq_log hpll
  have hlogM := SetupMultiSynth_log fq d2 clk 0 r1 r2 r3
  obtain ⟨n1, -, n3, n4, -, n6, n7⟩ := SetupMultiSynth_sameMem fq d2 clk 0 r1 r2 r3
  have hfailM : (SetupMultiSynth fq d2 clk 0 r1 r2 r3).d.fail = d2.d.fail := by
    unfold SetupMultiSynth
    simp only
    split_ifs <;>
      first
      | exact (Conn_Tx_fail _ _ 0).trans (Conn_Tx_fail d2.d _ 0)
      | exact Conn_Tx_fail d2.d _ 0
  rcases SetupFreq_firstSet_log h1 with ⟨hft, rfl⟩ | ⟨hff, hlog1, hfs1, hcf1, hx1, hrc1, hfail1⟩
  · refine ⟨_, _, _, _, q1, q2, q3, [], hr, hlo, hhi, hlen, ?_, ?_, ?_, ?_, ?_,
      Or.inl ⟨hft, rfl, ?_⟩, ?_⟩
    · rw [n6, hcf2]
    · rw [n4, hpa2]; exact wrap32_of_range (by omega) (by omega)
    · rw [n1, hx2]
    · rw [n3, hrc2]
    · rw [hfailM, hfail2]
    · rw [n7, hfs2]
    · rw [hlogM, hlog2]
      simp only [List.append_nil, List.append_assoc]
      rfl
  · refine ⟨_, _, _, _, q1, q2, q3, _, hr, hlo, hhi, hlen, ?_, ?_, ?_, ?_, ?_,
      Or.inr ⟨hff, rfl, ?_⟩, ?_⟩
    · rw [n6, hcf2, hcf1]
    · rw [n4, hpa2]; exact wrap32_of_range (by omega) (by omega)
    · rw [n1, hx2]; exact hx1
    · rw [n3, hrc2]; exact hrc1
    · rw [hfailM, hfail2]; exact hfail1
    · rw [n7, hfs2]; exact hfs1
    · rw [hlogM, hlog2, hlog1]
      simp only [List.append_assoc]
      rfl

/-! ## The first call on a channel -/

/-- C17 (as amended). For every channel `clk` in `0..5` whose first-set flag is clear, a
returning `SetupFreq(clk, f)`, for any `f` (zero included), first issues the output-enable
read-modify-write on register 3 (clearing bit `clk`) and leaves `clkFirstSet[clk]` true. -/
theorem first_call_enables (fq : F64Quot) (d d' : Dev) (clk : Nat) (f : Int) (hclk : clk ≤ 5)
    (hfirst : d.clkFirstSet[clk]? = some false) (h : SetupFreq fq d clk f = some d') :
    d'.clkFirstSet[clk]? = some true ∧
    ∃ l, wlog d' = wlog d ++
      [3] :: [3, (d.d.regs 3 % 256) &&& (255 ^^^ ((1 <<< clk) % 256))] :: l := by
  have hlt : clk < d.clkFirstSet.length := by
    by_contra hge
    rw [List.getElem?_eq_none (by omega)] at hfirst
    cases hfirst
  have hset : (d.clkFirstSet.set clk true)[clk]? = some true := by
    rw [List.getElem?_set_self hlt]
  by_cases hf : SetupFreq_freq f ≤ 100000000
  · obtain ⟨p1, p2, p3, pf, q1, q2, q3, loe, -, -, -, -, -, -, -, -, -, hoe, hlog⟩ :=
      SetupFreq_single_log hclk hf h
    rcases hoe with ⟨ht, -, -⟩ | ⟨-, rfl, hfs⟩
    · rw [hfirst] at ht; cases ht
    · refine ⟨by rw [hfs]; exact hset,
        [SetupPLLFreq_buff pllAParameters q1 q2 q3] ++
          (SetupMultiSynth_buff (SetupMultiSynth_baseaddr clk)
              (SetupMultiSynth_regs fq p1 p2 p3).1 (SetupMultiSynth_regs fq p1 p2 p3).2.1
              (SetupMultiSynth_regs fq p1 p2 p3).2.2 ::
            (if clk ≤ 2 then [[16 + clk, SetupMultiSynth_control 0 p2]] else [])), ?_⟩
      rw [hlog]
      simp only [List.append_assoc, List.cons_append, List.nil_append]
  · obtain ⟨p1, p2, p3, pf, q1, q2, q3, loe, l, -, -, -, -, -, -, -, -, -, hoe, hlog, -, -⟩ :=
      SetupFreq_shared_log hclk (by omega) h
    rcases hoe with ⟨ht, -, -⟩ | ⟨-, rfl, hfs⟩
    · rw [hfirst] at ht; cases ht
    · refine ⟨by rw [hfs]; exact hset,
        [SetupPLLFreq_buff pllAParameters q1 q2 q3] ++ l ++ [[177, 32]], ?_⟩
      rw [hlog]
      simp only [List.append_assoc, List.cons_append, List.nil_append]

/-- C17, counterexample: on the freshly initialised device `SetupFreq(0, 0)` issues the
output-enable write `[3, 254]` and sets `clkFirstSet[0]`. -/
theorem first_call_zero_enables :
    bootDev.clkFirstSet = [false, false, false, false, false, false] ∧
    newLog bootDev (runFreq bootDev 0 0) =
      [[3], [3, 254], [26, 0, 1, 0, 16, 0, 0, 0, 0], [42, 0, 1, 3, 130, 0, 0, 0, 0], [16, 79]] ∧
    (runFreq bootDev 0 0).clkFirstSet = [true, false, false, false, false, false] := by
  decide

/-- The call `SetupFreq(0, 0)` on `bootDev` returns. -/
theorem runFreq_zero_spec : SetupFreq exactQuot bootDev 0 0 = some (runFreq bootDev 0 0) := by
  have h : (SetupFreq exactQuot bootDev 0 0).isSome = true := by decide
  obtain ⟨d', hd'⟩ := Option.isSome_iff_exists.mp h
  simp only [runFreq, hd', Option.getD_some]

/-- Instance of C17: the first call on channel 0 of `bootDev`, with frequency 0. -/
theorem first_call_enables_witness :
    (runFreq bootDev 0 0).clkFirstSet[0]? = some true :=
  (first_call_enables exactQuot bootDev (runFreq bootDev 0 0) 0 0 (by decide) rfl
    runFreq_zero_spec).1

/-! ## The shared-PLL path -/

theorem newLog_append (d d' : Dev) (l : List (List Nat)) (h : wlog d' = wlog d ++ l) :
    newLog d d' = l := by
  unfold newLog
  rw [h, List.drop_left]

/-- Transactions of the shared-PLL path: for every channel `clk` in `0..5` and every
`f > 100,000,000`, a returning `SetupFreq(clk, f)` chooses the PLL frequency `pf` for
`min f 225,000,000` alone, sends a nine-byte block at register 26 and then one parameter
block for exactly the channels whose stored frequency is non-zero (`clk` included), in
channel order, each planned by `CalcMultiSynth` in PLL-fixed mode against `pf` and sent to
the base address the encoder computes (`SetupMultiSynth_baseaddr`, which is 0 for channels
3..5), and finally writes register 177 exactly once, with the PLL-A bit `0x20`; for every
`f ≤ 100,000,000` no transaction addresses register 177. -/
theorem shared_path_recalculates (fq : F64Quot) (d d' : Dev) (clk : Nat) (f : Int)
    (hclk : clk ≤ 5) (h : SetupFreq fq d clk f = some d') :
    (100000000 < f →
      ∃ p1 p2 p3 pf q1 q2 q3,
        CalcMultiSynth (min f 225000000) 0 = some (p1, p2, p3, pf) ∧ pf ≠ 0 ∧
        d'.pllAFreq = pf ∧
        d'.clkFreq = d.clkFreq.set clk (min f 225000000) ∧ d'.clkFreq.getD clk 0 ≠ 0 ∧
        (newLog d d').filter (fun w => decide (w.length = 9)) =
          SetupPLLFreq_buff pllAParameters q1 q2 q3 ::
            ((List.range 6).filter (fun i => decide (d'.clkFreq.getD i 0 ≠ 0))).map
              (fun i => SetupFreq_recalc_block fq i (d'.clkFreq.getD i 0) pf) ∧
        (newLog d d').filter (fun w => decide (w.head? = some 177)) = [[177, 0x20]] ∧
        (newLog d d').getLast? = some [177, 0x20]) ∧
    (f ≤ 100000000 →
      (newLog d d').filter (fun w => decide (w.head? = some 177)) = []) := by
  constructor
  · intro hf
    obtain ⟨hfeq, hfgt⟩ := SetupFreq_freq_gt f hf
    obtain ⟨p1, p2, p3, pf, q1, q2, q3, loe, l, hcalc, hlo, -, hlen, hcf, hpa, -, -, -, hoe,
      hlog, hnine, h177⟩ := SetupFreq_shared_log hclk hfgt h
    rw [hfeq] at hcalc hcf
    have hnl := newLog_append d d'
      (loe ++ [SetupPLLFreq_buff pllAParameters q1 q2 q3] ++ l ++ [[177, 32]])
      (by rw [hlog]; simp only [List.append_assoc])
    have hget : d'.clkFreq.getD clk 0 ≠ 0 := by
      rw [hcf, List.getD_eq_getElem?_getD, List.getElem?_set_self hlen]
      show min f 225000000 ≠ 0
      omega
    have hloe9 : loe.filter (fun w => decide (w.length = 9)) = [] ∧
        loe.filter (fun w => decide (w.head? = some 177)) = [] := by
      rcases hoe with ⟨-, rfl, -⟩ | ⟨-, rfl, -⟩
      · exact ⟨rfl, rfl⟩
      · exact ⟨by simp [List.filter_cons], by simp [List.filter_cons]⟩
    refine ⟨p1, p2, p3, pf, q1, q2, q3, hcalc, by omega, hpa, hcf, hget, ?_, ?_, ?_⟩
    · rw [hnl]
      simp only [List.filter_append, hloe9.1, hnine, List.nil_append]
      simp [List.filter_cons, SetupPLLFreq_buff]
    · rw [hnl]
      simp only [List.filter_append, hloe9.2, h177, List.nil_append]
      simp [List.filter_cons, SetupPLLFreq_buff, pllAParameters]
    · rw [hnl]
      exact List.getLast?_concat _
  · intro hf
    obtain ⟨p1, p2, p3, pf, q1, q2, q3, loe, -, -, -, -, -, -, -, -, -, hoe, hlog⟩ :=
      SetupFreq_single_log hclk (SetupFreq_freq_le f hf) h
    have hnl := newLog_append d d' _ (by rw [hlog, List.append_assoc, List.append_assoc])
    have hloe : loe.filter (fun w => decide (w.head? = some 177)) = [] := by
      rcases hoe with ⟨-, rfl, -⟩ | ⟨-, rfl, -⟩
      · rfl
      · simp [List.filter_cons]
    have hbase : SetupMultiSynth_baseaddr clk ≠ 177 := by
      interval_cases clk <;> decide
    rw [hnl]
    simp only [List.filter_append, hloe, List.nil_append]
    by_cases h2 : clk ≤ 2
    · have : ¬ (16 + clk = 177) := by omega
      simp [List.filter_cons, SetupPLLFreq_buff, SetupMultiSynth_buff, pllAParameters, hbase,
        h2, this]
    · simp [List.filter_cons, SetupPLLFreq_buff, SetupMultiSynth_buff, pllAParameters, hbase,
        h2]

/-- The state after channel 0 is set to 150 MHz on `bootDev`. -/
theorem runFreq_150_spec :
    SetupFreq exactQuot bootDev 0 150000000 = some (runFreq bootDev 0 150000000) := by
  have h : (SetupFreq exactQuot bootDev 0 150000000).isSome = true := by decide
  obtain ⟨d', hd'⟩ := Option.isSome_iff_exists.mp h
  simp only [runFreq, hd', Option.getD_some]

set_option maxRecDepth 100000 in
/-- Then channel 1 is set to 160 MHz. -/
theorem runFreq_150_160_spec :
    SetupFreq exactQuot (runFreq bootDev 0 150000000) 1 160000000 =
      some (runFreq (runFreq bootDev 0 150000000) 1 160000000) := by
  have h : (SetupFreq exactQuot (runFreq bootDev 0 150000000) 1 160000000).isSome = true := by
    decide
  obtain ⟨d', hd'⟩ := Option.isSome_iff_exists.mp h
  have e : runFreq (runFreq bootDev 0 150000000) 1 160000000 = d' := by
    show (SetupFreq exactQuot (runFreq bootDev 0 150000000) 1 160000000).getD _ = d'
    rw [hd']
    rfl
  rw [e]
  exact hd'

set_option maxRecDepth 100000 in
theorem runFreq_150_160_clkFreq :
    (runFreq (runFreq bootDev 0 150000000) 1 160000000).clkFreq =
      [150000000, 160000000, 0, 0, 0, 0] := by
  decide

/-- The scenario of the specification: channel 0 is set to 150 MHz, then channel 1 to
160 MHz; after the block at register 26 the second call sends the blocks of channels 0 and
1, planned against the new PLL frequency 640 MHz. -/
theorem shared_path_recalculates_witness :
    ((newLog (runFreq bootDev 0 150000000)
        (runFreq (runFreq bootDev 0 150000000) 1 160000000)).filter
      (fun w => decide (w.length = 9))).tail =
      [SetupFreq_recalc_block exactQuot 0 150000000 640000000,
       SetupFreq_recalc_block exactQuot 1 160000000 640000000] ∧
    (newLog (runFreq bootDev 0 150000000)
        (runFreq (runFreq bootDev 0 150000000) 1 160000000)).filter
      (fun w => decide (w.head? = some 177)) = [[177, 0x20]] := by
  obtain ⟨p1, p2, p3, pf, q1, q2, q3, hcalc, -, -, -, -, hnine, h177, -⟩ :=
    (shared_path_recalculates exactQuot (runFreq bootDev 0 150000000)
      (runFreq (runFreq bootDev 0 150000000) 1 160000000) 1 160000000 (by decide)
      runFreq_150_160_spec).1 (by decide)
  have hpf : pf = 640000000 := by
    have e : CalcMultiSynth (min 160000000 225000000) 0 = some (0, 0, 1, 640000000) := by
      decide
    rw [e] at hcalc
    simp only [Option.some.injEq, Prod.mk.injEq] at hcalc
    exact hcalc.2.2.2.symm
  subst hpf
  refine ⟨?_, h177⟩
  rw [hnine, runFreq_150_160_clkFreq]
  rfl

/-! ## The single-channel path -/

/-- In PLL-not-fixed mode `CalcMultiSynth` returns a pure-integer triple. -/
theorem CalcMultiSynth_zero_shape {t p1 p2 p3 pf : Int}
    (h : CalcMultiSynth t 0 = some (p1, p2, p3, pf)) : p2 = 0 ∧ p3 = 1 := by
  unfold CalcMultiSynth at h
  simp only [if_true, Option.bind_eq_bind, Option.pure_def] at h
  split_ifs at h <;>
    simp only [Option.bind_eq_some, Option.some_bind, Option.some.injEq, Prod.mk.injEq] at h
  all_goals
    first
    | exact ⟨h.2.1.symm, h.2.2.1.symm⟩
    | (obtain ⟨_, -, h⟩ := h; exact ⟨h.2.1.symm, h.2.2.1.symm⟩)

theorem SetupFreq_freq_pos (f : Int) (hf0 : 0 < f) (hf1 : f ≤ 100000000) :
    SetupFreq_freq f = max f 4000 := by
  simp only [SetupFreq_freq, clkoutMinFreq, multiSynthMaxFreq, freqMult, mul_one]
  split_ifs <;> omega

/-- Transactions of the single-channel path: for every channel `clk` in `0..5` and every
`0 < f ≤ 100,000,000`, whatever PLL frequency is committed, a returning `SetupFreq(clk, f)`
plans the channel with `(a, 0, 1, pf) = CalcMultiSynth(max f 4000, 0)`, stores `pf` as the
PLL-A frequency, and its nine-byte writes are one block at register 26 (its bytes are left
open here) and the block of `(a, 0, 1)` at the base address the encoder computes. -/
theorem single_path_plans_unfixed (fq : F64Quot) (d d' : Dev) (clk : Nat) (f : Int)
    (hclk : clk ≤ 5) (hf0 : 0 < f) (hf1 : f ≤ 100000000)
    (h : SetupFreq fq d clk f = some d') :
    ∃ a pf q1 q2 q3,
      CalcMultiSynth (max f 4000) 0 = some (a, 0, 1, pf) ∧ d'.pllAFreq = pf ∧
      (newLog d d').filter (fun w => decide (w.length = 9)) =
        [SetupPLLFreq_buff pllAParameters q1 q2 q3,
         SetupMultiSynth_buff (SetupMultiSynth_baseaddr clk) (SetupMultiSynth_regs fq a 0 1).1
           (SetupMultiSynth_regs fq a 0 1).2.1 (SetupMultiSynth_regs fq a 0 1).2.2] := by
  have hfeq := SetupFreq_freq_pos f hf0 hf1
  obtain ⟨p1, p2, p3, pf, q1, q2, q3, loe, hcalc, -, -, -, -, hpa, -, -, -, hoe, hlog⟩ :=
    SetupFreq_single_log hclk (SetupFreq_freq_le f hf1) h
  rw [hfeq] at hcalc
  obtain ⟨rfl, rfl⟩ := CalcMultiSynth_zero_shape hcalc
  have hnl := newLog_append d d' _ (by rw [hlog, List.append_assoc, List.append_assoc])
  have hloe : loe.filter (fun w => decide (w.length = 9)) = [] := by
    rcases hoe with ⟨-, rfl, -⟩ | ⟨-, rfl, -⟩
    · rfl
    · simp [List.filter_cons]
  refine ⟨p1, pf, q1, q2, q3, hcalc, hpa, ?_⟩
  rw [hnl]
  simp only [List.filter_append, hloe, List.nil_append]
  by_cases h2 : clk ≤ 2
  · simp [List.filter_cons, SetupPLLFreq_buff, SetupMultiSynth_buff, h2]
  · simp [List.filter_cons, SetupPLLFreq_buff, SetupMultiSynth_buff, h2]

set_option maxRecDepth 100000 in
/-- The call `SetupFreq(1, 13557000)` on `tunedDev` returns. -/
theorem runFreq_tuned_spec :
    SetupFreq exactQuot tunedDev 1 13557000 = some (runFreq tunedDev 1 13557000) := by
  have h : (SetupFreq exactQuot tunedDev 1 13557000).isSome = true := by decide
  obtain ⟨d', hd'⟩ := Option.isSome_iff_exists.mp h
  have e : runFreq tunedDev 1 13557000 = d' := by
    show (SetupFreq exactQuot tunedDev 1 13557000).getD _ = d'
    rw [hd']
    rfl
  rw [e]
  exact hd'

set_option maxRecDepth 100000 in
/-- C14, evaluation: channel 0 runs at 10 MHz on PLL A committed at 900 MHz (divider 90,
block `[42, 0, 1, 0, 43, 0, 0, 0, 0]`). `SetupFreq(1, 13557000)` then plans channel 1
against no PLL: it encodes the triple `(66, 0, 1)` of `CalcMultiSynth(13557000, 0)`, where
PLL-fixed planning against the committed 900 MHz gives `(66, 386368, 1000000)` and the block
`[50, 66, 64, 0, 31, 49, 246, 241, 192]`, and it re-programs PLL A (block at register 26) to
894,762,000 without writing channel 0's registers, whose divider 90 now yields
9,941,800 Hz. -/
theorem single_path_ignores_committed_pll :
    tunedDev.pllAFreq = 900000000 ∧
    tunedDev.clkFreq = [10000000, 0, 0, 0, 0, 0] ∧
    newLog bootDev tunedDev =
      [[3], [3, 254], [26, 0, 1, 0, 16, 0, 0, 0, 0], [42, 0, 1, 0, 43, 0, 0, 0, 0],
       [16, 79]] ∧
    CalcMultiSynth 10000000 900000000 = some (90, 0, 1, 900000000) ∧
    (894762000 / 90 : Int) = 9941800 ∧
    CalcMultiSynth 13557000 900000000 = some (66, 386368, 1000000, 900000000) ∧
    SetupMultiSynth_buff 50 (SetupMultiSynth_regs exactQuot 66 386368 1000000).1
        (SetupMultiSynth_regs exactQuot 66 386368 1000000).2.1
        (SetupMultiSynth_regs exactQuot 66 386368 1000000).2.2 =
      [50, 66, 64, 0, 31, 49, 246, 241, 192] ∧
    newLog tunedDev (runFreq tunedDev 1 13557000) =
      [[3], [3, 252], [26, 66, 64, 0, 15, 229, 242, 196, 192],
       [50, 0, 1, 0, 31, 0, 0, 0, 0], [17, 79]] ∧
    (runFreq tunedDev 1 13557000).pllAFreq = 894762000 := by
  decide

/-- Channel 1 is set to 13,557,000 Hz while PLL A is at 900 MHz: the channel block. -/
theorem single_path_plans_unfixed_witness :
    ((newLog tunedDev (runFreq tunedDev 1 13557000)).filter
      (fun w => decide (w.length = 9))).tail =
      [SetupMultiSynth_buff 50 (SetupMultiSynth_regs exactQuot 66 0 1).1
        (SetupMultiSynth_regs exactQuot 66 0 1).2.1 (SetupMultiSynth_regs exactQuot 66 0 1).2.2] := by
  obtain ⟨a, pf, q1, q2, q3, hcalc, -, hnine⟩ :=
    single_path_plans_unfixed exactQuot tunedDev (runFreq tunedDev 1 13557000) 1 13557000
      (by decide) (by decide) (by decide) runFreq_tuned_spec
  have e : CalcMultiSynth (max 13557000 4000) 0 = some (66, 0, 1, 894762000) := by decide
  rw [e] at hcalc
  simp only [Option.some.injEq, Prod.mk.injEq] at hcalc
  obtain ⟨rfl, -, -, -⟩ := hcalc
  rw [hnine]
  rfl

/-! ## Low output frequencies -/

/-- C13, evaluation at a failing input: for `f = 8000` the R-divider code is 6 and the
scaled frequency would be 512,000, planned as `(1757, 0, 1)`; `SetupFreq(0, 8000)` issues
exactly the transactions of `SetupFreq(0, 500000)`, encoding the triple `(1800, 0, 1)` of
the unscaled, clamped frequency, and no R-divider write: register 44 is left at 3, whose
R-divider field (bits 6:4) is 0. -/
theorem low_frequency_not_scaled :
    selectRDiv 8000 = 6 ∧ selectRDiv_freq 8000 = 512000 ∧
    CalcMultiSynth 512000 0 = some (1757, 0, 1, 899584000) ∧
    CalcMultiSynth 8000 0 = some (1800, 0, 1, 900000000) ∧
    newLog bootDev (runFreq bootDev 0 8000) =
      [[3], [3, 254], [26, 0, 1, 0, 16, 0, 0, 0, 0], [42, 0, 1, 3, 130, 0, 0, 0, 0], [16, 79]] ∧
    newLog bootDev (runFreq bootDev 0 500000) = newLog bootDev (runFreq bootDev 0 8000) ∧
    SetupMultiSynth_buff 42 (SetupMultiSynth_regs exactQuot 1757 0 1).1
        (SetupMultiSynth_regs exactQuot 1757 0 1).2.1
        (SetupMultiSynth_regs exactQuot 1757 0 1).2.2 = [42, 0, 1, 3, 108, 128, 0, 0, 0] ∧
    (runFreq bootDev 0 8000).d.regs 44 = 3 := by
  decide

/-! ## Integer mode -/

theorem MsDiv_address_ge (i : Nat) (hi : i < 6) : 22 ≤ byte (MsDiv_address i) := by
  interval_cases i <;> decide

/-- The control-register writes of the recalculation loop: every active channel gets one,
and each carries the integer-mode bit chosen from the channel's stored frequency. -/
theorem foldlM_recalc_control {fq : F64Quot} (is : List Nat) :
    ∀ {d d' : Dev} {pf pf' : Int}, pf ≠ 0 → (∀ i ∈ is, i < 6) →
      is.foldlM (SetupFreq_recalc fq) (d, pf) = some (d', pf') →
      ∃ l, wlog d' = wlog d ++ l ∧
        (∀ w ∈ l, ∀ i, i < 6 → w.length = 2 → w.head? = some (16 + i) →
          ∃ t, d.clkFreq[i]? = some t ∧ t ≠ 0 ∧
            w.getD 1 0 &&& 64 = (if t ≥ 150000000 then 64 else 0)) ∧
        (∀ i ∈ is, ∀ t, d.clkFreq[i]? = some t → t ≠ 0 → ∃ v, [16 + i, v] ∈ l) := by
  induction is with
  | nil =>
    intro d d' pf pf' _ _ h
    simp only [List.foldlM, Option.pure_def, Option.some.injEq, Prod.mk.injEq] at h
    obtain ⟨rfl, rfl⟩ := h
    exact ⟨[], by simp, by simp, by simp⟩
  | cons i0 is ih =>
    intro d d' pf pf' hpf hlt h
    simp only [List.foldlM, Option.bind_eq_bind, Option.bind_eq_some] at h
    obtain ⟨⟨d1, pf1⟩, h1, h2⟩ := h
    obtain ⟨e1, m1, -, t0, ht0, hcase⟩ := SetupFreq_recalc_some hpf h1
    subst e1
    obtain ⟨l2, hl2, hc2, he2⟩ := ih hpf (fun j hj => hlt j (List.mem_cons_of_mem _ hj)) h2
    have hcf : d1.clkFreq = d.clkFreq := m1.2.2.2.2.2.1
    rw [hcf] at hc2 he2
    have hi0 : i0 < 6 := hlt i0 (List.mem_cons_self _ _)
    obtain ⟨ha1, -, -⟩ := channel_addresses i0 hi0
    have hA := MsDiv_address_ge i0 hi0
    rcases hcase with ⟨hz, hlog⟩ | ⟨hnz, v1, v2, hlog, hbit, hlen, -⟩
    · refine ⟨l2, by rw [hl2, hlog], hc2, ?_⟩
      intro i hi t ht htne
      rcases List.mem_cons.mp hi with rfl | hi'
      · rw [ht0] at ht
        cases ht
        exact absurd hz htne
      · exact he2 i hi' t ht htne
    · rw [ha1] at hlog
      generalize SetupFreq_recalc_block fq i0 t0 pf1 = blk at hlog hlen
      refine ⟨[blk, [16 + i0], [16 + i0, v1], [byte (MsDiv_address i0)],
        [byte (MsDiv_address i0), v2]] ++ l2, by rw [hl2, hlog, List.append_assoc], ?_, ?_⟩
      · intro w hw i hi hlen2 hhead
        rcases List.mem_append.mp hw with hw1 | hw2
        · simp only [List.mem_cons, List.mem_singleton, List.not_mem_nil, or_false] at hw1
          rcases hw1 with rfl | rfl | rfl | rfl | rfl
          · rw [hlen] at hlen2; cases hlen2
          · cases hlen2
          · simp only [List.head?_cons, Option.some.injEq] at hhead
            have : i = i0 := by omega
            subst this
            exact ⟨t0, ht0, hnz, hbit⟩
          · cases hlen2
          · simp only [List.head?_cons, Option.some.injEq] at hhead
            omega
        · exact hc2 w hw2 i hi hlen2 hhead
      · intro i hi t ht htne
        rcases List.mem_cons.mp hi with rfl | hi'
        · exact ⟨v1, by simp⟩
        · obtain ⟨v, hv⟩ := he2 i hi' t ht htne
          exact ⟨v, List.mem_append_right _ hv⟩

theorem control_bit (pll num : Int) :
    SetupMultiSynth_control pll num &&& 64 = (if num = 0 then 64 else 0) := by
  unfold SetupMultiSynth_control
  simp only
  split_ifs <;> decide

/-- C20 (as amended). On the single-channel path (`f ≤ 100,000,000`, channels 0..2) the
control byte written last has the integer-mode bit set, and the triple encoded has
`p2 = 0`; the control byte of `SetupMultiSynth` has that bit set exactly when `num = 0`. On
the shared-PLL path (`f > 100,000,000`) every channel with a non-zero stored frequency gets
a control-register write, and the integer-mode bit of each such write is set exactly when
that channel's stored frequency is at least 150,000,000. -/
theorem integer_mode_flag (fq : F64Quot) (d d' : Dev) (clk : Nat) (f : Int) (hclk : clk ≤ 5)
    (h : SetupFreq fq d clk f = some d') :
    (∀ pll num : Int, SetupMultiSynth_control pll num &&& 64 = (if num = 0 then 64 else 0)) ∧
    (f ≤ 100000000 → clk ≤ 2 →
      ∃ p1 p2 p3 pf, CalcMultiSynth (SetupFreq_freq f) 0 = some (p1, p2, p3, pf) ∧ p2 = 0 ∧
        (newLog d d').getLast? = some [16 + clk, SetupMultiSynth_control 0 p2] ∧
        SetupMultiSynth_control 0 p2 &&& 64 = 64) ∧
    (100000000 < f →
      (∀ i, i < 6 → d'.clkFreq.getD i 0 ≠ 0 → ∃ v, [16 + i, v] ∈ newLog d d') ∧
      (∀ w ∈ newLog d d', ∀ i, i < 6 → w.length = 2 → w.head? = some (16 + i) →
        d'.clkFreq.getD i 0 ≠ 0 ∧
        w.getD 1 0 &&& 64 = (if d'.clkFreq.getD i 0 ≥ 150000000 then 64 else 0))) := by
  refine ⟨control_bit, ?_, ?_⟩
  · intro hf h2
    obtain ⟨p1, p2, p3, pf, q1, q2, q3, loe, hcalc, -, -, -, -, -, -, -, -, -, hlog⟩ :=
      SetupFreq_single_log hclk (SetupFreq_freq_le f hf) h
    obtain ⟨hp2, -⟩ := CalcMultiSynth_zero_shape hcalc
    refine ⟨p1, p2, p3, pf, hcalc, hp2, ?_, ?_⟩
    · rw [if_pos h2] at hlog
      have hnl := newLog_append d d'
        ((loe ++ [SetupPLLFreq_buff pllAParameters q1 q2 q3] ++
          [SetupMultiSynth_buff (SetupMultiSynth_baseaddr clk) (SetupMultiSynth_regs fq p1 p2 p3).1
            (SetupMultiSynth_regs fq p1 p2 p3).2.1 (SetupMultiSynth_regs fq p1 p2 p3).2.2]) ++
          [[16 + clk, SetupMultiSynth_control 0 p2]])
        (by rw [hlog]; simp only [List.append_assoc, List.singleton_append, List.cons_append,
          List.nil_append])
      rw [hnl]
      exact List.getLast?_concat _
    · rw [control_bit, if_pos hp2]
  · intro hf
    obtain ⟨-, hfgt⟩ := SetupFreq_freq_gt f hf
    obtain ⟨d1, p1, p2, p3, pf, d2, d3, pf3, h1, hlen, hcalc, hpll, hloop, rfl⟩ :=
      SetupFreq_shared hclk hfgt h
    obtain ⟨r1, r2, r3, rf, hr, hlo, hhi⟩ := CalcMultiSynth_zero_range (SetupFreq_freq f)
    rw [hr] at hcalc
    simp only [Option.some.injEq, Prod.mk.injEq] at hcalc
    obtain ⟨e1, e2, e3, e4⟩ := hcalc
    subst e1 e2 e3 e4
    obtain ⟨q1, q2, q3, hlog2, hcf2, -⟩ := SetupPLLFreq_log hpll
    obtain ⟨-, m3, -⟩ := foldlM_recalc_log (List.range 6) (show rf ≠ 0 by omega)
      (fun i hi => List.mem_range.mp hi) hloop
    obtain ⟨l, hl3, hctl, hex⟩ := foldlM_recalc_control (List.range 6) (show rf ≠ 0 by omega)
      (fun i hi => List.mem_range.mp hi) hloop
    have hcf3 : d3.clkFreq = d2.clkFreq := m3.2.2.2.2.2.1
    obtain ⟨hlogR, -⟩ := PLLReset_log d3
    have hcfR : (PLLReset d3 0).clkFreq = d2.clkFreq := by
      rw [(PLLReset_sameMem d3 0).2.2.2.2.2.1, hcf3]
    have hoe : ∃ loe, wlog d1 = wlog d ++ loe ∧
        ∀ w ∈ loe, w.length = 2 → w.head? = some 3 := by
      rcases SetupFreq_firstSet_log h1 with ⟨-, rfl⟩ | ⟨-, hlog1, -⟩
      · exact ⟨[], by simp, by simp⟩
      · refine ⟨_, hlog1, ?_⟩
        intro w hw _
        simp only [List.mem_cons, List.mem_singleton, List.not_mem_nil, or_false] at hw
        rcases hw with rfl | rfl <;> rfl
    obtain ⟨loe, hlog1, hloe⟩ := hoe
    have hnl := newLog_append d (PLLReset d3 0)
      (loe ++ [SetupPLLFreq_buff pllAParameters q1 q2 q3] ++ l ++ [[177, 32]])
      (by
        rw [hlogR, hl3, hlog2]
        show wlog d1 ++ _ ++ l ++ _ = _
        rw [hlog1]
        simp only [List.append_assoc])
    rw [hnl, hcfR]
    constructor
    · intro i hi hne
      rw [List.getD_eq_getElem?_getD] at hne
      cases ht : d2.clkFreq[i]? with
      | none =>
        rw [ht] at hne
        exact absurd rfl hne
      | some t =>
        rw [ht] at hne
        obtain ⟨v, hv⟩ := hex i (List.mem_range.mpr hi) t ht hne
        exact ⟨v, List.mem_append_left _ (List.mem_append_right _ hv)⟩
    · intro w hw i hi hlen2 hhead
      simp only [List.mem_append, List.mem_singleton] at hw
      rcases hw with ((hw | rfl) | hw) | rfl
      · have := hloe w hw hlen2
        rw [this] at hhead
        simp only [Option.some.injEq] at hhead
        omega
      · cases hlen2
      · obtain ⟨t, ht, htne, hbit⟩ := hctl w hw i hi hlen2 hhead
        have hget : d2.clkFreq.getD i 0 = t := by
          rw [List.getD_eq_getElem?_getD, ht]; rfl
        rw [hget]
        exact ⟨htne, hbit⟩
      · simp only [List.head?_cons, Option.some.injEq] at hhead
        omega


/-- The call `SetupFreq(0, 120000000)` on `bootDev` returns. -/
theorem runFreq_120_spec :
    SetupFreq exactQuot bootDev 0 120000000 = some (runFreq bootDev 0 120000000) := by
  have h : (SetupFreq exactQuot bootDev 0 120000000).isSome = true := by decide
  obtain ⟨d', hd'⟩ := Option.isSome_iff_exists.mp h
  simp only [runFreq, hd', Option.getD_some]

/-- C20, counterexample: channel 0 at 120 MHz is planned as `(6, 0, 1)` against the PLL
frequency 720 MHz, so `p2 = 0`, yet the control byte written to register 16 is 128, with
the integer-mode bit (64) clear. -/
theorem integer_mode_clear_with_zero_p2 :
    CalcMultiSynth 120000000 0 = some (6, 0, 1, 720000000) ∧
    CalcMultiSynth 120000000 720000000 = some (6, 0, 1, 720000000) ∧
    newLog bootDev (runFreq bootDev 0 120000000) =
      [[3], [3, 254], [26, 66, 64, 0, 12, 102, 246, 26, 128],
       [42, 0, 1, 0, 1, 0, 0, 0, 0], [16], [16, 128], [44], [44, 0], [177, 32]] ∧
    128 &&& 64 = 0 := by
  decide

/-- Instance of C20: channel 0 of `bootDev` set to 120 MHz (shared-PLL path, below
150 MHz): the control write `[16, 128]` has the integer-mode bit clear. -/
theorem integer_mode_flag_witness :
    (runFreq bootDev 0 120000000).clkFreq.getD 0 0 ≠ 0 ∧
    [16, 128].getD 1 0 &&& 64 =
      (if (runFreq bootDev 0 120000000).clkFreq.getD 0 0 ≥ 150000000 then 64 else 0) :=
  ((integer_mode_flag exactQuot bootDev (runFreq bootDev 0 120000000) 0 120000000 (by decide)
    runFreq_120_spec).2.2 (by decide)).2 [16, 128] (by decide) 0 (by decide) rfl rfl

/-! ## Further instances of the conditional theorems -/

/-- Instance of C11: a 10 MHz output on a 900 MHz PLL. -/
theorem CalcMultiSynth_exact_multiple_witness :
    CalcMultiSynth 10000000 (90 * 10000000) = some (90, 0, 1, 90 * 10000000) :=
  (CalcMultiSynth_exact_multiple 10000000 90 (by decide) (by decide) (by decide)
    (by decide)).1

/-- Instance of C12: 8 kHz lies in the second band (`k = 1`), code 6, divider 64. -/
theorem selectRDiv_thresholds_witness :
    selectRDiv 8000 = 7 - ((1 : Nat) : Int) ∧ 2 ^ (7 - 1) = 128 / 2 ^ 1 :=
  selectRDiv_thresholds.1 1 8000 (by decide) (by decide) (by decide)

/-- The call `MsDiv(0, 6, 1)` on `bootDev` returns. -/
theorem MsDiv_boot_spec :
    MsDiv bootDev 0 6 1 = some ((MsDiv bootDev 0 6 1).getD bootDev) := by
  have h : (MsDiv bootDev 0 6 1).isSome = true := by decide
  obtain ⟨d', hd'⟩ := Option.isSome_iff_exists.mp h
  simp only [hd', Option.getD_some]

/-- Instance of C19: channel 0 of `bootDev`, R-divider code 6 with divide-by-4. -/
theorem MsDiv_read_modify_write_witness :
    wlog ((MsDiv bootDev 0 6 1).getD bootDev) = wlog bootDev ++ [[44], [44, 108]] :=
  (MsDiv_read_modify_write bootDev ((MsDiv bootDev 0 6 1).getD bootDev) 0 6 1 (by decide)
    (by decide) (by decide) MsDiv_boot_spec).1

/-! ## Register files under writes -/

theorem writeRegs_cases (ra rb : Nat → Nat) (data : List Nat) :
    ∀ (reg x : Nat), (writeRegs ra reg data x = writeRegs rb reg data x ∧
        reg ≤ x ∧ x < reg + data.length) ∨
      (writeRegs ra reg data x = ra x ∧ writeRegs rb reg data x = rb x) := by
  induction data with
  | nil => intro reg x; exact Or.inr ⟨rfl, rfl⟩
  | cons v vs ih =>
    intro reg x
    simp only [writeRegs, List.length_cons]
    by_cases hx : x = reg
    · left
      rw [if_pos hx, if_pos hx]
      exact ⟨rfl, by omega, by omega⟩
    · rw [if_neg hx, if_neg hx]
      rcases ih (reg + 1) x with ⟨h1, h2, h3⟩ | ⟨h1, h2⟩
      · exact Or.inl ⟨h1, by omega, by omega⟩
      · exact Or.inr ⟨h1, h2⟩

theorem writeRegs_single (r : Nat → Nat) (reg v x : Nat) :
    writeRegs r reg [v] x = if x = reg then v else r x := rfl

theorem regSim_refl (m : Nat → Nat) (r : Nat → Nat) : RegSim m r r := fun _ => rfl

theorem regSim_trans {m ra rb rc : Nat → Nat} (h1 : RegSim m ra rb) (h2 : RegSim m rb rc) :
    RegSim m ra rc := fun x => (h1 x).trans (h2 x)

/-- The same write on both register files keeps them in agreement. -/
theorem regSim_write {m ra rb : Nat → Nat} (h : RegSim m ra rb) (reg : Nat) (data : List Nat) :
    RegSim m (writeRegs ra reg data) (writeRegs rb reg data) := by
  intro x
  rcases writeRegs_cases ra rb data reg x with ⟨h1, -, -⟩ | ⟨h1, h2⟩
  · rw [h1]
  · rw [h1, h2]
    exact h x

/-- A write that touches no selected bit keeps the register file in agreement with itself. -/
theorem regSim_keep_block (m r : Nat → Nat) (reg : Nat) (data : List Nat)
    (h : ∀ x, reg ≤ x → x < reg + data.length → m x = 0) :
    RegSim m r (writeRegs r reg data) := by
  intro x
  rcases writeRegs_cases r r data reg x with ⟨-, h2, h3⟩ | ⟨h1, -⟩
  · rw [h x h2 h3]
    simp
  · rw [h1]

theorem regSim_keep_single (m r : Nat → Nat) (reg v : Nat)
    (h : (v % 256) &&& m reg = (r reg % 256) &&& m reg) :
    RegSim m r (writeRegs r reg [v]) := by
  intro x
  rw [writeRegs_single]
  by_cases hx : x = reg
  · rw [if_pos hx, hx, h]
  · rw [if_neg hx]

/-! ## Register operations on a transport that never fails -/

theorem Tx_noFail {d : Dev} (hn : NoFail d) (reg : Nat) (data : List Nat) (rlen : Nat) :
    (d.Tx (reg :: data) rlen).1.d.regs = writeRegs d.d.regs reg data ∧
    NoFail (d.Tx (reg :: data) rlen).1 ∧
    (d.Tx (reg :: data) rlen).2 =
      some ((List.range rlen).map (fun i => writeRegs d.d.regs reg data (reg + i) % 256)) := by
  obtain ⟨h1, h2⟩ := Conn_Tx_regs_noFail d.d reg data rlen (hn _)
  refine ⟨h1, ?_, h2⟩
  intro n
  show (d.d.Tx (reg :: data) rlen).1.fail n = false
  rw [Conn_Tx_fail]
  exact hn n

theorem Read_noFail {d : Dev} (hn : NoFail d) (reg : Nat) :
    (Read d reg).2.1 = [d.d.regs reg % 256] := by
  have h := (Tx_noFail hn reg [] 1).2.2
  unfold Read
  split
  · rename_i d1 heq
    have h2 : (d.Tx [reg] 1).2 = none := congrArg Prod.snd heq
    rw [h] at h2
    cases h2
  · rename_i d1 b heq
    have h2 : (d.Tx [reg] 1).2 = some b := congrArg Prod.snd heq
    rw [h] at h2
    simp only [Option.some.injEq] at h2
    rw [← h2]
    rfl

/-- On a transport that never fails a read-modify-write always returns, and stores the
modified value. -/
theorem rmw_noFail {d : Dev} (hn : NoFail d) (reg : Nat) (f : Nat → Nat) :
    ∃ d', rmw d reg f = some d' ∧
      d'.d.regs = writeRegs d.d.regs reg [f (d.d.regs reg % 256)] ∧ NoFail d' := by
  have hb := Read_noFail hn reg
  have hn1 : NoFail (Read d reg).1 := by
    intro n
    rw [Read_fail]
    exact hn n
  refine ⟨(WriteCommand (Read d reg).1 reg (f (d.d.regs reg % 256))).1, ?_, ?_, ?_⟩
  · unfold rmw
    simp only [hb, List.getElem?_cons_zero, Option.bind_eq_bind, Option.some_bind,
      Option.pure_def]
  · have := (Tx_noFail hn1 reg [f (d.d.regs reg % 256)] 0).1
    rw [Read_regs] at this
    exact this
  · exact (Tx_noFail hn1 reg [f (d.d.regs reg % 256)] 0).2.1

/-! ## Two runs of one operation -/

theorem sim_refl (m : Nat → Nat) {a : Dev} (hn : NoFail a) : Sim m a a :=
  ⟨rfl, rfl, rfl, rfl, hn, hn, regSim_refl m _⟩

theorem sim_trans {m : Nat → Nat} {a b c : Dev} (h1 : Sim m a b) (h2 : Sim m b c) :
    Sim m a c := by
  obtain ⟨a1, a2, a3, a4, a5, -, a7⟩ := h1
  obtain ⟨b1, b2, b3, b4, -, b6, b7⟩ := h2
  exact ⟨a1.trans b1, a2.trans b2, a3.trans b3, a4.trans b4, a5, b6, regSim_trans a7 b7⟩

theorem step_refl (m : Nat → Nat) {a b : Dev} (h : Sim m a b) : Step m a a b b :=
  ⟨h, sim_refl m h.2.2.2.2.1, [], by simp, by simp, by simp⟩

theorem step_trans {m : Nat → Nat} {a a' a'' b b' b'' : Dev} (h1 : Step m a a' b b')
    (h2 : Step m a' a'' b' b'') : Step m a a'' b b'' := by
  obtain ⟨-, k1, l1, la1, lb1, n1⟩ := h1
  obtain ⟨s2, k2, l2, la2, lb2, n2⟩ := h2
  refine ⟨s2, sim_trans k1 k2, l1 ++ l2, ?_, ?_, ?_⟩
  · rw [la2, la1, List.append_assoc]
  · rw [lb2, lb1, List.append_assoc]
  · intro w hw
    rcases List.mem_append.1 hw with hw | hw
    · exact n1 w hw
    · exact n2 w hw

/-- The same block write on two related devices. -/
theorem step_Tx {m : Nat → Nat} {a b : Dev} (h : Sim m a b) (reg : Nat) (data : List Nat)
    (h3 : reg ≠ 3) (hk : ∀ x, reg ≤ x → x < reg + data.length → m x = 0) :
    Step m a (a.Tx (reg :: data) 0).1 b (b.Tx (reg :: data) 0).1 := by
  obtain ⟨m1, m2, m3, m4, na, nb, hr⟩ := h
  obtain ⟨ra, na', -⟩ := Tx_noFail na reg data 0
  obtain ⟨rb, nb', -⟩ := Tx_noFail nb reg data 0
  refine ⟨⟨m1, m2, m3, m4, na', nb', ?_⟩, ⟨rfl, rfl, rfl, rfl, na, na', ?_⟩,
    [reg :: data], wlog_Tx a _ 0, wlog_Tx b _ 0, ?_⟩
  · rw [ra, rb]
    exact regSim_write hr reg data
  · rw [ra]
    exact regSim_keep_block m _ reg data hk
  · intro w hw
    rw [List.mem_singleton] at hw
    rw [hw]
    simpa using h3

/-- The same single-register write on two related devices. -/
theorem step_WriteCommand {m : Nat → Nat} {a b : Dev} (h : Sim m a b) (reg v : Nat)
    (h3 : reg ≠ 3) (hk : (v % 256) &&& m reg = (a.d.regs reg % 256) &&& m reg) :
    Step m a (WriteCommand a reg v).1 b (WriteCommand b reg v).1 := by
  obtain ⟨m1, m2, m3, m4, na, nb, hr⟩ := h
  obtain ⟨ra, na', -⟩ := Tx_noFail na reg [v] 0
  obtain ⟨rb, nb', -⟩ := Tx_noFail nb reg [v] 0
  refine ⟨⟨m1, m2, m3, m4, na', nb', ?_⟩, ⟨rfl, rfl, rfl, rfl, na, na', ?_⟩,
    [[reg, v]], wlog_WriteCommand a _ _, wlog_WriteCommand b _ _, ?_⟩
  · show RegSim m (a.Tx [reg, v] 0).1.d.regs (b.Tx [reg, v] 0).1.d.regs
    rw [ra, rb]
    exact regSim_write hr reg [v]
  · show RegSim m _ (a.Tx [reg, v] 0).1.d.regs
    rw [ra]
    exact regSim_keep_single m _ reg v hk
  · intro w hw
    rw [List.mem_singleton] at hw
    rw [hw]
    simpa using h3

/-- The same read-modify-write on two related devices whose modified values coincide. -/
theorem step_rmw {m : Nat → Nat} {a b : Dev} (h : Sim m a b) (reg : Nat) (f : Nat → Nat)
    (h3 : reg ≠ 3) (hv : f (a.d.regs reg % 256) = f (b.d.regs reg % 256))
    (hk : (f (a.d.regs reg % 256) % 256) &&& m reg = (a.d.regs reg % 256) &&& m reg) :
    ∃ a' b', rmw a reg f = some a' ∧ rmw b reg f = some b' ∧ Step m a a' b b' ∧
      a'.d.regs = writeRegs a.d.regs reg [f (a.d.regs reg % 256)] ∧
      b'.d.regs = writeRegs b.d.regs reg [f (a.d.regs reg % 256)] := by
  obtain ⟨m1, m2, m3, m4, na, nb, hr⟩ := h
  obtain ⟨a', ha, ra, na'⟩ := rmw_noFail na reg f
  obtain ⟨b', hb, rb, nb'⟩ := rmw_noFail nb reg f
  obtain ⟨la, sa, -⟩ := rmw_some ha
  obtain ⟨lb, sb, -⟩ := rmw_some hb
  rw [← hv] at rb lb
  obtain ⟨x1, -, x3, -, -, x6, x7⟩ := sa
  obtain ⟨y1, -, y3, -, -, y6, y7⟩ := sb
  refine ⟨a', b', ha, hb, ⟨⟨?_, ?_, ?_, ?_, na', nb', ?_⟩,
    ⟨x1.symm, x3.symm, x6.symm, x7.symm, na, na', ?_⟩, _, la, lb, ?_⟩, ra, rb⟩
  · rw [x1, y1, m1]
  · rw [x3, y3, m2]
  · rw [x6, y6, m3]
  · rw [x7, y7, m4]
  · rw [ra, rb]
    exact regSim_write hr reg _
  · rw [ra]
    exact regSim_keep_single m _ reg _ hk
  · intro w hw
    simp only [List.mem_cons, List.mem_singleton, List.not_mem_nil, or_false] at hw
    rcases hw with hw | hw <;> rw [hw] <;> simpa using h3

theorem writeRegs_inside (ra rb : Nat → Nat) (data : List Nat) :
    ∀ (reg x : Nat), reg ≤ x → x < reg + data.length →
      writeRegs ra reg data x = writeRegs rb reg data x := by
  induction data with
  | nil =>
    intro reg x h1 h2
    simp only [List.length_nil] at h2
    omega
  | cons v vs ih =>
    intro reg x h1 h2
    simp only [writeRegs, List.length_cons] at h2 ⊢
    by_cases hx : x = reg
    · rw [if_pos hx, if_pos hx]
    · rw [if_neg hx, if_neg hx]
      exact ih (reg + 1) x (by omega) (by omega)

theorem PLLCalc_congr {a b : Dev} (h1 : a.crystalFreq = b.crystalFreq)
    (h2 : a.refCorrection = b.refCorrection) (n f : Int) : PLLCalc a n f = PLLCalc b n f := by
  unfold PLLCalc
  rw [h1, h2]

/-- Two related devices plan and write the same PLL block. -/
theorem step_SetupPLLFreq {m : Nat → Nat} {a a' b : Dev} {f : Int}
    (hm : ∀ x, 26 ≤ x → x < 34 → m x = 0) (h : Sim m a b)
    (ha : SetupPLLFreq a 0 f = some a') :
    ∃ b', SetupPLLFreq b 0 f = some b' ∧ Step m a a' b b' := by
  obtain ⟨p1, p2, p3, q1, q2, q3, hp, hq, rfl⟩ := SetupPLLFreq_some ha
  rw [PLLCalc_congr h.1 h.2.1] at hp
  refine ⟨{ (b.Tx (SetupPLLFreq_buff pllAParameters q1 q2 q3) 0).1 with pllAFreq := f }, ?_, ?_⟩
  · unfold SetupPLLFreq
    simp only [if_true, hp, hq, Option.bind_eq_bind, Option.some_bind, Option.pure_def]
  · exact step_Tx h pllAParameters (SetupPLLFreq_buff pllAParameters q1 q2 q3).tail
      (by decide) (fun x h1 h2 => hm x h1 h2)

/-- Two related devices pulse the PLL reset alike. -/
theorem step_PLLReset {m : Nat → Nat} {a b : Dev} (hm : m 177 = 0) (h : Sim m a b) :
    Step m a (PLLReset a 0) b (PLLReset b 0) := by
  have ea : PLLReset a 0 = (WriteCommand a pllReset pllResetA).1 := by
    unfold PLLReset
    rw [if_pos (by rfl)]
  have eb : PLLReset b 0 = (WriteCommand b pllReset pllResetA).1 := by
    unfold PLLReset
    rw [if_pos (by rfl)]
  rw [ea, eb]
  refine step_WriteCommand h pllReset pllResetA (by decide) ?_
  show _ &&& m 177 = _ &&& m 177
  rw [hm]
  simp

theorem SetupMultiSynth_baseaddr_ne (clk : Int) : SetupMultiSynth_baseaddr clk ≠ 3 := by
  unfold SetupMultiSynth_baseaddr
  split_ifs <;> decide

/-- The single-channel encoder reads nothing: two devices on never-failing transports with
the same planning inputs send the same transactions. -/
theorem step_SetupMultiSynth (fq : F64Quot) {a b : Dev} (h : Sim noMask a b)
    (clk pll p1 p2 p3 : Int) :
    Step noMask a (SetupMultiSynth fq a clk pll p1 p2 p3) b
      (SetupMultiSynth fq b clk pll p1 p2 p3) := by
  have s0 := step_Tx h (SetupMultiSynth_baseaddr clk)
    (SetupMultiSynth_buff (SetupMultiSynth_baseaddr clk) (SetupMultiSynth_regs fq p1 p2 p3).1
      (SetupMultiSynth_regs fq p1 p2 p3).2.1 (SetupMultiSynth_regs fq p1 p2 p3).2.2).tail
    (SetupMultiSynth_baseaddr_ne clk) (fun _ _ _ => rfl)
  unfold SetupMultiSynth
  simp only
  split_ifs
  · exact step_trans s0 (step_WriteCommand s0.1 _ _ (by decide) (by simp [noMask]))
  · exact step_trans s0 (step_WriteCommand s0.1 _ _ (by decide) (by simp [noMask]))
  · exact step_trans s0 (step_WriteCommand s0.1 _ _ (by decide) (by simp [noMask]))
  · exact s0

/-! ## The shared-PLL encoder on two related register files -/

set_option maxRecDepth 100000 in
theorem intMode_factor : ∀ u < 256,
    u ||| clkIntegerMode = (u &&& 0xBF) ||| 64 ∧
    u &&& (255 ^^^ clkIntegerMode) = u &&& 0xBF ∧
    ((u ||| clkIntegerMode) % 256) &&& 0xBF = u &&& 0xBF ∧
    ((u &&& (255 ^^^ clkIntegerMode)) % 256) &&& 0xBF = u &&& 0xBF := by
  decide

set_option maxRecDepth 1000000 in
theorem MsDiv_bits_keep : ∀ v < 256, ∀ r < 8,
    (((v &&& 0x83) ||| (r <<< 4) ||| 0) % 256) &&& 0x83 = v &&& 0x83 ∧
    (((v &&& 0x83) ||| (r <<< 4) ||| 0x0C) % 256) &&& 0x83 = v &&& 0x83 := by
  decide

/-- The registers used for channel `i`: the block lies outside the selected bits and the
output-enable register, the control register is `16 + i`, and the R-divider register is
either the third register of the block just written or one of 68 and 76. -/
theorem channel_registers (i : Nat) (hi : i < 6) :
    byte (wrap32 (16 + (i : Int))) = 16 + i ∧ keyMask (16 + i) = 0xBF ∧
    (∀ x, SetupMultiSynth_baseaddr i ≤ x → x < SetupMultiSynth_baseaddr i + 8 →
      keyMask x = 0) ∧
    byte (MsDiv_address i) ≠ 3 ∧ byte (MsDiv_address i) ≠ 16 + i ∧
    ((byte (MsDiv_address i) = SetupMultiSynth_baseaddr i + 2 ∧
        keyMask (byte (MsDiv_address i)) = 0) ∨
      keyMask (byte (MsDiv_address i)) = 0x83) := by
  have key : ∀ b : Nat, (b = 42 ∨ b = 50 ∨ b = 58 ∨ b = 0) →
      ∀ x, b ≤ x → x < b + 8 → keyMask x = 0 := by
    intro b hb x h1 h2
    unfold keyMask
    rw [if_neg (by omega), if_neg (by omega)]
  interval_cases i
  · exact ⟨by decide, by decide, key _ (Or.inl rfl), by decide, by decide,
      Or.inl ⟨by decide, by decide⟩⟩
  · exact ⟨by decide, by decide, key _ (Or.inr (Or.inl rfl)), by decide, by decide,
      Or.inl ⟨by decide, by decide⟩⟩
  · exact ⟨by decide, by decide, key _ (Or.inr (Or.inr (Or.inl rfl))), by decide, by decide,
      Or.inl ⟨by decide, by decide⟩⟩
  · exact ⟨by decide, by decide, key _ (Or.inr (Or.inr (Or.inr rfl))), by decide, by decide,
      Or.inr (by decide)⟩
  · exact ⟨by decide, by decide, key _ (Or.inr (Or.inr (Or.inr rfl))), by decide, by decide,
      Or.inr (by decide)⟩
  · exact ⟨by decide, by decide, key _ (Or.inr (Or.inr (Or.inr rfl))), by decide, by decide,
      Or.inr (by decide)⟩

/-- Two related devices encode channel `i` alike: the block, then the two
read-modify-writes, whose written values depend only on the selected bits. -/
theorem step_SetupMultiSynthNew (fq : F64Quot) {a b : Dev} (h : Sim keyMask a b) (i : Nat)
    (hi : i < 6) (pll p1 p2 p3 : Int) (im : Bool) (rDiv b4 : Int) (hr0 : 0 ≤ rDiv)
    (hr1 : rDiv ≤ 7) :
    ∃ a' b', SetupMultiSynthNew fq a i pll p1 p2 p3 im rDiv b4 = some a' ∧
      SetupMultiSynthNew fq b i pll p1 p2 p3 im rDiv b4 = some b' ∧
      Step keyMask a a' b b' := by
  obtain ⟨r, rfl⟩ := Int.eq_ofNat_of_zero_le hr0
  have hr : r < 8 := by omega
  obtain ⟨hc, hkc, hblk, hA3, hAc, hA⟩ := channel_registers i hi
  -- the block
  have s0 := step_Tx h (SetupMultiSynth_baseaddr i)
    (SetupMultiSynthNew_buff (SetupMultiSynth_baseaddr i) (SetupMultiSynth_regs fq p1 p2 p3).1
      (SetupMultiSynth_regs fq p1 p2 p3).2.1 (SetupMultiSynth_regs fq p1 p2 p3).2.2).tail
    (SetupMultiSynth_baseaddr_ne i) hblk
  obtain ⟨ra0, -, -⟩ := Tx_noFail h.2.2.2.2.1 (SetupMultiSynth_baseaddr i)
    (SetupMultiSynthNew_buff (SetupMultiSynth_baseaddr i) (SetupMultiSynth_regs fq p1 p2 p3).1
      (SetupMultiSynth_regs fq p1 p2 p3).2.1 (SetupMultiSynth_regs fq p1 p2 p3).2.2).tail 0
  obtain ⟨rb0, -, -⟩ := Tx_noFail h.2.2.2.2.2.1 (SetupMultiSynth_baseaddr i)
    (SetupMultiSynthNew_buff (SetupMultiSynth_baseaddr i) (SetupMultiSynth_regs fq p1 p2 p3).1
      (SetupMultiSynth_regs fq p1 p2 p3).2.1 (SetupMultiSynth_regs fq p1 p2 p3).2.2).tail 0
  generalize ha0 : (a.Tx (SetupMultiSynth_baseaddr i ::
    (SetupMultiSynthNew_buff (SetupMultiSynth_baseaddr i) (SetupMultiSynth_regs fq p1 p2 p3).1
      (SetupMultiSynth_regs fq p1 p2 p3).2.1
      (SetupMultiSynth_regs fq p1 p2 p3).2.2).tail) 0).1 = a0 at s0 ra0
  generalize hb0 : (b.Tx (SetupMultiSynth_baseaddr i ::
    (SetupMultiSynthNew_buff (SetupMultiSynth_baseaddr i) (SetupMultiSynth_regs fq p1 p2 p3).1
      (SetupMultiSynth_regs fq p1 p2 p3).2.1
      (SetupMultiSynth_regs fq p1 p2 p3).2.2).tail) 0).1 = b0 at s0 rb0
  -- the integer-mode bit
  have hu : a0.d.regs (16 + i) % 256 < 256 := Nat.mod_lt _ (by decide)
  have hv : b0.d.regs (16 + i) % 256 < 256 := Nat.mod_lt _ (by decide)
  have hsim0 := s0.1.2.2.2.2.2.2 (16 + i)
  rw [hkc] at hsim0
  obtain ⟨a1, b1, hia, hib, s1, ra1, rb1⟩ := step_rmw s0.1 (16 + i)
    (fun regValue => if im then regValue ||| clkIntegerMode
      else regValue &&& (255 ^^^ clkIntegerMode)) (by omega)
    (by
      cases im
      · simp only [Bool.false_eq_true, if_false]
        rw [(intMode_factor _ hu).2.1, (intMode_factor _ hv).2.1, hsim0]
      · simp only [if_true]
        rw [(intMode_factor _ hu).1, (intMode_factor _ hv).1, hsim0])
    (by
      rw [hkc]
      cases im
      · simp only [Bool.false_eq_true, if_false]
        exact (intMode_factor _ hu).2.2.2
      · simp only [if_true]
        exact (intMode_factor _ hu).2.2.1)
  -- the R-divider field
  have hu1 : a1.d.regs (byte (MsDiv_address i)) % 256 < 256 := Nat.mod_lt _ (by decide)
  have hv1 : b1.d.regs (byte (MsDiv_address i)) % 256 < 256 := Nat.mod_lt _ (by decide)
  have hi5 : (i : Int) ≤ 5 := by omega
  have hval : MsDiv_value i r b4 (a1.d.regs (byte (MsDiv_address i)) % 256) =
      MsDiv_value i r b4 (b1.d.regs (byte (MsDiv_address i)) % 256) := by
    rcases hA with ⟨hAb, -⟩ | hA83
    · have e : a1.d.regs (byte (MsDiv_address i)) = b1.d.regs (byte (MsDiv_address i)) := by
        rw [ra1, rb1, writeRegs_single, writeRegs_single, if_neg hAc, if_neg hAc, ra0, rb0]
        exact writeRegs_inside _ _ _ _ _ (by omega) (by rw [hAb]; simp [SetupMultiSynthNew_buff])
      rw [e]
    · have hs := s1.1.2.2.2.2.2.2 (byte (MsDiv_address i))
      rw [hA83] at hs
      rw [MsDiv_value_eq i b4 r _ hi5 hr hu1, MsDiv_value_eq i b4 r _ hi5 hr hv1, hs]
  obtain ⟨a2, b2, hma, hmb, s2, -, -⟩ := step_rmw s1.1 (byte (MsDiv_address i))
    (MsDiv_value i r b4) hA3 hval
    (by
      rcases hA with ⟨-, hk0⟩ | hA83
      · rw [hk0]
        simp
      · rw [hA83, MsDiv_value_eq i b4 r _ hi5 hr hu1]
        by_cases h4 : b4 = 0
        · simp only [h4, ne_eq, not_true_eq_false, if_false]
          exact (MsDiv_bits_keep _ hu1 r hr).1
        · simp only [h4, ne_eq, not_false_eq_true, if_true]
          exact (MsDiv_bits_keep _ hu1 r hr).2)
  refine ⟨a2, b2, ?_, ?_, step_trans (step_trans s0 s1) s2⟩
  · unfold SetupMultiSynthNew
    simp only [Option.bind_eq_bind]
    rw [SetupIntMode_eq_rmw, hc]
    have e : (a.Tx (SetupMultiSynthNew_buff (SetupMultiSynth_baseaddr i)
        (SetupMultiSynth_regs fq p1 p2 p3).1 (SetupMultiSynth_regs fq p1 p2 p3).2.1
        (SetupMultiSynth_regs fq p1 p2 p3).2.2) 0).1 = a0 := ha0
    rw [e, hia, Option.some_bind, MsDiv_eq_rmw, hma]
  · unfold SetupMultiSynthNew
    simp only [Option.bind_eq_bind]
    rw [SetupIntMode_eq_rmw, hc]
    have e : (b.Tx (SetupMultiSynthNew_buff (SetupMultiSynth_baseaddr i)
        (SetupMultiSynth_regs fq p1 p2 p3).1 (SetupMultiSynth_regs fq p1 p2 p3).2.1
        (SetupMultiSynth_regs fq p1 p2 p3).2.2) 0).1 = b0 := hb0
    rw [e, hib, Option.some_bind, MsDiv_eq_rmw, hmb]

theorem selectRDiv_code (f : Int) : 0 ≤ wrap32 (selectRDiv f) ∧ wrap32 (selectRDiv f) ≤ 7 := by
  unfold selectRDiv
  split_ifs <;> decide

/-- Two related devices run one iteration of the recalculation loop alike. -/
theorem step_recalc (fq : F64Quot) {a a' b : Dev} {pf pf' : Int} (h : Sim keyMask a b)
    (i : Nat) (hi : i < 6) (ha : SetupFreq_recalc fq (a, pf) i = some (a', pf')) :
    ∃ b', SetupFreq_recalc fq (b, pf) i = some (b', pf') ∧ Step keyMask a a' b b' := by
  unfold SetupFreq_recalc at ha ⊢
  simp only [Option.bind_eq_bind, Option.bind_eq_some, Option.pure_def] at ha
  obtain ⟨t, ht, ha⟩ := ha
  rw [h.2.2.1] at ht
  simp only [ht, Option.bind_eq_bind, Option.some_bind, Option.pure_def]
  split_ifs at ha ⊢ with h0
  · simp only [Option.bind_eq_some, Option.some.injEq, Prod.mk.injEq] at ha
    obtain ⟨⟨p1, p2, p3, pf2⟩, hcalc, a1, hnew, rfl, rfl⟩ := ha
    obtain ⟨a2, b2, hna, hnb, s⟩ := step_SetupMultiSynthNew fq h i hi 0 p1 p2 p3
      (SetupFreq_flags t).2 (wrap32 (selectRDiv t)) (wrap32 (SetupFreq_flags t).1)
      (selectRDiv_code t).1 (selectRDiv_code t).2
    rw [hnew] at hna
    cases hna
    refine ⟨b2, ?_, s⟩
    simp only [hcalc, Option.some_bind, hnb]
  · simp only [Option.some.injEq, Prod.mk.injEq] at ha
    obtain ⟨rfl, rfl⟩ := ha
    exact ⟨b, rfl, step_refl keyMask h⟩

/-- Two related devices run the recalculation loop alike. -/
theorem step_fold (fq : F64Quot) (is : List Nat) :
    ∀ {a a' b : Dev} {pf pf' : Int}, Sim keyMask a b → (∀ i ∈ is, i < 6) →
      is.foldlM (SetupFreq_recalc fq) (a, pf) = some (a', pf') →
      ∃ b', is.foldlM (SetupFreq_recalc fq) (b, pf) = some (b', pf') ∧
        Step keyMask a a' b b' := by
  induction is with
  | nil =>
    intro a a' b pf pf' h _ ha
    simp only [List.foldlM_nil, Option.pure_def, Option.some.injEq, Prod.mk.injEq] at ha
    obtain ⟨rfl, rfl⟩ := ha
    exact ⟨b, rfl, step_refl keyMask h⟩
  | cons i is ih =>
    intro a a' b pf pf' h his ha
    simp only [List.foldlM_cons, Option.bind_eq_bind, Option.bind_eq_some] at ha
    obtain ⟨⟨a1, pf1⟩, h1, h2⟩ := ha
    obtain ⟨b1, hb1, s1⟩ := step_recalc fq h i (his i (List.mem_cons_self _ _)) h1
    obtain ⟨b', hb', s2⟩ := ih s1.1 (fun j hj => his j (List.mem_cons_of_mem _ hj)) h2
    refine ⟨b', ?_, step_trans s1 s2⟩
    simp only [List.foldlM_cons, Option.bind_eq_bind, hb1, Option.some_bind, hb']

/-! ## Calling `SetupFreq` twice -/

/-- The scan over the six stored frequencies faults exactly when the table is too short. -/
theorem scan_some (l : List Int) :
    (∃ x, (List.range 6).mapM (fun i => l[i]?) = some x) ↔ 6 ≤ l.length := by
  have e : List.range 6 = [0, 1, 2, 3, 4, 5] := by decide
  rw [e]
  constructor
  · rintro ⟨x, hx⟩
    simp only [List.mapM_cons, List.mapM_nil, Option.pure_def, Option.bind_eq_bind,
      Option.bind_eq_some] at hx
    obtain ⟨_, -, _, ⟨_, -, _, ⟨_, -, _, ⟨_, -, _, ⟨_, -, _, ⟨a5, h5, -⟩, -⟩, -⟩, -⟩, -⟩, -⟩ := hx
    obtain ⟨h, -⟩ := List.getElem?_eq_some.1 h5
    omega
  · intro h
    simp only [List.mapM_cons, List.mapM_nil, Option.pure_def, Option.bind_eq_bind,
      List.getElem?_eq_getElem (show 0 < l.length by omega),
      List.getElem?_eq_getElem (show 1 < l.length by omega),
      List.getElem?_eq_getElem (show 2 < l.length by omega),
      List.getElem?_eq_getElem (show 3 < l.length by omega),
      List.getElem?_eq_getElem (show 4 < l.length by omega),
      List.getElem?_eq_getElem (show 5 < l.length by omega), Option.some_bind]
    exact ⟨_, rfl⟩

theorem SetupFreq_shared_scan {fq : F64Quot} {d d' : Dev} {clk : Nat} {f : Int}
    (hclk : clk ≤ 5) (hf : 100000000 < SetupFreq_freq f)
    (h : SetupFreq fq d clk f = some d') : 6 ≤ d.clkFreq.length := by
  unfold SetupFreq at h
  rw [if_pos hclk] at h
  simp only [] at h
  rw [if_pos (by simp only [multiSynthShareMax, freqMult, mul_one]; omega)] at h
  simp only [Option.bind_eq_bind, Option.bind_eq_some] at h
  obtain ⟨x, hx, -⟩ := h
  exact (scan_some _).1 ⟨x, hx⟩

/-- The shared-PLL path of `SetupFreq`, assembled from its steps. -/
theorem SetupFreq_shared_intro {fq : F64Quot} {d d1 d2 d3 : Dev} {clk : Nat}
    {f p1 p2 p3 pf pf3 : Int} (hclk : clk ≤ 5) (hf : 100000000 < SetupFreq_freq f)
    (hlen6 : 6 ≤ d.clkFreq.length) (h1 : SetupFreq_firstSet d clk = some d1)
    (hlen : clk < d1.clkFreq.length)
    (hcalc : CalcMultiSynth (SetupFreq_freq f) 0 = some (p1, p2, p3, pf))
    (hpll : SetupPLLFreq { d1 with clkFreq := d1.clkFreq.set clk (SetupFreq_freq f) } 0
      (wrap32 pf) = some d2)
    (hloop : (List.range 6).foldlM (SetupFreq_recalc fq) (d2, pf) = some (d3, pf3)) :
    SetupFreq fq d clk f = some (PLLReset d3 0) := by
  obtain ⟨x, hx⟩ := (scan_some _).2 hlen6
  unfold SetupFreq
  rw [if_pos hclk]
  simp only []
  rw [if_pos (by simp only [multiSynthShareMax, freqMult, mul_one]; omega)]
  simp only [hx, h1, setIdx, if_pos hlen, hcalc, hpll, hloop, Option.bind_eq_bind,
    Option.some_bind, Option.pure_def]

/-- The single-channel path of `SetupFreq`, assembled from its steps. -/
theorem SetupFreq_single_intro {fq : F64Quot} {d d1 d2 : Dev} {clk : Nat}
    {f p1 p2 p3 pf : Int} (hclk : clk ≤ 5) (hf : SetupFreq_freq f ≤ 100000000)
    (hlen : clk < d.clkFreq.length)
    (h1 : SetupFreq_firstSet { d with clkFreq := d.clkFreq.set clk (SetupFreq_freq f) } clk =
      some d1)
    (hcalc : CalcMultiSynth (SetupFreq_freq f) 0 = some (p1, p2, p3, pf))
    (hpll : SetupPLLFreq d1 0 (wrap32 pf) = some d2) :
    SetupFreq fq d clk f = some (SetupMultiSynth fq d2 clk 0 p1 p2 p3) := by
  unfold SetupFreq
  rw [if_pos hclk]
  simp only []
  rw [if_neg (by simp only [multiSynthShareMax, freqMult, mul_one]; omega)]
  simp only [h1, setIdx, if_pos hlen, hcalc, hpll, Option.bind_eq_bind, Option.some_bind,
    Option.pure_def]

theorem SetupFreq_firstSet_of_set {d : Dev} {clk : Nat} (h : d.clkFirstSet[clk]? = some true) :
    SetupFreq_firstSet d clk = some d := by
  unfold SetupFreq_firstSet
  simp [h]

/-- The first-set step on a transport that never fails: the flag is set afterwards, and
the only transactions are the output-enable read-modify-write of a first call. -/
theorem SetupFreq_firstSet_noFail {d d1 : Dev} {clk : Nat} (hn : NoFail d)
    (h : SetupFreq_firstSet d clk = some d1) :
    d1.clkFirstSet[clk]? = some true ∧ NoFail d1 ∧ d1.clkFreq = d.clkFreq ∧
    d1.crystalFreq = d.crystalFreq ∧ d1.refCorrection = d.refCorrection ∧
    ∃ loe, wlog d1 = wlog d ++ loe ∧
      writesOf loe = (if d.clkFirstSet[clk]? = some false then
        [[3, (d.d.regs 3 % 256) &&& (255 ^^^ ((1 <<< clk) % 256))]] else []) := by
  rcases SetupFreq_firstSet_log h with ⟨hf, rfl⟩ | ⟨hf, hlog, hset, h2, h3, h4, h5⟩
  · refine ⟨hf, hn, rfl, rfl, rfl, [], by simp, ?_⟩
    rw [hf]
    simp [writesOf]
  · refine ⟨?_, ?_, h2, h3, h4, _, hlog, ?_⟩
    · rw [hset]
      have hlt : clk < d.clkFirstSet.length := by
        obtain ⟨hlt, -⟩ := List.getElem?_eq_some.1 hf
        exact hlt
      simp [List.getElem?_set, hlt]
    · intro n
      rw [h5]
      exact hn n
    · rw [if_pos hf]
      simp [writesOf]

/-- Log bookkeeping for two consecutive calls whose bodies append the same transactions. -/
theorem writes_of_step {m : Nat → Nat} {d A d1 B D2 : Dev} {loe : List (List Nat)}
    (hA : wlog A = wlog d ++ loe) (hB : wlog B = wlog d1) (s : Step m A d1 B D2) :
    writesOf (newLog d d1) = writesOf loe ++ writesOf (newLog d1 D2) ∧
    ∀ w ∈ writesOf (newLog d1 D2), w.head? ≠ some 3 := by
  obtain ⟨-, -, l, la, lb, hl⟩ := s
  have e1 : newLog d d1 = loe ++ l := newLog_append d d1 _ (by rw [la, hA, List.append_assoc])
  have e2 : newLog d1 D2 = l := newLog_append d1 D2 _ (by rw [lb, hB])
  rw [e1, e2]
  refine ⟨by simp [writesOf], ?_⟩
  intro w hw
  exact hl w (List.mem_of_mem_filter hw)

/-- C16. Idempotence on a register file: for every channel `clk` in `0..5` and every
frequency `f`, on a transport that never fails (so a read returns the last value written),
when `SetupFreq(clk, f)` returns, calling it again returns too, and the register writes of
the first call are those of the second call, in the same order and with the same bytes,
preceded by the output-enable write `[3, v]` exactly when the first call found the channel
not yet set; the second call writes nothing to register 3. -/
theorem SetupFreq_twice (fq : F64Quot) (d d1 : Dev) (clk : Nat) (f : Int) (hclk : clk ≤ 5)
    (hn : NoFail d) (h1 : SetupFreq fq d clk f = some d1) :
    ∃ d2, SetupFreq fq d1 clk f = some d2 ∧
      writesOf (newLog d d1) =
        (if d.clkFirstSet[clk]? = some false then
          [[3, (d.d.regs 3 % 256) &&& (255 ^^^ ((1 <<< clk) % 256))]] else []) ++
        writesOf (newLog d1 d2) ∧
      ∀ w ∈ writesOf (newLog d1 d2), w.head? ≠ some 3 := by
  by_cases hf : 100000000 < SetupFreq_freq f
  · -- shared-PLL path
    have hlen6 := SetupFreq_shared_scan hclk hf h1
    obtain ⟨e, p1, p2, p3, pf, d2, d3, pf3, hfs, hlen, hcalc, hpll, hloop, rfl⟩ :=
      SetupFreq_shared hclk hf h1
    obtain ⟨hflag, hne, hcf, -, -, loe, hloe, hw⟩ := SetupFreq_firstSet_noFail hn hfs
    have hm26 : ∀ x, 26 ≤ x → x < 34 → keyMask x = 0 := by
      intro x h1 h2
      unfold keyMask
      rw [if_neg (by omega), if_neg (by omega)]
    have h6 : ∀ i ∈ List.range 6, i < 6 := fun i hi => List.mem_range.1 hi
    -- the body of the first call keeps the selected bits
    have hnA : NoFail { e with clkFreq := e.clkFreq.set clk (SetupFreq_freq f) } := hne
    obtain ⟨x2, hx2, u1⟩ := step_SetupPLLFreq hm26 (sim_refl keyMask hnA) hpll
    rw [hpll] at hx2
    cases hx2
    obtain ⟨x3, hx3, u2⟩ := step_fold fq (List.range 6) u1.1 h6 hloop
    rw [hloop] at hx3
    cases hx3
    have u3 := step_PLLReset (by decide : keyMask 177 = 0) u2.1
    have hsim := (step_trans (step_trans u1 u2) u3).2.1
    have hcf1 : (PLLReset d3 0).clkFreq = e.clkFreq.set clk (SetupFreq_freq f) :=
      hsim.2.2.1.symm
    have hfs1 : (PLLReset d3 0).clkFirstSet = e.clkFirstSet := hsim.2.2.2.1.symm
    -- the second call starts from a related state
    have hB : Sim keyMask { e with clkFreq := e.clkFreq.set clk (SetupFreq_freq f) }
        { PLLReset d3 0 with
          clkFreq := (PLLReset d3 0).clkFreq.set clk (SetupFreq_freq f) } := by
      obtain ⟨s1, s2, -, s4, s5, s6, s7⟩ := hsim
      refine ⟨s1, s2, ?_, s4, s5, s6, s7⟩
      show e.clkFreq.set clk (SetupFreq_freq f) =
        (PLLReset d3 0).clkFreq.set clk (SetupFreq_freq f)
      rw [hcf1, List.set_set]
    obtain ⟨b2, hb2, v1⟩ := step_SetupPLLFreq hm26 hB hpll
    obtain ⟨b3, hb3, v2⟩ := step_fold fq (List.range 6) v1.1 h6 hloop
    have v3 := step_PLLReset (by decide : keyMask 177 = 0) v2.1
    have hA : wlog { e with clkFreq := e.clkFreq.set clk (SetupFreq_freq f) } =
        wlog d ++ loe := hloe
    have hB' : wlog { PLLReset d3 0 with
        clkFreq := (PLLReset d3 0).clkFreq.set clk (SetupFreq_freq f) } =
        wlog (PLLReset d3 0) := rfl
    refine ⟨PLLReset b3 0, SetupFreq_shared_intro hclk hf ?_ (SetupFreq_firstSet_of_set ?_) ?_
      hcalc hb2 hb3, ?_⟩
    · rw [hcf1, List.length_set, hcf]
      exact hlen6
    · rw [hfs1]
      exact hflag
    · rw [hcf1, List.length_set]
      exact hlen
    · rw [← hw]
      exact writes_of_step hA hB' (step_trans (step_trans v1 v2) v3)
  · -- single-channel path
    have hf' : SetupFreq_freq f ≤ 100000000 := by omega
    obtain ⟨e, p1, p2, p3, pf, d2, hlen, hfs, hcalc, hpll, rfl⟩ :=
      SetupFreq_single hclk hf' h1
    have hn0 : NoFail { d with clkFreq := d.clkFreq.set clk (SetupFreq_freq f) } := hn
    obtain ⟨hflag, hne, hcf, -, -, loe, hloe, hw⟩ := SetupFreq_firstSet_noFail hn0 hfs
    have hcf' : e.clkFreq = d.clkFreq.set clk (SetupFreq_freq f) := hcf
    have hw' : writesOf loe = (if d.clkFirstSet[clk]? = some false then
        [[3, (d.d.regs 3 % 256) &&& (255 ^^^ ((1 <<< clk) % 256))]] else []) := hw
    have hloe' : wlog e = wlog d ++ loe := hloe
    have hm26 : ∀ x, 26 ≤ x → x < 34 → noMask x = 0 := fun _ _ _ => rfl
    obtain ⟨x2, hx2, u1⟩ := step_SetupPLLFreq hm26 (sim_refl noMask hne) hpll
    rw [hpll] at hx2
    cases hx2
    have u2 := step_SetupMultiSynth fq u1.1 clk 0 p1 p2 p3
    have hsim := (step_trans u1 u2).2.1
    have hcf1 : (SetupMultiSynth fq d2 clk 0 p1 p2 p3).clkFreq =
        d.clkFreq.set clk (SetupFreq_freq f) := hsim.2.2.1.symm.trans hcf'
    have hfs1 : (SetupMultiSynth fq d2 clk 0 p1 p2 p3).clkFirstSet = e.clkFirstSet :=
      hsim.2.2.2.1.symm
    have hB : Sim noMask e
        { SetupMultiSynth fq d2 clk 0 p1 p2 p3 with
          clkFreq := (SetupMultiSynth fq d2 clk 0 p1 p2 p3).clkFreq.set clk
            (SetupFreq_freq f) } := by
      obtain ⟨s1, s2, -, s4, s5, s6, s7⟩ := hsim
      refine ⟨s1, s2, ?_, s4, s5, s6, s7⟩
      show e.clkFreq = (SetupMultiSynth fq d2 clk 0 p1 p2 p3).clkFreq.set clk (SetupFreq_freq f)
      rw [hcf1, List.set_set, hcf']
    obtain ⟨b2, hb2, v1⟩ := step_SetupPLLFreq hm26 hB hpll
    have v2 := step_SetupMultiSynth fq v1.1 clk 0 p1 p2 p3
    have hB' : wlog { SetupMultiSynth fq d2 clk 0 p1 p2 p3 with
        clkFreq := (SetupMultiSynth fq d2 clk 0 p1 p2 p3).clkFreq.set clk
          (SetupFreq_freq f) } = wlog (SetupMultiSynth fq d2 clk 0 p1 p2 p3) := rfl
    refine ⟨SetupMultiSynth fq b2 clk 0 p1 p2 p3,
      SetupFreq_single_intro hclk hf' ?_ (SetupFreq_firstSet_of_set ?_) hcalc hb2, ?_⟩
    · rw [hcf1, List.length_set]
      exact hlen
    · show (SetupMultiSynth fq d2 clk 0 p1 p2 p3).clkFirstSet[clk]? = some true
      rw [hfs1]
      exact hflag
    · rw [← hw']
      exact writes_of_step hloe' hB' (step_trans v1 v2)

/-- Instance of C16: channel 0 of `bootDev` set to 120 MHz twice (shared-PLL path); the
first call is the channel's first, so its writes are `[3, 254]` followed by those of the
second call. -/
theorem SetupFreq_twice_witness :
    ∃ d2, SetupFreq exactQuot (runFreq bootDev 0 120000000) 0 120000000 = some d2 ∧
      writesOf (newLog bootDev (runFreq bootDev 0 120000000)) =
        (if bootDev.clkFirstSet[0]? = some false then
          [[3, (bootDev.d.regs 3 % 256) &&& (255 ^^^ ((1 <<< 0) % 256))]] else []) ++
        writesOf (newLog (runFreq bootDev 0 120000000) d2) ∧
      ∀ w ∈ writesOf (newLog (runFreq bootDev 0 120000000) d2), w.head? ≠ some 3 :=
  SetupFreq_twice exactQuot bootDev (runFreq bootDev 0 120000000) 0 120000000 (by decide)
    (fun _ => rfl) runFreq_120_spec

/-! ## Failed register reads -/

/-- A read-modify-write whose read fails indexes the empty slice: it panics. -/
theorem rmw_read_fails (d : Dev) (reg : Nat) (f : Nat → Nat)
    (h : d.d.fail d.d.ops.length = true) : rmw d reg f = none := by
  have hb : (Read d reg).2.1 = [] := by
    unfold Read Dev.Tx Conn.Tx
    simp only [h, if_true]
  unfold rmw
  simp only [hb, List.getElem?_nil, Option.bind_eq_bind, Option.none_bind]

/-- C24, evaluation: on a transport that fails its transactions `Read` returns the empty
slice, and `OutputEnable`, `SetupIntMode`, `MsDiv` and `New` index it at 0, which is a
run-time panic (`none`); `UpdateSysStatus`, which tests the error first, returns the error
instead. -/
theorem failed_read_faults :
    (Read (zeroDev deadConn) outputEnableControl).2.1 = [] ∧
    (OutputEnable (zeroDev deadConn) 0 true).isNone = true ∧
    (SetupIntMode (zeroDev deadConn) 0 true).isNone = true ∧
    (MsDiv (zeroDev deadConn) 0 0 0).isNone = true ∧
    (New deadConn 0x60 DefaultOpts).isNone = true ∧
    (UpdateSysStatus (zeroDev deadConn)).map Prod.snd = some true := by
  decide

/-! ## The multisynth `P1` field under divide-by-4 -/

/-- C25, evaluation: for the target 150 MHz `CalcMultiSynth` returns the divide-by-4 triple
`(0, 0, 1)`, from which the encoders compute `P1 = 128 * 0 + 0 - 512 = -512`, outside
`0 .. multisynthP1Max`. -/
theorem divby4_P1_out_of_range :
    CalcMultiSynth 150000000 0 = some (0, 0, 1, 600000000) ∧
    (SetupMultiSynth_regs exactQuot 0 0 1).1 = -512 ∧
    ¬ (0 ≤ (SetupMultiSynth_regs exactQuot 0 0 1).1 ∧
       (SetupMultiSynth_regs exactQuot 0 0 1).1 ≤ multisynthP1Max) := by
  decide

/-! ## The corrected reference frequency -/

theorem div64_some {a b : Int} (hb : b ≠ 0) : div64 a b = some (wrap64 (Int.tdiv a b)) := by
  simp only [div64, hb, if_false]

theorem mod64_some {a b : Int} (hb : b ≠ 0) : mod64 a b = some (Int.tmod a b) := by
  simp only [mod64, hb, if_false]

/-- The truncated quotient by a positive divisor, through the floor quotient. -/
theorem tdiv_cases (a b : Int) (hb : 0 < b) :
    (0 ≤ a → Int.tdiv a b = a / b) ∧ (a ≤ 0 → Int.tdiv a b = -((-a) / b)) := by
  constructor
  · intro ha
    exact Int.tdiv_eq_ediv ha hb.le
  · intro ha
    have h := Int.neg_tdiv (-a) b
    rw [neg_neg] at h
    rw [h, Int.tdiv_eq_ediv (by omega) hb.le]

theorem shr64_eq_div (a : Int) : shr64 a 31 = a / 2147483648 := by
  unfold shr64
  have h := Int.shiftRight_eq_div_pow a 31
  simpa using h

/-- The divider math of `PLLCalc` runs on the corrected reference frequency. -/
theorem PLLCalc_uses_ref (d : Dev) (pllNum freq : Int) :
    PLLCalc d pllNum freq =
      (PLLCalc_ref_freq d).bind (fun ref_freq =>
        (div64 freq ref_freq).bind (fun p1 =>
          let freq1 := if p1 < pllAMin then mul64 ref_freq pllAMin else freq
          let freq2 := if p1 > pllAMax then mul64 ref_freq pllAMax else freq1
          (div64 (mul64 (sub64 freq2 (mul64 p1 ref_freq)) rfracDenom) ref_freq).bind
            (fun p2 => some (p1, p2, if p2 > 0 then rfracDenom else 1)))) := by
  unfold PLLCalc PLLCalc_ref_freq
  rw [div64_some (by decide : (1000000000 : Int) ≠ 0)]
  simp only [Option.bind_eq_bind, Option.some_bind, Option.pure_def]

/-- The corrected reference frequency, for an `int32` correction and a crystal frequency in
`1 .. 10^9`: no `int64` operation wraps. -/
theorem PLLCalc_ref_freq_eq (d : Dev) (hr0 : 0 < d.crystalFreq)
    (hr1 : d.crystalFreq ≤ 1000000000) (hc0 : -2147483648 ≤ d.refCorrection)
    (hc1 : d.refCorrection < 2147483648) :
    PLLCalc_ref_freq d = some (d.crystalFreq +
      (Int.tdiv (d.refCorrection * 2 ^ 31) 1000000000 * d.crystalFreq) / 2 ^ 31) ∧
    -2147483649000000000 ≤ d.crystalFreq +
      (Int.tdiv (d.refCorrection * 2 ^ 31) 1000000000 * d.crystalFreq) / 2 ^ 31 ∧
    d.crystalFreq +
      (Int.tdiv (d.refCorrection * 2 ^ 31) 1000000000 * d.crystalFreq) / 2 ^ 31 ≤
        3147483648 := by
  have hform : PLLCalc_ref_freq d = some (add64 (mul64 d.crystalFreq freqMult)
      (shr64 (mul64 (wrap64 (Int.tdiv (shl64 d.refCorrection 31) 1000000000))
        (mul64 d.crystalFreq freqMult)) 31)) := by
    unfold PLLCalc_ref_freq
    rw [div64_some (by decide : (1000000000 : Int) ≠ 0)]
    rfl
  rw [hform]
  generalize d.crystalFreq = r at hr0 hr1 ⊢
  generalize d.refCorrection = c at hc0 hc1 ⊢
  have e1 : shl64 c 31 = c * 2 ^ 31 := by
    unfold shl64
    exact wrap64_of_range (by omega) (by omega)
  rw [e1]
  obtain ⟨k1, k2⟩ := tdiv_cases (c * 2 ^ 31) 1000000000 (by decide)
  have hK : -4611686019 ≤ Int.tdiv (c * 2 ^ 31) 1000000000 ∧
      Int.tdiv (c * 2 ^ 31) 1000000000 ≤ 4611686018 := by
    by_cases hc : 0 ≤ c
    · rw [k1 (by omega)]
      omega
    · rw [k2 (by omega)]
      omega
  generalize Int.tdiv (c * 2 ^ 31) 1000000000 = K at hK ⊢
  have hp1 : K * r ≤ 4611686018 * r := mul_le_mul_of_nonneg_right hK.2 hr0.le
  have hp2 : -4611686019 * r ≤ K * r := mul_le_mul_of_nonneg_right hK.1 hr0.le
  have e2 : mul64 r freqMult = r := by
    simp only [mul64, freqMult, mul_one]
    exact wrap64_of_range (by omega) (by omega)
  have e3 : wrap64 K = K := wrap64_of_range (by omega) (by omega)
  have e4 : mul64 K r = K * r := by
    unfold mul64
    exact wrap64_of_range (by omega) (by omega)
  have e5 : (2 : Int) ^ 31 = 2147483648 := by norm_num
  refine ⟨?_, ?_, ?_⟩
  · rw [e2, e3, e4, shr64_eq_div, e5, Option.some.injEq]
    unfold add64
    exact wrap64_of_range (by omega) (by omega)
  · rw [e5]
    omega
  · rw [e5]
    omega

/-- C21 (as amended). Reference correction: for every crystal frequency `r` with
`0 < r ≤ 10^9` and every `int32` correction `c`, the reference frequency `PLLCalc` uses is
`r + ⌊(K * r) / 2^31⌋` with the fixed-point factor `K = c * 2^31 / 10^9` truncated toward
zero, and `PLLCalc` on `(r, c)` returns, for every target, what it returns on a device
with that crystal frequency and correction 0. -/
theorem PLLCalc_reference_correction (d : Dev) (r c : Int) (hr0 : 0 < r)
    (hr1 : r ≤ 1000000000) (hc0 : -2147483648 ≤ c) (hc1 : c < 2147483648) :
    PLLCalc_ref_freq { d with crystalFreq := r, refCorrection := c } =
      some (r + (Int.tdiv (c * 2 ^ 31) 1000000000 * r) / 2 ^ 31) ∧
    ∀ pllNum freq : Int,
      PLLCalc { d with crystalFreq := r, refCorrection := c } pllNum freq =
        PLLCalc { d with crystalFreq := r + (Int.tdiv (c * 2 ^ 31) 1000000000 * r) / 2 ^ 31,
                         refCorrection := 0 } pllNum freq := by
  obtain ⟨h1, h2, h3⟩ := PLLCalc_ref_freq_eq { d with crystalFreq := r, refCorrection := c }
    hr0 hr1 hc0 hc1
  refine ⟨h1, ?_⟩
  intro pllNum freq
  have h0 : PLLCalc_ref_freq
      { d with crystalFreq := r + (Int.tdiv (c * 2 ^ 31) 1000000000 * r) / 2 ^ 31,
               refCorrection := 0 } =
      some (r + (Int.tdiv (c * 2 ^ 31) 1000000000 * r) / 2 ^ 31) := by
    have h2' : -2147483649000000000 ≤
        r + (Int.tdiv (c * 2 ^ 31) 1000000000 * r) / 2 ^ 31 := h2
    have h3' : r + (Int.tdiv (c * 2 ^ 31) 1000000000 * r) / 2 ^ 31 ≤ 3147483648 := h3
    generalize r + (Int.tdiv (c * 2 ^ 31) 1000000000 * r) / 2 ^ 31 = R at h2' h3' ⊢
    have e1 : div64 (shl64 0 31) 1000000000 = some 0 := by decide
    have e2 : mul64 R freqMult = R := by
      simp only [mul64, freqMult, mul_one]
      exact wrap64_of_range (by omega) (by omega)
    have e3 : shr64 (mul64 0 R) 31 = 0 := by
      simp only [mul64, zero_mul]
      decide
    unfold PLLCalc_ref_freq
    show (div64 (shl64 0 31) 1000000000).bind _ = _
    rw [e1]
    simp only [Option.some_bind, Option.pure_def, Option.some.injEq]
    show add64 (mul64 R freqMult) (shr64 (mul64 0 (mul64 R freqMult)) 31) = R
    rw [e2, e3]
    simp only [add64, add_zero]
    exact wrap64_of_range (by omega) (by omega)
  rw [PLLCalc_uses_ref, PLLCalc_uses_ref, h1, h0]

/-- C21, counterexample: with the 25 MHz crystal and a correction of 1000 ppb the reference
frequency used is 25,000,024, not `r + (c * r) / 10^9 = 25,000,025`, and for the target
616 MHz the triple differs from the one computed on a 25,000,025 Hz crystal without
correction. -/
theorem reference_correction_is_fixed_point :
    PLLCalc_ref_freq (makeDev (zeroDev idleConn) { DefaultOpts with refCorrection := 1000 }) =
      some 25000024 ∧
    (25000000 + (1000 * 25000000) / 1000000000 : Int) = 25000025 ∧
    PLLCalc (makeDev (zeroDev idleConn) { DefaultOpts with refCorrection := 1000 }) 0
      616000000 = some (24, 639976, 1000000) ∧
    PLLCalc (makeDev (zeroDev idleConn) { DefaultOpts with crystalFreq := 25000025 }) 0
      616000000 = some (24, 639975, 1000000) := by
  decide

/-- Instance of C21: the 25 MHz crystal with a correction of 1000 ppb. -/
theorem PLLCalc_reference_correction_witness :
    PLLCalc_ref_freq { bootDev with crystalFreq := 25000000, refCorrection := 1000 } =
      some (25000000 + (Int.tdiv (1000 * 2 ^ 31) 1000000000 * 25000000) / 2 ^ 31) ∧
    ∀ pllNum freq : Int,
      PLLCalc { bootDev with crystalFreq := 25000000, refCorrection := 1000 } pllNum freq =
        PLLCalc { bootDev with
          crystalFreq := 25000000 + (Int.tdiv (1000 * 2 ^ 31) 1000000000 * 25000000) / 2 ^ 31,
          refCorrection := 0 } pllNum freq :=
  PLLCalc_reference_correction bootDev 25000000 1000 (by decide) (by decide) (by decide)
    (by decide)

/-! ## Zero denominators -/

/-- The corrected reference frequency is always computed: its only division is by `10^9`. -/
theorem PLLCalc_ref_freq_some (d : Dev) : ∃ ref, PLLCalc_ref_freq d = some ref := by
  unfold PLLCalc_ref_freq
  rw [div64_some (by decide : (1000000000 : Int) ≠ 0)]
  exact ⟨_, rfl⟩

/-- With a non-zero reference frequency `PLLCalc` returns, and its `p3` is 1 or `10^6`. -/
theorem PLLCalc_some_of_ref {d : Dev} {ref : Int} (pllNum freq : Int)
    (href : PLLCalc_ref_freq d = some ref) (h0 : ref ≠ 0) :
    ∃ p1 p2 p3, PLLCalc d pllNum freq = some (p1, p2, p3) ∧ (p3 = 1 ∨ p3 = 1000000) := by
  rw [PLLCalc_uses_ref, href]
  simp only [Option.some_bind, div64_some h0]
  refine ⟨_, _, _, rfl, ?_⟩
  split_ifs <;> first | exact Or.inr rfl | exact Or.inl rfl

/-- `SetupPLLFreq` divides by the `p3` of `PLLCalc`, which is not zero. -/
theorem SetupPLLFreq_regs_some {p1 p2 p3 : Int} (h : p3 = 1 ∨ p3 = 1000000) :
    ∃ q, SetupPLLFreq_regs p1 p2 p3 = some q := by
  have h0 : p3 ≠ 0 := by
    rcases h with h | h <;> rw [h] <;> decide
  unfold SetupPLLFreq_regs
  rw [div64_some h0]
  exact ⟨_, rfl⟩

/-- In PLL-fixed mode with `|pllFreq| ≥ 6` no division of `CalcMultiSynth` is by zero. -/
theorem CalcMultiSynth_fixed_some (t pf : Int) (h1 : -9223372036854775808 ≤ pf)
    (h2 : pf < 9223372036854775808) (h6 : 6 ≤ pf ∨ pf ≤ -6) :
    ∃ r, CalcMultiSynth t pf = some r := by
  obtain ⟨hc0, hc1⟩ := CalcMultiSynth_freq_bounds t
  have hpf : pf ≠ 0 := by omega
  have hF : CalcMultiSynth_freq t ≠ 0 := by omega
  unfold CalcMultiSynth
  simp only [hpf, if_false, Option.bind_eq_bind, Option.pure_def, Option.some_bind]
  generalize CalcMultiSynth_freq t = F at hc0 hc1 hF ⊢
  -- the integer part
  obtain ⟨k1, k2⟩ := tdiv_cases pf F (by omega)
  have hp1 : (6 ≤ pf → Int.tdiv pf F = pf / F) ∧ (pf ≤ -6 → Int.tdiv pf F ≤ 0) := by
    refine ⟨fun h => k1 (by omega), fun h => ?_⟩
    rw [k2 (by omega)]
    have : 0 ≤ -pf / F := Int.ediv_nonneg (by omega) (by omega)
    omega
  have hb : -9223372036854775808 ≤ Int.tdiv pf F ∧ Int.tdiv pf F < 9223372036854775808 := by
    rcases h6 with h | h
    · rw [k1 (by omega)]
      have a1 : 0 ≤ pf / F := Int.ediv_nonneg (by omega) (by omega)
      have a2 : pf / F ≤ pf := Int.ediv_le_self F (by omega)
      omega
    · rw [k2 (by omega)]
      have a1 : 0 ≤ -pf / F := Int.ediv_nonneg (by omega) (by omega)
      have a2 : -pf / F ≤ -pf := Int.ediv_le_self F (by omega)
      omega
  have e1 : div64 pf F = some (Int.tdiv pf F) := by
    rw [div64_some hF, wrap64_of_range hb.1 hb.2]
  -- the two clamps
  obtain ⟨s1, s2⟩ := tdiv_cases pf 6 (by decide)
  have e6 : div64 pf multisynthAMin = some (Int.tdiv pf 6) ∧ Int.tdiv pf 6 ≠ 0 := by
    have hne : (multisynthAMin : Int) ≠ 0 := by decide
    rw [div64_some hne]
    show some (wrap64 (Int.tdiv pf 6)) = _ ∧ _
    rcases h6 with h | h
    · rw [s1 (by omega), wrap64_of_range (by omega) (by omega)]
      exact ⟨rfl, by omega⟩
    · rw [s2 (by omega), wrap64_of_range (by omega) (by omega)]
      exact ⟨rfl, by omega⟩
  obtain ⟨u1, u2⟩ := tdiv_cases pf 1800 (by decide)
  have e18 : 1800 < Int.tdiv pf F →
      div64 pf multisynthAMax = some (Int.tdiv pf 1800) ∧ Int.tdiv pf 1800 ≠ 0 := by
    intro hgt
    have hpos : 6 ≤ pf := by
      rcases h6 with h | h
      · exact h
      · have := hp1.2 h
        omega
    rw [hp1.1 hpos] at hgt
    have hmul : 1801 * F ≤ pf := (Int.le_ediv_iff_mul_le (by omega)).1 (by omega)
    have hne : (multisynthAMax : Int) ≠ 0 := by decide
    rw [div64_some hne]
    show some (wrap64 (Int.tdiv pf 1800)) = _ ∧ _
    rw [u1 (by omega), wrap64_of_range (by omega) (by omega)]
    exact ⟨rfl, by omega⟩
  rw [e1, Option.some_bind]
  by_cases hlt : Int.tdiv pf F < multisynthAMin
  · have hgt : ¬ Int.tdiv pf F > multisynthAMax := by
      simp only [multisynthAMin, multisynthAMax] at hlt ⊢
      omega
    simp only [hlt, hgt, if_true, if_false, e6.1, Option.some_bind, mod64_some e6.2,
      div64_some e6.2]
    split_ifs <;> exact ⟨_, rfl⟩
  · by_cases hgt : Int.tdiv pf F > multisynthAMax
    · obtain ⟨v1, v2⟩ := e18 hgt
      simp only [hlt, hgt, if_true, if_false, v1, Option.some_bind, mod64_some v2,
        div64_some v2]
      split_ifs <;> exact ⟨_, rfl⟩
    · simp only [hlt, hgt, if_false, Option.some_bind, mod64_some hF, div64_some hF]
      split_ifs <;> exact ⟨_, rfl⟩

/-- C22 (as amended). No arithmetic fault away from three inputs: the reference frequency
is always computed; whenever it is non-zero, `PLLCalc` returns for every target with
`p3 = 1` or `p3 = 10^6`, and `SetupPLLFreq` on PLL A or B, which divides by that `p3`,
returns; `CalcMultiSynth(freq, pllFreq)` returns for every `freq` when `pllFreq = 0` or
`|pllFreq| ≥ 6` (`pllFreq` an `int64`). -/
theorem no_zero_denominator :
    (∀ d : Dev, ∃ ref, PLLCalc_ref_freq d = some ref) ∧
    (∀ (d : Dev) (pllNum freq ref : Int), PLLCalc_ref_freq d = some ref → ref ≠ 0 →
      ∃ p1 p2 p3, PLLCalc d pllNum freq = some (p1, p2, p3) ∧ (p3 = 1 ∨ p3 = 1000000)) ∧
    (∀ (d : Dev) (targetPLL : Nat) (pllFreq ref : Int), targetPLL ≤ 1 →
      PLLCalc_ref_freq d = some ref → ref ≠ 0 →
      ∃ d', SetupPLLFreq d targetPLL pllFreq = some d') ∧
    (∀ freq pllFreq : Int, -9223372036854775808 ≤ pllFreq → pllFreq < 9223372036854775808 →
      (pllFreq = 0 ∨ 6 ≤ pllFreq ∨ pllFreq ≤ -6) →
      ∃ r, CalcMultiSynth freq pllFreq = some r) := by
  refine ⟨PLLCalc_ref_freq_some, fun d n f ref href h0 => PLLCalc_some_of_ref n f href h0,
    ?_, ?_⟩
  · intro d targetPLL pllFreq ref ht href h0
    obtain ⟨p1, p2, p3, hp, h3⟩ := PLLCalc_some_of_ref PLLA pllFreq href h0
    obtain ⟨⟨q1, q2, q3⟩, hq⟩ := @SetupPLLFreq_regs_some p1 p2 p3 h3
    unfold SetupPLLFreq
    obtain rfl | rfl : targetPLL = 0 ∨ targetPLL = 1 := by omega
    · simp only [if_true, hp, hq, Option.bind_eq_bind, Option.some_bind, Option.pure_def]
      exact ⟨_, rfl⟩
    · simp only [one_ne_zero, if_false, if_true, hp, hq, Option.bind_eq_bind,
        Option.some_bind, Option.pure_def]
      exact ⟨_, rfl⟩
  · intro freq pllFreq h1 h2 h
    rcases h with rfl | h
    · obtain ⟨p1, p2, p3, pf, hr, -, -⟩ := CalcMultiSynth_zero_range freq
      exact ⟨_, hr⟩
    · exact CalcMultiSynth_fixed_some freq pllFreq h1 h2 h

/-- C22, counterexample: `New` accepts the zero-valued `Opts`; the device it builds has
crystal frequency 0, hence reference frequency 0, and `PLLCalc` and `SetupPLLFreq` divide
by it. `CalcMultiSynth(500000, 1)` reduces its `freq` to `1 / 6 = 0` and divides by it, and
`SetupPLLFreq` on a PLL number other than 0 and 1 divides by `p3 = 0`. -/
theorem zero_denominators :
    (∃ d, New idleConn 0x60 zeroOpts = some (Except.ok d) ∧ d.crystalFreq = 0 ∧
      PLLCalc_ref_freq d = some 0 ∧ PLLCalc d 0 616000000 = none ∧
      (SetupPLLFreq d 0 616000000).isNone = true) ∧
    CalcMultiSynth 500000 1 = none ∧
    (SetupPLLFreq bootDev 2 616000000).isNone = true :=
  ⟨⟨_, rfl, by decide, by decide, by decide, by decide⟩, by decide, by decide⟩

/-- Instance of C22: `bootDev` (25 MHz crystal, correction 0) and a 900 MHz PLL. -/
theorem no_zero_denominator_witness :
    (∃ p1 p2 p3, PLLCalc bootDev 0 616000000 = some (p1, p2, p3) ∧
      (p3 = 1 ∨ p3 = 1000000)) ∧
    (∃ d', SetupPLLFreq bootDev 0 616000000 = some d') ∧
    (∃ r, CalcMultiSynth 10000000 900000000 = some r) :=
  ⟨no_zero_denominator.2.1 bootDev 0 616000000 25000000 (by decide) (by decide),
   no_zero_denominator.2.2.1 bootDev 0 616000000 25000000 (by decide) (by decide) (by decide),
   no_zero_denominator.2.2.2 10000000 900000000 (by decide) (by decide)
     (Or.inr (Or.inl (by decide)))⟩


/-! ## Transport failures and the stored state -/

theorem Tx_failed_regs (d : Dev) (w : List Nat) (rlen : Nat)
    (h : d.d.fail d.d.ops.length = true) : (d.Tx w rlen).1.d.regs = d.d.regs := by
  unfold Dev.Tx Conn.Tx
  simp only [h, if_true]

theorem SetupPLLFreq_B_some {d d' : Dev} {f : Int} (h : SetupPLLFreq d 1 f = some d') :
    ∃ q1 q2 q3,
      d' = { (d.Tx (SetupPLLFreq_buff pllBParameters q1 q2 q3) 0).1 with pllBFreq := f } := by
  unfold SetupPLLFreq at h
  simp only [one_ne_zero, if_false, if_true, Option.bind_eq_bind, Option.bind_eq_some,
    Option.pure_def, Option.some.injEq] at h
  obtain ⟨⟨p1, p2, p3⟩, -, y, hy, ⟨q1, q2, q3⟩, -, h⟩ := h
  subst hy
  exact ⟨q1, q2, q3, h.symm⟩

theorem set_of_getElem_some {α : Type} {v : α} :
    ∀ (l : List α) (i : Nat), l[i]? = some v → l.set i v = l
  | [], _, h => by simp at h
  | a :: l, 0, h => by
    simp only [List.getElem?_cons_zero, Option.some.injEq] at h
    rw [h]
    rfl
  | a :: l, i + 1, h => by
    simp only [List.getElem?_cons_succ] at h
    simp only [List.set_cons_succ, set_of_getElem_some l i h]

/-- C23 (as amended). No rollback on a transport failure: a returning `SetupPLLFreq` stores
`pllFreq` as the frequency of the PLL it addresses whether or not its write fails (when the
write fails the register file is unchanged and the frequency is stored all the same); a
returning `SetupFreq` on a channel in `0..5` stores the clamped frequency in `clkFreq[clk]`
and leaves `clkFirstSet[clk]` set, whatever the transport did. -/
theorem state_committed_on_failure :
    (∀ (d d' : Dev) (f : Int), SetupPLLFreq d 0 f = some d' →
      d'.pllAFreq = f ∧ (d.d.fail d.d.ops.length = true → d'.d.regs = d.d.regs)) ∧
    (∀ (d d' : Dev) (f : Int), SetupPLLFreq d 1 f = some d' →
      d'.pllBFreq = f ∧ (d.d.fail d.d.ops.length = true → d'.d.regs = d.d.regs)) ∧
    (∀ (fq : F64Quot) (d d' : Dev) (clk : Nat) (f : Int), clk ≤ 5 →
      SetupFreq fq d clk f = some d' →
      d'.clkFreq = d.clkFreq.set clk (SetupFreq_freq f) ∧
      d'.clkFirstSet = d.clkFirstSet.set clk true) := by
  refine ⟨?_, ?_, ?_⟩
  · intro d d' f h
    obtain ⟨p1, p2, p3, q1, q2, q3, -, -, rfl⟩ := SetupPLLFreq_some h
    exact ⟨rfl, fun hf => Tx_failed_regs d _ 0 hf⟩
  · intro d d' f h
    obtain ⟨q1, q2, q3, rfl⟩ := SetupPLLFreq_B_some h
    exact ⟨rfl, fun hf => Tx_failed_regs d _ 0 hf⟩
  · intro fq d d' clk f hclk h
    by_cases hf : SetupFreq_freq f ≤ 100000000
    · obtain ⟨p1, p2, p3, pf, q1, q2, q3, loe, -, -, -, -, hcf, -, -, -, -, hoe, -⟩ :=
        SetupFreq_single_log hclk hf h
      refine ⟨hcf, ?_⟩
      rcases hoe with ⟨ht, -, hfs⟩ | ⟨-, -, hfs⟩
      · rw [hfs, set_of_getElem_some _ _ ht]
      · exact hfs
    · obtain ⟨p1, p2, p3, pf, q1, q2, q3, loe, l, -, -, -, -, hcf, -, -, -, -, hoe, -⟩ :=
        SetupFreq_shared_log hclk (by omega) h
      refine ⟨hcf, ?_⟩
      rcases hoe with ⟨ht, -, hfs⟩ | ⟨-, -, hfs⟩
      · rw [hfs, set_of_getElem_some _ _ ht]
      · exact hfs

/-- C23, counterexample: on a transport that fails the write of `SetupPLLFreq` (transaction
10 of the device's life) the stored PLL-A frequency changes from 0 to 616 MHz; on one that
fails the PLL block write inside `SetupFreq(0, 10 MHz)` (transaction 12) the call still
stores the channel frequency and sets the first-set flag. -/
theorem failed_write_commits_state :
    (flakyDev 10).pllAFreq = 0 ∧
    (SetupPLLFreq (flakyDev 10) 0 616000000).map
        (fun d => (d.pllAFreq, d.d.ops.map Txn.ok)) =
      some (616000000, [true, true, true, true, true, true, true, true, true, true, false]) ∧
    (flakyDev 12).clkFreq = [0, 0, 0, 0, 0, 0] ∧
    (flakyDev 12).clkFirstSet = [false, false, false, false, false, false] ∧
    (SetupFreq exactQuot (flakyDev 12) 0 10000000).map
        (fun d => (d.clkFreq, d.clkFirstSet, d.d.ops.map Txn.ok)) =
      some ([10000000, 0, 0, 0, 0, 0], [true, false, false, false, false, false],
        [true, true, true, true, true, true, true, true, true, true, true, true, false, true,
         true]) := by
  decide

/-- The call `SetupPLLFreq(0, 616000000)` on `flakyDev 10` returns. -/
theorem flaky_pll_spec :
    SetupPLLFreq (flakyDev 10) 0 616000000 =
      some ((SetupPLLFreq (flakyDev 10) 0 616000000).getD (flakyDev 10)) := by
  have h : (SetupPLLFreq (flakyDev 10) 0 616000000).isSome = true := by decide
  obtain ⟨d', hd'⟩ := Option.isSome_iff_exists.mp h
  simp only [hd', Option.getD_some]

/-- The call `SetupFreq(0, 10000000)` on `flakyDev 12` returns. -/
theorem flaky_freq_spec :
    SetupFreq exactQuot (flakyDev 12) 0 10000000 =
      some ((SetupFreq exactQuot (flakyDev 12) 0 10000000).getD (flakyDev 12)) := by
  have h : (SetupFreq exactQuot (flakyDev 12) 0 10000000).isSome = true := by decide
  obtain ⟨d', hd'⟩ := Option.isSome_iff_exists.mp h
  simp only [hd', Option.getD_some]

/-- Instance of C23: the failed PLL write on `flakyDev 10`, and `SetupFreq(0, 10 MHz)` on
`flakyDev 12`. -/
theorem state_committed_on_failure_witness :
    (((SetupPLLFreq (flakyDev 10) 0 616000000).getD (flakyDev 10)).pllAFreq = 616000000 ∧
      ((SetupPLLFreq (flakyDev 10) 0 616000000).getD (flakyDev 10)).d.regs =
        (flakyDev 10).d.regs) ∧
    ((SetupFreq exactQuot (flakyDev 12) 0 10000000).getD (flakyDev 12)).clkFreq =
      (flakyDev 12).clkFreq.set 0 (SetupFreq_freq 10000000) ∧
    ((SetupFreq exactQuot (flakyDev 12) 0 10000000).getD (flakyDev 12)).clkFirstSet =
      (flakyDev 12).clkFirstSet.set 0 true :=
  ⟨⟨(state_committed_on_failure.1 (flakyDev 10) _ 616000000 flaky_pll_spec).1,
    (state_committed_on_failure.1 (flakyDev 10) _ 616000000 flaky_pll_spec).2 (by decide)⟩,
   state_committed_on_failure.2.2 exactQuot (flakyDev 12) _ 0 10000000 (by decide)
     flaky_freq_spec⟩

/-! ## The multisynth `P1` field below 150 MHz -/

/-- Below 150 MHz the planned triple is `(a, 0, 1)` with `6 ≤ a ≤ 1800`, and the register
value `P1 = 128 a - 512` computed from it lies in `0 .. multisynthP1Max`: the divide-by-4
triple is the only one that leaves the field. -/
theorem P1_in_range_below_divby4 (fq : F64Quot) (hfq : fq 0 1 = 0) (t : Int)
    (ht : t < 150000000) :
    ∃ a pf, CalcMultiSynth t 0 = some (a, 0, 1, pf) ∧ 6 ≤ a ∧ a ≤ 1800 ∧
      (SetupMultiSynth_regs fq a 0 1).1 = 128 * a - 512 ∧
      0 ≤ (SetupMultiSynth_regs fq a 0 1).1 ∧
      (SetupMultiSynth_regs fq a 0 1).1 ≤ multisynthP1Max := by
  obtain ⟨hc0, hc1⟩ := CalcMultiSynth_freq_bounds t
  have hc2 : CalcMultiSynth_freq t < 150000000 := by
    simp only [CalcMultiSynth_freq, multiSynthMaxFreq, multiSynthMinFreq, freqMult, mul_one]
    split_ifs <;> omega
  have hd4 : CalcMultiSynth_divby4 t = 0 := by
    simp only [CalcMultiSynth_divby4, multisynthDivby4Freq, freqMult, mul_one]
    rw [if_neg (by omega)]
  have hregs : ∀ a : Int, 6 ≤ a → a ≤ 1800 →
      (SetupMultiSynth_regs fq a 0 1).1 = 128 * a - 512 := by
    intro a ha0 ha1
    simp only [SetupMultiSynth_regs, hfq, sub64, add64, mul64]
    rw [wrap64_of_range (x := 128 * a) (by omega) (by omega),
      wrap64_of_range (x := 128 * a + 0) (by omega) (by omega),
      wrap64_of_range (by omega) (by omega)]
    omega
  have key : ∃ a pf, CalcMultiSynth t 0 = some (a, 0, 1, pf) ∧ 6 ≤ a ∧ a ≤ 1800 := by
    unfold CalcMultiSynth
    simp only [hd4, if_true, pllVcoMax, freqMult, mul_one, Option.bind_eq_bind,
      Option.pure_def]
    generalize CalcMultiSynth_freq t = F at hc0 hc1 hc2
    have hF : (0 : Int) < F := by omega
    have hq0 : 6 ≤ 900000000 / F := by
      rw [Int.le_ediv_iff_mul_le hF]
      omega
    have hq1 : 900000000 / F ≤ 1800 := by
      have : 900000000 / F < 1801 := by
        rw [Int.ediv_lt_iff_lt_mul hF]
        omega
      omega
    rw [div64_of_nonneg (by omega) (by omega) hF]
    simp only [Option.some_bind, zero_ne_one, if_false]
    refine ⟨_, _, rfl, ?_, ?_⟩ <;> split_ifs <;> omega
  obtain ⟨a, pf, hcalc, ha0, ha1⟩ := key
  refine ⟨a, pf, hcalc, ha0, ha1, hregs a ha0 ha1, ?_, ?_⟩
  · rw [hregs a ha0 ha1]
    omega
  · rw [hregs a ha0 ha1]
    simp only [multisynthP1Max]
    omega

/-! ## The shared-PLL path on channels 3..5 -/

set_option maxRecDepth 100000 in
/-- C15, evaluation: on the fresh device `SetupFreq(3, 120000000)` takes the shared-PLL
path, plans channel 3 as `(6, 0, 1)` in PLL-fixed mode against the new PLL frequency
720 MHz and resets PLL A once, but sends the channel's parameter block
`[_, 0, 1, 0, 1, 0, 0, 0, 0]` to register 0, not to the multisynth-3 registers 66..73
(`clk3Parameters`). With channel 0 already at 120 MHz, `SetupFreq(3, 130000000)` re-encodes
channel 0 at register 42 against the new 780 MHz and again sends channel 3's block to
register 0. The only transactions addressed to the registers 66..73 are the
read-modify-write of the R-divider byte 68; the divider parameters never reach them. -/
theorem shared_path_block_misaddressed :
    clk3Parameters = 66 ∧
    CalcMultiSynth 120000000 0 = some (6, 0, 1, 720000000) ∧
    CalcMultiSynth 120000000 720000000 = some (6, 0, 1, 720000000) ∧
    (runFreq bootDev 3 120000000).clkFreq = [0, 0, 0, 120000000, 0, 0] ∧
    newLog bootDev (runFreq bootDev 3 120000000) =
      [[3], [3, 247], [26, 66, 64, 0, 12, 102, 246, 26, 128],
       [0, 0, 1, 0, 1, 0, 0, 0, 0], [19], [19, 128], [68], [68, 0], [177, 32]] ∧
    CalcMultiSynth 130000000 0 = some (6, 0, 1, 780000000) ∧
    CalcMultiSynth 120000000 780000000 = some (6, 500000, 1000000, 780000000) ∧
    CalcMultiSynth 130000000 780000000 = some (6, 0, 1, 780000000) ∧
    (runFreq (runFreq bootDev 0 120000000) 3 130000000).clkFreq =
      [120000000, 0, 0, 130000000, 0, 0] ∧
    newLog (runFreq bootDev 0 120000000)
        (runFreq (runFreq bootDev 0 120000000) 3 130000000) =
      [[3], [3, 246], [26, 66, 64, 0, 13, 153, 249, 39, 192],
       [42, 66, 64, 0, 1, 64, 240, 0, 0], [16], [16, 128], [44], [44, 0],
       [0, 0, 1, 0, 1, 0, 0, 0, 0], [19], [19, 128], [68], [68, 0], [177, 32]] ∧
    (newLog (runFreq bootDev 0 120000000)
        (runFreq (runFreq bootDev 0 120000000) 3 130000000)).filter
      (fun w => decide (66 ≤ w.headD 0 ∧ w.headD 0 ≤ 73)) = [[68], [68, 0]] := by
  decide

end Si5351
